import Mathlib

/-! gollm: the OpenAI provider (providers/openai.go)

A shallow embedding of the schema sanitizer, the request builders and the
response parser of `providers/openai.go`, with the properties of the
specification stated over it: proved, or refuted on a concrete input.

* A Go value of static type `interface{}` is a `Value`, with one constructor per
  dynamic type the provider creates or inspects; a type assertion is a match on
  the constructor, so `[]map[string]interface{}` and `[]interface{}` are told apart
  as they are at run time.
* A Go `map[string]interface{}` is an association list. A Go map holds each key
  once: that is `keysUnique` for one map and `Value.wf` for all maps inside a value.
  A `range` loop visits the entries in list order; the maps the code builds do not
  depend on the order of the visit when the keys are distinct.
* A failed single-value type assertion panics: the helper of the statement returns
  `none`, the method returns the error `panic`.
* `json.Unmarshal` and `json.Marshal` are library code: a parser takes the decoded
  body, a builder returns the map it hands to `json.Marshal`.
* A struct field named `Type` in Go is named `Type_` here.
-/

namespace Gollm

/-! ## Data model -/

/-- The struct `utils.Tool`, with the fields the provider reads: `Type`,
`Function.Name`, `Function.Description` and `Function.Parameters`. The web-search
fields of the struct are never read in `providers/openai.go`. -/
structure Tool (α : Type) where
  Type_ : String
  Name : String
  Description : String
  Parameters : List (String × α)

/-- A Go value held in an `interface{}`, tagged by its dynamic type. -/
inductive Value where
  /-- the nil interface (JSON `null`) -/
  | null
  /-- dynamic type `bool` -/
  | bool (b : Bool)
  /-- dynamic type `int` -/
  | int (n : Int)
  /-- dynamic type `float64` (what `encoding/json` decodes a number to) -/
  | float (x : Rat)
  /-- dynamic type `string` -/
  | str (s : String)
  /-- dynamic type `[]interface{}` (a decoded JSON array) -/
  | slice (xs : List Value)
  /-- dynamic type `map[string]interface{}` (a decoded JSON object) -/
  | map (kvs : List (String × Value))
  /-- dynamic type `[]string` -/
  | strSlice (xs : List String)
  /-- dynamic type `[]map[string]interface{}` -/
  | mapSlice (ms : List (List (String × Value)))
  /-- dynamic type `[]map[string]string` -/
  | strMapSlice (ms : List (List (String × String)))
  /-- dynamic type `[]utils.Tool` -/
  | tools (ts : List (Tool Value))

/-- A Go `map[string]interface{}`. -/
abbrev GoMap := List (String × Value)

/-- The assignment `m[k] = v`: replaces the entry of `k`, or adds one. -/
def mapSet : GoMap → String → Value → GoMap
  | [], k, v => [(k, v)]
  | (k', v') :: rest, k, v =>
    if k' == k then (k, v) :: rest else (k', v') :: mapSet rest k v

/-- The statement `delete(m, k)`. -/
def mapDelete (m : GoMap) (k : String) : GoMap :=
  m.filter (fun e => !(e.1 == k))

/-- No string occurs twice. -/
def keysUnique : List String → Bool
  | [] => true
  | k :: ks => !ks.contains k && keysUnique ks

mutual
/-- Every map inside the value holds each key once, as a Go map does. -/
def Value.wf : Value → Bool
  | .slice xs => wfList xs
  | .map kvs => keysUnique (kvs.map Prod.fst) && wfEntries kvs
  | .mapSlice ms => wfMaps ms
  | .tools ts => wfTools ts
  | _ => true
/-- All values of a slice are well formed. -/
def wfList : List Value → Bool
  | [] => true
  | x :: xs => x.wf && wfList xs
/-- All values of the entries are well formed. -/
def wfEntries : List (String × Value) → Bool
  | [] => true
  | (_, v) :: rest => v.wf && wfEntries rest
/-- All maps of a slice of maps are well formed. -/
def wfMaps : List (List (String × Value)) → Bool
  | [] => true
  | m :: ms => (keysUnique (m.map Prod.fst) && wfEntries m) && wfMaps ms
/-- The parameter maps of all tools are well formed. -/
def wfTools : List (Tool Value) → Bool
  | [] => true
  | ⟨_, _, _, ps⟩ :: ts => (keysUnique (ps.map Prod.fst) && wfEntries ps) && wfTools ts
end

/-! ## Schema sanitizer -/

mutual
/-- The function `cleanSchemaForOpenAI` (openai.go:480). -/
def cleanSchemaForOpenAI : Value → Value
  | .map schemaMap =>
    let result := cleanSchemaLoop schemaMap []
    match schemaMap.lookup "type" with
    | some (.str t) =>
      if t == "object" then .map (mapSet result "additionalProperties" (.bool false))
      else .map result
    | _ => .map result
  | schema => schema
/-- The loop `for k, v := range schemaMap` of `cleanSchemaForOpenAI`,
with the map `result` built so far. -/
def cleanSchemaLoop : List (String × Value) → GoMap → GoMap
  | [], result => result
  | (k, v) :: rest, result =>
    if k == "type" || k == "properties" || k == "required" || k == "items" then
      if k == "properties" then
        cleanSchemaLoop rest (mapSet result k (.map (cleanSchemaProps v)))
      else if k == "items" then
        cleanSchemaLoop rest (mapSet result k (cleanSchemaForOpenAI v))
      else
        cleanSchemaLoop rest (mapSet result k v)
    else cleanSchemaLoop rest result
/-- The map `props` built for the value `v` of the key `properties`: empty
unless `v` is a map. -/
def cleanSchemaProps : Value → GoMap
  | .map propsMap => cleanSchemaPropsLoop propsMap []
  | _ => []
/-- The loop `for propName, propSchema := range propsMap`. -/
def cleanSchemaPropsLoop : List (String × Value) → GoMap → GoMap
  | [], props => props
  | (propName, propSchema) :: rest, props =>
    cleanSchemaPropsLoop rest (mapSet props propName (cleanSchemaForOpenAI propSchema))
end

/-- A step from a schema node to a child: the schema of a property, the schema
under `items`, or the `i`-th element of an array-valued `items`. -/
inductive Step where
  | prop (name : String)
  | items
  | itemsElem (i : Nat)

/-- The child of a schema node along one step, when it exists. -/
def child : Value → Step → Option Value
  | .map kvs, .prop name =>
    match kvs.lookup "properties" with
    | some (.map pm) => pm.lookup name
    | _ => none
  | .map kvs, .items => kvs.lookup "items"
  | .map kvs, .itemsElem i =>
    match kvs.lookup "items" with
    | some (.slice xs) => xs.get? i
    | _ => none
  | _, _ => none

/-- The node reached from `v` along a path of steps. -/
def nodeAt (v : Value) : List Step → Option Value
  | [] => some v
  | s :: rest => (child v s).bind (fun c => nodeAt c rest)

/-- The step does not enter an array-valued `items`. -/
def Step.single : Step → Bool
  | .itemsElem _ => false
  | _ => true

/-- The keys a sanitized schema node may carry. -/
def schemaKeys : List String :=
  ["type", "properties", "required", "items", "additionalProperties"]

/-- The keys the loop of `cleanSchemaForOpenAI` copies. -/
def keptKey (k : String) : Bool :=
  k == "type" || k == "properties" || k == "required" || k == "items"

/-- What the loop of `cleanSchemaForOpenAI` stores for one entry of the input. -/
def cleanEntry (e : String × Value) : Option (String × Value) :=
  if keptKey e.1 then
    if e.1 == "properties" then some (e.1, .map (cleanSchemaProps e.2))
    else if e.1 == "items" then some (e.1, cleanSchemaForOpenAI e.2)
    else some (e.1, e.2)
  else none

/-- The entry the sanitizer adds to a node whose `type` is the string `object`. -/
def objectMark (kvs : List (String × Value)) : GoMap :=
  match kvs.lookup "type" with
  | some (.str t) => if t == "object" then [("additionalProperties", .bool false)] else []
  | _ => []

/-- The value has dynamic type `map[string]interface{}`. -/
def Value.isMap : Value → Bool
  | .map _ => true
  | _ => false

/-- The node is not object-typed, or it carries `additionalProperties` equal to `false`. -/
def closedObject : Value → Bool
  | .map kvs =>
    match kvs.lookup "type" with
    | some (.str t) =>
      if t == "object" then
        match kvs.lookup "additionalProperties" with
        | some (.bool b) => !b
        | _ => false
      else true
    | _ => true
  | _ => true

/-- The schema `{"type":"object","title":"T","properties":{"a":{"type":"object","minProperties":1},
"b":{"type":"array","items":{"type":"object","format":"x"}}},"required":["a"]}`. -/
def nestedSchema : Value :=
  .map [("type", .str "object"), ("title", .str "T"),
    ("properties", .map [
      ("a", .map [("type", .str "object"), ("minProperties", .float 1)]),
      ("b", .map [("type", .str "array"),
        ("items", .map [("type", .str "object"), ("format", .str "x")])])]),
    ("required", .slice [.str "a"])]

/-- The schema `{"type":"array","items":[{"type":"object"}]}`, whose `items` is an array. -/
def tupleItemsSchema : Value :=
  .map [("type", .str "array"), ("items", .slice [.map [("type", .str "object")]])]

/-! ## Response types (types/message.go, types/web_search.go) -/

/-- The struct `types.TokenUsage`. -/
structure TokenUsage where
  PromptTokens : Int
  CompletionTokens : Int
  TotalTokens : Int
  CacheCreationInputTokens : Int
  CacheReadInputTokens : Int

/-- The struct `types.Source`. -/
structure Source where
  URL : String
  Title : String
  Type_ : String

/-- The struct `types.WebSearchAction`. -/
structure WebSearchAction where
  Type_ : String
  Query : String
  Domains : List String
  Sources : List Source

/-- The struct `types.WebSearchCall`; `Action` is a pointer, `none` when nil. -/
structure WebSearchCall where
  ID : String
  Type_ : String
  Status : String
  Action : Option WebSearchAction

/-- The struct `types.URLCitation`. -/
structure URLCitation where
  Type_ : String
  StartIndex : Int
  EndIndex : Int
  URL : String
  Title : String

/-- The struct `types.Annotation`. -/
structure Annotation where
  Type_ : String
  StartIndex : Int
  EndIndex : Int
  URL : String
  Title : String

/-- A value stored in `ResponseDetails.Metadata`: one of the three slices the
parser stores, or any other Go value. -/
inductive MetaValue where
  | webSearchCalls (calls : List WebSearchCall)
  | annotations (anns : List Annotation)
  | citations (cites : List URLCitation)
  | other (v : Value)

/-- `m[k] = v` on a metadata map. -/
def metaSet : List (String × MetaValue) → String → MetaValue → List (String × MetaValue)
  | [], k, v => [(k, v)]
  | (k', v') :: rest, k, v =>
    if k' == k then (k, v) :: rest else (k', v') :: metaSet rest k v

/-- The struct `types.ResponseDetails`; a nil `Metadata` is the empty map. -/
structure ResponseDetails where
  ID : String
  TokenUsage : TokenUsage
  Model : String
  Metadata : List (String × MetaValue)

/-! ## The decoded response body

`ParseResponseWithUsage` decodes the body with `json.Unmarshal` into an anonymous
struct; the structures below are that struct, field by field. -/

/-- One element of `choices[].message.tool_calls`; `Arguments` is what
`json.Unmarshal(call.Function.Arguments, &args)` yields, `none` when it fails. -/
structure ToolCallBody where
  ID : String
  Type_ : String
  Name : String
  Arguments : Option Value

/-- The field `choices[].message`. -/
structure MessageBody where
  Content : String
  ToolCalls : List ToolCallBody

/-- The field `usage`. -/
structure UsageBody where
  PromptTokens : Int
  CompletionTokens : Int
  TotalTokens : Int

/-- One element of `output[].action.sources`. -/
structure SourceBody where
  URL : String
  Title : String
  Type_ : String

/-- The field `output[].action`. -/
structure ActionBody where
  Type_ : String
  Query : String
  Domains : List String
  Sources : List SourceBody

/-- One element of `output[].content[].annotations`. -/
structure AnnotationBody where
  Type_ : String
  StartIndex : Int
  EndIndex : Int
  URL : String
  Title : String

/-- One element of `output[].content`. -/
structure ContentBody where
  Type_ : String
  Text : String
  Annotations : List AnnotationBody

/-- One element of `output`; `Action` is a pointer, `none` when nil. -/
structure OutputBody where
  Type_ : String
  ID : String
  Status : String
  Action : Option ActionBody
  Role : String
  Content : List ContentBody

/-- The decoded response body; an element of `Choices` is the `message` of the
choice, its only field. -/
structure ResponseBody where
  ID : String
  Model : String
  Choices : List MessageBody
  Usage : UsageBody
  Output : List OutputBody

/-- The outcomes of the parsers other than a result. -/
inductive ParseError where
  /-- `json.Unmarshal` of the body failed -/
  | decode
  /-- "empty response from API" -/
  | emptyResponse
  /-- "error parsing function arguments" -/
  | arguments
  /-- "error formatting function call" -/
  | format
  /-- "no content or tool calls in response" -/
  | noContent
  /-- a runtime panic -/
  | panic

/-! ## parseWebSearchResponse (openai.go:752) -/

/-- The conversion `int(x)` of a `float64`: truncation toward zero. For a value outside
the range of `int` the result in Go depends on the implementation; here it is the exact
truncation, and no property proved below depends on the conversion. -/
def floatToInt (x : Rat) : Int := Int.tdiv x.num x.den

/-- The loop over `domains`: the strings among the elements are appended. -/
def parseDomains : List Value → List String → List String
  | [], acc => acc
  | .str domain :: rest, acc => parseDomains rest (acc ++ [domain])
  | _ :: rest, acc => parseDomains rest acc

/-- The source built from one map of `sources`; `srcMap["url"].(string)` panics
when the url is not a string. -/
def parseSource (srcMap : GoMap) : Option Source :=
  match srcMap.lookup "url" with
  | some (.str url) =>
    let source : Source := { URL := url, Title := "", Type_ := "" }
    let source :=
      match srcMap.lookup "title" with
      | some (.str title) => { source with Title := title }
      | _ => source
    let source :=
      match srcMap.lookup "type" with
      | some (.str srcType) => { source with Type_ := srcType }
      | _ => source
    some source
  | _ => none

/-- The loop over `sources`: every element that is a map yields a source. -/
def parseSources : List Value → List Source → Option (List Source)
  | [], acc => some acc
  | .map srcMap :: rest, acc =>
    match parseSource srcMap with
    | some source => parseSources rest (acc ++ [source])
    | none => none
  | _ :: rest, acc => parseSources rest acc

/-- The action built from `itemMap["action"]`; `actionData["type"].(string)` panics
when the type is not a string. The domains are read only from a `[]interface{}`,
the sources only from a `[]interface{}`. -/
def parseAction (actionData : GoMap) : Option WebSearchAction :=
  match actionData.lookup "type" with
  | some (.str t) =>
    let action : WebSearchAction := { Type_ := t, Query := "", Domains := [], Sources := [] }
    let action :=
      match actionData.lookup "query" with
      | some (.str query) => { action with Query := query }
      | _ => action
    let action :=
      match actionData.lookup "domains" with
      | some (.slice domains) => { action with Domains := parseDomains domains action.Domains }
      | _ => action
    match actionData.lookup "sources" with
    | some (.slice sources) =>
      match parseSources sources action.Sources with
      | some srcs => some { action with Sources := srcs }
      | none => none
    | _ => some action
  | _ => none

/-- The call built from an item of type `web_search_call`; the assertions on `id`
and `status` panic when they are not strings. -/
def parseCall (itemType : String) (itemMap : GoMap) : Option WebSearchCall :=
  match itemMap.lookup "id", itemMap.lookup "status" with
  | some (.str id), some (.str status) =>
    match itemMap.lookup "action" with
    | some (.map actionData) =>
      match parseAction actionData with
      | some action => some { ID := id, Type_ := itemType, Status := status, Action := some action }
      | none => none
    | _ => some { ID := id, Type_ := itemType, Status := status, Action := none }
  | _, _ => none

/-- What `parseWebSearchResponse` accumulates while it walks the output items. -/
structure WebSearchAcc where
  webSearchCalls : List WebSearchCall
  annotations : List Annotation
  citations : List URLCitation
  content : String

/-- The annotation built from one map of `annotations`; `annMap["type"].(string)`
panics when the type is not a string. The indices are read only from a `float64`. -/
def parseAnnotation (annMap : GoMap) : Option Annotation :=
  match annMap.lookup "type" with
  | some (.str t) =>
    let ann : Annotation := { Type_ := t, StartIndex := 0, EndIndex := 0, URL := "", Title := "" }
    let ann :=
      match annMap.lookup "start_index" with
      | some (.float startIdx) => { ann with StartIndex := floatToInt startIdx }
      | _ => ann
    let ann :=
      match annMap.lookup "end_index" with
      | some (.float endIdx) => { ann with EndIndex := floatToInt endIdx }
      | _ => ann
    let ann :=
      match annMap.lookup "url" with
      | some (.str url) => { ann with URL := url }
      | _ => ann
    let ann :=
      match annMap.lookup "title" with
      | some (.str title) => { ann with Title := title }
      | _ => ann
    some ann
  | _ => none

/-- The loop over `annArray`: every map yields an annotation, and a citation too
when its type is `url_citation`. -/
def parseAnnotations : List Value → WebSearchAcc → Option WebSearchAcc
  | [], acc => some acc
  | .map annMap :: rest, acc =>
    match parseAnnotation annMap with
    | some ann =>
      let acc := { acc with annotations := acc.annotations ++ [ann] }
      let acc :=
        if ann.Type_ == "url_citation" then
          { acc with citations := acc.citations ++
              [{ Type_ := ann.Type_, StartIndex := ann.StartIndex, EndIndex := ann.EndIndex,
                 URL := ann.URL, Title := ann.Title }] }
        else acc
      parseAnnotations rest acc
    | none => none
  | _ :: rest, acc => parseAnnotations rest acc

/-- The loop over `contentArray`: the text of every map is appended, its
annotations are read only from a `[]interface{}`. -/
def parseContent : List Value → WebSearchAcc → Option WebSearchAcc
  | [], acc => some acc
  | .map contentItem :: rest, acc =>
    let acc :=
      match contentItem.lookup "text" with
      | some (.str text) => { acc with content := acc.content ++ text }
      | _ => acc
    match contentItem.lookup "annotations" with
    | some (.slice annArray) =>
      match parseAnnotations annArray acc with
      | some acc => parseContent rest acc
      | none => none
    | _ => parseContent rest acc
  | _ :: rest, acc => parseContent rest acc

/-- The loop `for _, item := range output` of `parseWebSearchResponse`. -/
def parseOutput : List Value → WebSearchAcc → Option WebSearchAcc
  | [], acc => some acc
  | .map itemMap :: rest, acc =>
    let itemType : String :=
      match itemMap.lookup "type" with
      | some (.str t) => t
      | _ => ""
    if itemType == "web_search_call" then
      match parseCall itemType itemMap with
      | some call => parseOutput rest { acc with webSearchCalls := acc.webSearchCalls ++ [call] }
      | none => none
    else if itemType == "message" then
      match itemMap.lookup "content" with
      | some (.slice contentArray) =>
        match parseContent contentArray acc with
        | some acc => parseOutput rest acc
        | none => none
      | _ => parseOutput rest acc
    else parseOutput rest acc
  | _ :: rest, acc => parseOutput rest acc

/-- The function `parseWebSearchResponse`; `none` is a runtime panic. -/
def parseWebSearchResponse (output : List Value) (details : ResponseDetails) :
    Option (String × ResponseDetails) :=
  match parseOutput output
      { webSearchCalls := [], annotations := [], citations := [], content := "" } with
  | some acc =>
    let md := metaSet details.Metadata "web_search_calls" (.webSearchCalls acc.webSearchCalls)
    let md := metaSet md "annotations" (.annotations acc.annotations)
    let md := metaSet md "citations" (.citations acc.citations)
    some (acc.content, { details with Metadata := md })
  | none => none

/-! ## ParseResponseWithUsage (openai.go:581) -/

/-- The map built for one source of an action. -/
def sourceMap (src : SourceBody) : GoMap :=
  [("url", .str src.URL), ("title", .str src.Title), ("type", .str src.Type_)]

/-- The map `actionMap` built for the action of an output item: the domains are
stored as a `[]string`, the sources as a `[]map[string]interface{}`. -/
def actionMap (action : ActionBody) : GoMap :=
  let m : GoMap := [("type", .str action.Type_)]
  let m := if action.Query != "" then mapSet m "query" (.str action.Query) else m
  let m :=
    if action.Domains.length > 0 then mapSet m "domains" (.strSlice action.Domains) else m
  let m :=
    if action.Sources.length > 0 then
      mapSet m "sources" (.mapSlice (action.Sources.map sourceMap))
    else m
  m

/-- The map built for one annotation of a content fragment: the indices are
stored as `int`. -/
def annotationMap (ann : AnnotationBody) : GoMap :=
  [("type", .str ann.Type_), ("start_index", .int ann.StartIndex),
   ("end_index", .int ann.EndIndex), ("url", .str ann.URL), ("title", .str ann.Title)]

/-- The map `contentMap` built for one content fragment: the annotations are
stored as a `[]map[string]interface{}`. -/
def contentMap (c : ContentBody) : GoMap :=
  let m : GoMap := [("type", .str c.Type_)]
  let m := if c.Text != "" then mapSet m "text" (.str c.Text) else m
  let m :=
    if c.Annotations.length > 0 then
      mapSet m "annotations" (.mapSlice (c.Annotations.map annotationMap))
    else m
  m

/-- The map `itemMap` built for one output item: the content is stored as a
`[]map[string]interface{}`. -/
def itemMap (item : OutputBody) : GoMap :=
  let m : GoMap := [("type", .str item.Type_), ("id", .str item.ID), ("status", .str item.Status)]
  let m :=
    match item.Action with
    | some action => mapSet m "action" (.map (actionMap action))
    | none => m
  let m := if item.Role != "" then mapSet m "role" (.str item.Role) else m
  let m :=
    if item.Content.length > 0 then
      mapSet m "content" (.mapSlice (item.Content.map contentMap))
    else m
  m

/-- The loop over `message.ToolCalls`: every call is formatted, in order. -/
def formatCalls (formatFunctionCall : String → Value → Option String) :
    List ToolCallBody → List String → Except ParseError (List String)
  | [], acc => .ok acc
  | call :: rest, acc =>
    match call.Arguments with
    | none => .error .arguments
    | some args =>
      match formatFunctionCall call.Name args with
      | none => .error .format
      | some functionCall => formatCalls formatFunctionCall rest (acc ++ [functionCall])

/-- The method `ParseResponseWithUsage`. `decoded` is the result of
`json.Unmarshal(body, &response)` (`none` when it fails) and `formatFunctionCall`
is `utils.FormatFunctionCall` (`none` when it returns an error). On an error the
Go method returns the empty text and nil details. -/
def ParseResponseWithUsage (formatFunctionCall : String → Value → Option String)
    (decoded : Option ResponseBody) : Except ParseError (String × ResponseDetails) :=
  match decoded with
  | none => .error .decode
  | some response =>
    let details : ResponseDetails :=
      { ID := response.ID,
        Model := response.Model,
        TokenUsage :=
          { PromptTokens := response.Usage.PromptTokens,
            CompletionTokens := response.Usage.CompletionTokens,
            TotalTokens := response.Usage.TotalTokens,
            CacheCreationInputTokens := 0,
            CacheReadInputTokens := 0 },
        Metadata := [] }
    if response.Output.length > 0 then
      let outputInterfaces : List Value := response.Output.map (fun item => .map (itemMap item))
      match parseWebSearchResponse outputInterfaces details with
      | some r => .ok r
      | none => .error .panic
    else
      match response.Choices with
      | [] => .error .emptyResponse
      | message :: _ =>
        if message.Content != "" then .ok (message.Content, details)
        else if message.ToolCalls.length > 0 then
          match formatCalls formatFunctionCall message.ToolCalls [] with
          | .ok functionCalls => .ok ("\n".intercalate functionCalls, details)
          | .error e => .error e
        else .error .noContent

/-- The content fragment holding `text` and `annotations`. -/
def fragment (text : String) (annotations : List AnnotationBody) : ContentBody :=
  { Type_ := "output_text", Text := text, Annotations := annotations }

/-- The decoded body
`{"id":"resp_1","model":"gpt-4o","output":[{"type":"message","id":"msg_1","status":"completed",
"role":"assistant","content":[{"type":"output_text","text":"A","annotations":[{"type":
"url_citation","start_index":0,"end_index":1,"url":"https://example.com","title":"Example"}]},
{"type":"output_text","text":"B"}]}]}`. -/
def citedBody : ResponseBody :=
  { ID := "resp_1", Model := "gpt-4o", Choices := [],
    Usage := { PromptTokens := 0, CompletionTokens := 0, TotalTokens := 0 },
    Output := [
      { Type_ := "message", ID := "msg_1", Status := "completed", Action := none,
        Role := "assistant",
        Content := [
          fragment "A" [{ Type_ := "url_citation", StartIndex := 0, EndIndex := 1,
                          URL := "https://example.com", Title := "Example" }],
          fragment "B" []] }] }

/-- The decoded body
`{"id":"resp_2","model":"gpt-4o","output":[{"type":"web_search_call","id":"ws_1",
"status":"completed","action":{"type":"search","query":"go","domains":["go.dev"],
"sources":[{"url":"https://go.dev","title":"Go","type":"web"}]}}]}`. -/
def searchBody : ResponseBody :=
  { ID := "resp_2", Model := "gpt-4o", Choices := [],
    Usage := { PromptTokens := 0, CompletionTokens := 0, TotalTokens := 0 },
    Output := [
      { Type_ := "web_search_call", ID := "ws_1", Status := "completed",
        Action := some { Type_ := "search", Query := "go", Domains := ["go.dev"],
                         Sources := [{ URL := "https://go.dev", Title := "Go", Type_ := "web" }] },
        Role := "", Content := [] }] }

/-- The output items of `citedBody` as the generic decoder of `encoding/json` yields
them: arrays are `[]interface{}`, numbers are `float64`. -/
def citedOutputGeneric : List Value :=
  [.map [("type", .str "message"), ("id", .str "msg_1"), ("status", .str "completed"),
    ("role", .str "assistant"),
    ("content", .slice [
      .map [("type", .str "output_text"), ("text", .str "A"),
        ("annotations", .slice [
          .map [("type", .str "url_citation"), ("start_index", .float 0),
            ("end_index", .float 1), ("url", .str "https://example.com"),
            ("title", .str "Example")]])],
      .map [("type", .str "output_text"), ("text", .str "B")]])]]

/-- The output items of `searchBody` as the generic decoder of `encoding/json`
yields them. -/
def searchOutputGeneric : List Value :=
  [.map [("type", .str "web_search_call"), ("id", .str "ws_1"), ("status", .str "completed"),
    ("action", .map [("type", .str "search"), ("query", .str "go"),
      ("domains", .slice [.str "go.dev"]),
      ("sources", .slice [
        .map [("url", .str "https://go.dev"), ("title", .str "Go"), ("type", .str "web")]])])]]

/-- Response details with nothing set. -/
def emptyDetails : ResponseDetails :=
  { ID := "", Model := "",
    TokenUsage := { PromptTokens := 0, CompletionTokens := 0, TotalTokens := 0,
                    CacheCreationInputTokens := 0, CacheReadInputTokens := 0 },
    Metadata := [] }

/-- The action `ParseResponseWithUsage` records for an action of the body. -/
def recordedAction (action : ActionBody) : WebSearchAction :=
  { Type_ := action.Type_, Query := action.Query, Domains := [], Sources := [] }

/-- The call `ParseResponseWithUsage` records for an output item. -/
def recordedCall (item : OutputBody) : WebSearchCall :=
  { ID := item.ID, Type_ := item.Type_, Status := item.Status,
    Action := item.Action.map recordedAction }

/-- The calls `ParseResponseWithUsage` records for the output items of a body. -/
def recordedCalls (output : List OutputBody) : List WebSearchCall :=
  (output.filter (fun item => item.Type_ == "web_search_call")).map recordedCall

/-- The details `ParseResponseWithUsage` builds before it looks at the items. -/
def baseDetails (response : ResponseBody) : ResponseDetails :=
  { ID := response.ID,
    Model := response.Model,
    TokenUsage :=
      { PromptTokens := response.Usage.PromptTokens,
        CompletionTokens := response.Usage.CompletionTokens,
        TotalTokens := response.Usage.TotalTokens,
        CacheCreationInputTokens := 0,
        CacheReadInputTokens := 0 },
    Metadata := [] }

/-! ## ParseResponse (openai.go:519) and the results of ParseResponseWithUsage -/

/-- The method `ParseResponse`, return statement by return statement: the text and the
error (`none`: nil). `decoded` is the choices of the body as `json.Unmarshal` decodes
them (`none` when it fails); the errors are those of `ParseResponseWithUsage`, built from
the same messages. -/
def ParseResponse (formatFunctionCall : String → Value → Option String)
    (decoded : Option (List MessageBody)) : String × Option ParseError :=
  match decoded with
  | none => ("", some .decode)
  | some choices =>
    match choices with
    | [] => ("", some .emptyResponse)
    | message :: _ =>
      if message.Content != "" then (message.Content, none)
      else if message.ToolCalls.length > 0 then
        match formatCalls formatFunctionCall message.ToolCalls [] with
        | .ok functionCalls => ("\n".intercalate functionCalls, none)
        | .error e => ("", some e)
      else ("", some .noContent)

/-- The three results of a call of `ParseResponseWithUsage`: the text, the details
(`none`: nil) and the error (`none`: nil). -/
structure ParseReturn where
  text : String
  details : Option ResponseDetails
  err : Option ParseError

/-- The method `ParseResponseWithUsage` again, return statement by return statement,
with the three results of each `return`. -/
def ParseResponseWithUsageReturn (formatFunctionCall : String → Value → Option String)
    (decoded : Option ResponseBody) : ParseReturn :=
  match decoded with
  | none => { text := "", details := none, err := some .decode }
  | some response =>
    let details : ResponseDetails :=
      { ID := response.ID,
        Model := response.Model,
        TokenUsage :=
          { PromptTokens := response.Usage.PromptTokens,
            CompletionTokens := response.Usage.CompletionTokens,
            TotalTokens := response.Usage.TotalTokens,
            CacheCreationInputTokens := 0,
            CacheReadInputTokens := 0 },
        Metadata := [] }
    if response.Output.length > 0 then
      let outputInterfaces : List Value := response.Output.map (fun item => .map (itemMap item))
      match parseWebSearchResponse outputInterfaces details with
      | some r => { text := r.1, details := some r.2, err := none }
      | none => { text := "", details := none, err := some .panic }
    else
      match response.Choices with
      | [] => { text := "", details := none, err := some .emptyResponse }
      | message :: _ =>
        if message.Content != "" then
          { text := message.Content, details := some details, err := none }
        else if message.ToolCalls.length > 0 then
          match formatCalls formatFunctionCall message.ToolCalls [] with
          | .ok functionCalls =>
            { text := "\n".intercalate functionCalls, details := some details, err := none }
          | .error e => { text := "", details := none, err := some e }
        else { text := "", details := none, err := some .noContent }

/-- The formatted call of one tool call, when its arguments decode and
`utils.FormatFunctionCall` returns no error. -/
def formattedCall (formatFunctionCall : String → Value → Option String)
    (call : ToolCallBody) : Option String :=
  match call.Arguments with
  | none => none
  | some args => formatFunctionCall call.Name args

/-! ## ParseStreamResponse (openai.go:967) -/

/-- An error returned by `ParseStreamResponse`: the value `io.EOF`, or an error made by
`fmt.Errorf` with the given message. -/
inductive StreamError where
  | eof
  | message (text : String)

/-- The library predicate `unicode.IsSpace`, by code point. -/
def isSpace (c : Char) : Bool :=
  c.toNat == 9 || c.toNat == 10 || c.toNat == 11 || c.toNat == 12 || c.toNat == 13
    || c.toNat == 32 || c.toNat == 133 || c.toNat == 160 || c.toNat == 5760
    || (8192 ≤ c.toNat && c.toNat ≤ 8202) || c.toNat == 8232 || c.toNat == 8233
    || c.toNat == 8239 || c.toNat == 8287 || c.toNat == 12288

/-- The library function `bytes.TrimSpace`, on the characters of the chunk. -/
def trimSpace (s : List Char) : List Char :=
  ((s.dropWhile isSpace).reverse.dropWhile isSpace).reverse

/-- One choice of a decoded chunk: `delta.role`, `delta.content` and `finish_reason`. -/
structure StreamChoice where
  Role : String
  Content : String
  FinishReason : String

/-- The method `ParseStreamResponse`, return statement by return statement: the delta and
the error (`none`: nil). `decoded` is the result of `json.Unmarshal(chunk, &response)`:
the choices, or the message of the decoding error. -/
def ParseStreamResponse (chunk : String) (decoded : Except String (List StreamChoice)) :
    String × Option StreamError :=
  if (trimSpace chunk.toList).length == 0 then ("", some (.message "empty chunk"))
  else if trimSpace chunk.toList == "[DONE]".toList then ("", some .eof)
  else
    match decoded with
    | .error e => ("", some (.message ("malformed response: " ++ e)))
    | .ok choices =>
      match choices with
      | [] => ("", some (.message "no choices in response"))
      | choice :: _ =>
        if choice.FinishReason != "" then ("", some .eof)
        else if choice.Role != "" && choice.Content == "" then
          ("", some (.message "skip token"))
        else (choice.Content, none)

/-- A formatter that writes `name()`, standing for `utils.FormatFunctionCall` in the
examples. -/
def sampleFormat (name : String) (_args : Value) : Option String :=
  some (name ++ "()")

/-- A tool call of the function `name` with the arguments `null`. -/
def sampleCall (name : String) : ToolCallBody :=
  { ID := "call_1", Type_ := "function", Name := name, Arguments := some .null }

/-- A decoded standard body (no output items) with the given choices. -/
def standardBody (choices : List MessageBody) : ResponseBody :=
  { ID := "chatcmpl-1", Model := "gpt-4", Choices := choices,
    Usage := { PromptTokens := 3, CompletionTokens := 4, TotalTokens := 7 },
    Output := [] }

/-! ## Chunks used to state the properties of the stream decoder -/

/-- The chunk `{"choices":[{"delta":{"role":"assistant"}}]}`. -/
def roleChunk : String :=
  "\x7b\"choices\":[\x7b\"delta\":\x7b\"role\":\"assistant\"\x7d\x7d]\x7d"

/-- The chunk `{"choices":[{"delta":{"content":"hi"}}]}`. -/
def contentChunk : String :=
  "\x7b\"choices\":[\x7b\"delta\":\x7b\"content\":\"hi\"\x7d\x7d]\x7d"

/-- The chunk `{"choices":[]}`. -/
def noChoicesChunk : String := "\x7b\"choices\":[]\x7d"

/-! ## Notions used to state the properties of the web-search path -/

/-- The citation built from an annotation of type `url_citation`. -/
def Annotation.citation (ann : Annotation) : URLCitation :=
  { Type_ := ann.Type_, StartIndex := ann.StartIndex, EndIndex := ann.EndIndex,
    URL := ann.URL, Title := ann.Title }

/-- The annotations of type `url_citation`, in order, as citations. -/
def citationsOf (annotations : List Annotation) : List URLCitation :=
  (annotations.filter (fun ann => ann.Type_ == "url_citation")).map Annotation.citation

/-- The output items of a body of type `web_search_call`, in order. -/
def searchItems (output : List OutputBody) : List OutputBody :=
  output.filter (fun item => item.Type_ == "web_search_call")

/-- The record of a call agrees with an output item: the id, the status, the type
`web_search_call`, and an action exactly when the item has one, with its type and query. -/
def callOfItem (item : OutputBody) (call : WebSearchCall) : Prop :=
  call.ID = item.ID ∧ call.Status = item.Status ∧ call.Type_ = "web_search_call" ∧
  call.Action.map (fun action => (action.Type_, action.Query))
    = item.Action.map (fun action => (action.Type_, action.Query))

instance callOfItemDecidable (item : OutputBody) (call : WebSearchCall) :
    Decidable (callOfItem item call) := by
  unfold callOfItem
  infer_instance

/-- The generic output items of a message with a `url_citation` and a `file_citation`. -/
def mixedOutputGeneric : List Value :=
  [.map [("type", .str "message"),
    ("content", .slice [
      .map [("type", .str "output_text"), ("text", .str "A"),
        ("annotations", .slice [
          .map [("type", .str "file_citation"), ("start_index", .float 0),
            ("end_index", .float 1)],
          .map [("type", .str "url_citation"), ("start_index", .float 0),
            ("end_index", .float 1), ("url", .str "https://example.com"),
            ("title", .str "Example")]])]])]]

/-- The details `parseWebSearchResponse` returns for `mixedOutputGeneric` and empty
details. -/
def mixedDetails : ResponseDetails :=
  { emptyDetails with
    Metadata := [
      ("web_search_calls", .webSearchCalls []),
      ("annotations", .annotations [
        { Type_ := "file_citation", StartIndex := 0, EndIndex := 1, URL := "", Title := "" },
        { Type_ := "url_citation", StartIndex := 0, EndIndex := 1,
          URL := "https://example.com", Title := "Example" }]),
      ("citations", .citations [
        { Type_ := "url_citation", StartIndex := 0, EndIndex := 1,
          URL := "https://example.com", Title := "Example" }])] }

/-! ## The provider and its model families (openai.go:19-120) -/

/-- The struct `OpenAIProvider`, without its logger. -/
structure OpenAIProvider where
  apiKey : String
  model : String
  extraHeaders : List (String × String)
  options : GoMap

/-- The library function `strings.HasPrefix(s, p)`, on the characters of the strings
(for valid UTF-8 the same as on their bytes). -/
def stringsHasPrefix (s p : String) : Bool :=
  p.toList.isPrefixOf s.toList

/-- The library function `strings.Contains(s, sub)`, on the characters of the strings
(for valid UTF-8 the same as on their bytes). -/
def stringsContains (s sub : String) : Bool :=
  decide (sub.toList <:+: s.toList)

/-- The method `needsMaxCompletionTokens`. -/
def needsMaxCompletionTokens (p : OpenAIProvider) : Bool :=
  if stringsHasPrefix p.model "o" then true
  else if stringsContains p.model "4o" || stringsContains p.model "-o"
      || stringsContains p.model "-5" then true
  else false

/-- The method `needsReasoningEffort`. -/
def needsReasoningEffort (p : OpenAIProvider) : Bool :=
  if stringsHasPrefix p.model "o" then true
  else if stringsContains p.model "-5" then true
  else false

/-- The function `modelNeedsNoTemperature`. -/
def modelNeedsNoTemperature (model : String) : Bool :=
  if stringsHasPrefix model "o3" then true
  else if stringsContains model "-5" then true
  else false

/-- The method `needsNoTemperature`. -/
def needsNoTemperature (p : OpenAIProvider) : Bool :=
  modelNeedsNoTemperature p.model

/-- The function `modelNeedsNoToolChoice`. -/
def modelNeedsNoToolChoice (model : String) : Bool :=
  if stringsHasPrefix model "o1" || stringsHasPrefix model "o3"
      || stringsHasPrefix model "o4" then true
  else if stringsContains model "-5" then true
  else false

/-- The method `needsNoToolChoice`. -/
def needsNoToolChoice (p : OpenAIProvider) : Bool :=
  modelNeedsNoToolChoice p.model

/-! ## Request builders -/

/-- The outcomes of a request builder other than a request. -/
inductive BuildError where
  /-- the schema could not be turned into a JSON value -/
  | schema
  /-- a runtime panic -/
  | panic

/-- The struct `types.MemoryMessage`. -/
structure MemoryMessage where
  Role : String
  Content : String
  Tokens : Int
  CacheControl : String
  Metadata : GoMap

/-- The statement
`request["messages"] = append(request["messages"].([]map[string]interface{}), msg)`;
the assertion panics when the entry is not such a slice. -/
def appendMessage (request : GoMap) (msg : GoMap) : Option GoMap :=
  match request.lookup "messages" with
  | some (.mapSlice ms) => some (mapSet request "messages" (.mapSlice (ms ++ [msg])))
  | _ => none

/-- The map appended to `openAITools` for a function tool. -/
def functionTool (tool : Tool Value) (strictTools : Bool) : GoMap :=
  let function : GoMap :=
    [("name", .str tool.Name), ("description", .str tool.Description),
     ("parameters", .map tool.Parameters)]
  if !strictTools then [("type", .str "function"), ("function", .map function)]
  else [("type", .str "function"), ("function", .map function), ("strict", .bool true)]

/-- The loop `for _, tool := range tools` (openai.go:256-284 and 1056-1084): tools of
type `web_search` are skipped; for every other tool `options["strict_tools"].(bool)`
panics when the option is absent or not a bool. -/
def convertTools (options : GoMap) : List (Tool Value) → List GoMap → Option (List GoMap)
  | [], openAITools => some openAITools
  | tool :: rest, openAITools =>
    if tool.Type_ == "web_search" then convertTools options rest openAITools
    else
      match options.lookup "strict_tools" with
      | some (.bool strictTools) =>
        convertTools options rest (openAITools ++ [functionTool tool strictTools])
      | _ => none

/-- The block "Handle tools" (openai.go:253-295 and 1053-1095). -/
def handleTools (p : OpenAIProvider) (options request : GoMap) : Option GoMap :=
  match options.lookup "tools" with
  | some (.tools tools) =>
    if tools.length > 0 then
      match convertTools options tools [] with
      | none => none
      | some openAITools =>
        if openAITools.length > 0 then
          let request := mapSet request "tools" (.mapSlice openAITools)
          match options.lookup "tool_choice" with
          | some (.str toolChoice) =>
            if !needsNoToolChoice p then
              some (mapSet request "tool_choice" (.str toolChoice))
            else some request
          | _ => some request
        else some request
    else some request
  | _ => some request

/-- The loop `for k, v := range src`, copying into `merged` every entry whose key is
not excluded. -/
def mergeOptions (excluded : List String) : GoMap → GoMap → GoMap
  | [], merged => merged
  | (k, v) :: rest, merged =>
    if excluded.contains k then mergeOptions excluded rest merged
    else mergeOptions excluded rest (mapSet merged k v)

/-- The block "Handle max_tokens/max_completion_tokens conflict", the same in the
four builders. -/
def resolveTokenLimit (p : OpenAIProvider) (mergedOptions : GoMap) : GoMap :=
  if needsMaxCompletionTokens p then
    match mergedOptions.lookup "max_tokens" with
    | some v => mapDelete (mapSet mergedOptions "max_completion_tokens" v) "max_tokens"
    | none => mergedOptions
  else
    match mergedOptions.lookup "max_completion_tokens" with
    | some v => mapDelete (mapSet mergedOptions "max_tokens" v) "max_completion_tokens"
    | none => mergedOptions

/-- The model-family steps applied to the merged options, the same in the four
builders: the token limit, then `reasoning_effort`, then `temperature`. -/
def resolveQuirks (p : OpenAIProvider) (mergedOptions : GoMap) : GoMap :=
  let mergedOptions := resolveTokenLimit p mergedOptions
  let mergedOptions :=
    if !needsReasoningEffort p then mapDelete mergedOptions "reasoning_effort"
    else mergedOptions
  let mergedOptions :=
    if needsNoTemperature p then mapDelete mergedOptions "temperature" else mergedOptions
  mergedOptions

/-- The loop `for k, v := range mergedOptions { request[k] = v }`. -/
def addOptions : GoMap → GoMap → GoMap
  | [], request => request
  | (k, v) :: rest, request => addOptions rest (mapSet request k v)

/-- The request with the system prompt of the options appended as a message of the
given role, when the option is a non-empty string. -/
def addSystemPrompt (role : String) (options request : GoMap) : Option GoMap :=
  match options.lookup "system_prompt" with
  | some (.str systemPrompt) =>
    if systemPrompt != "" then
      appendMessage request [("role", .str role), ("content", .str systemPrompt)]
    else some request
  | _ => some request

/-- The method `PrepareRequest` (openai.go:232); the result is the map handed to
`json.Marshal`. -/
def PrepareRequest (p : OpenAIProvider) (prompt : String) (options : GoMap) :
    Except BuildError GoMap :=
  let request : GoMap := [("model", .str p.model), ("messages", .mapSlice [])]
  match addSystemPrompt "developer" options request with
  | none => .error .panic
  | some request =>
    match appendMessage request [("role", .str "user"), ("content", .str prompt)] with
    | none => .error .panic
    | some request =>
      match handleTools p options request with
      | none => .error .panic
      | some request =>
        let mergedOptions := mergeOptions ["tools", "tool_choice", "system_prompt"] p.options []
        let mergedOptions :=
          mergeOptions ["tools", "tool_choice", "strict_tools", "system_prompt"] options
            mergedOptions
        let mergedOptions := resolveQuirks p mergedOptions
        let request := if needsNoToolChoice p then mapDelete request "tool_choice" else request
        .ok (addOptions mergedOptions request)

/-- The schema argument of `PrepareRequestWithSchema`, by its dynamic type, with the
outcome of the library call that turns it into a JSON value (`none`: the call fails). -/
inductive SchemaArg where
  /-- a `string`, with the result of `json.Unmarshal` on it -/
  | text (decoded : Option Value)
  /-- a `[]byte`, with the result of `json.Unmarshal` on it -/
  | bytes (decoded : Option Value)
  /-- a `map[string]interface{}` -/
  | object (m : GoMap)
  /-- any other type, with the result of `json.Marshal` followed by `json.Unmarshal` -/
  | other (decoded : Option Value)

/-- The value `schemaObj` of `PrepareRequestWithSchema`. -/
def SchemaArg.schemaObj : SchemaArg → Option Value
  | .text decoded => decoded
  | .bytes decoded => decoded
  | .object m => some (.map m)
  | .other decoded => decoded

/-- The method `PrepareRequestWithSchema` (openai.go:365). -/
def PrepareRequestWithSchema (p : OpenAIProvider) (prompt : String) (options : GoMap)
    (schema : SchemaArg) : Except BuildError GoMap :=
  match schema.schemaObj with
  | none => .error .schema
  | some schemaObj =>
    let cleanSchema := cleanSchemaForOpenAI schemaObj
    let request : GoMap :=
      [("model", .str p.model),
       ("messages", .mapSlice [[("role", .str "user"), ("content", .str prompt)]]),
       ("response_format", .map [
          ("type", .str "json_schema"),
          ("json_schema", .map [
            ("name", .str "structured_response"),
            ("schema", cleanSchema),
            ("strict", .bool true)])])]
    let prepended : Option GoMap :=
      match options.lookup "system_prompt" with
      | some (.str systemPrompt) =>
        if systemPrompt != "" then
          match request.lookup "messages" with
          | some (.mapSlice ms) =>
            some (mapSet request "messages"
              (.mapSlice ([[("role", .str "system"), ("content", .str systemPrompt)]] ++ ms)))
          | _ => none
        else some request
      | _ => some request
    match prepended with
    | none => .error .panic
    | some request =>
      let mergedOptions := mergeOptions ["system_prompt", "strict_tools"] p.options []
      let mergedOptions := mergeOptions ["system_prompt", "strict_tools"] options mergedOptions
      let mergedOptions := resolveQuirks p mergedOptions
      .ok (addOptions mergedOptions request)

/-- The method `PrepareStreamRequest` (openai.go:905). -/
def PrepareStreamRequest (p : OpenAIProvider) (prompt : String) (options : GoMap) :
    Except BuildError GoMap :=
  let requestBody : GoMap :=
    [("model", .str p.model),
     ("messages", .strMapSlice [[("role", "user"), ("content", prompt)]]),
     ("stream", .bool true)]
  let mergedOptions := mergeOptions ["stream"] p.options []
  let mergedOptions := mergeOptions ["stream"] options mergedOptions
  let mergedOptions := resolveQuirks p mergedOptions
  .ok (addOptions mergedOptions requestBody)

/-- The wire message of one `MemoryMessage`: role and content, then every entry of
the metadata. -/
def wireMessage (msg : MemoryMessage) : GoMap :=
  let message : GoMap := [("role", .str msg.Role), ("content", .str msg.Content)]
  if msg.Metadata.length > 0 then addOptions msg.Metadata message else message

/-- The loop `for _, msg := range messages` of `PrepareRequestWithMessages`. -/
def appendMessages : List MemoryMessage → GoMap → Option GoMap
  | [], request => some request
  | msg :: rest, request =>
    match appendMessage request (wireMessage msg) with
    | some request => appendMessages rest request
    | none => none

/-- The method `PrepareRequestWithMessages` (openai.go:1021). -/
def PrepareRequestWithMessages (p : OpenAIProvider) (messages : List MemoryMessage)
    (options : GoMap) : Except BuildError GoMap :=
  let request : GoMap := [("model", .str p.model), ("messages", .mapSlice [])]
  match addSystemPrompt "system" options request with
  | none => .error .panic
  | some request =>
    match appendMessages messages request with
    | none => .error .panic
    | some request =>
      match handleTools p options request with
      | none => .error .panic
      | some request =>
        let mergedOptions :=
          mergeOptions ["tools", "tool_choice", "system_prompt", "structured_messages"]
            p.options []
        let mergedOptions :=
          mergeOptions
            ["tools", "tool_choice", "strict_tools", "system_prompt", "structured_messages"]
            options mergedOptions
        let mergedOptions := resolveQuirks p mergedOptions
        let request := if needsNoToolChoice p then mapDelete request "tool_choice" else request
        .ok (addOptions mergedOptions request)

/-- A key that no builder sets structurally: not `model`, `messages`, `tools`,
`tool_choice`, `response_format` or `stream`. -/
def optionKey (k : String) : Bool :=
  !(["model", "messages", "tools", "tool_choice", "response_format", "stream"].contains k)

/-- A provider for the model `o1-mini`, without options. -/
def o1Provider : OpenAIProvider :=
  { apiKey := "", model := "o1-mini", extraHeaders := [], options := [] }

/-- A provider for the model `o3-mini`, with the option `temperature` set. -/
def o3Provider : OpenAIProvider :=
  { apiKey := "", model := "o3-mini", extraHeaders := [],
    options := [("temperature", .float 1)] }

/-- A provider for the model `gpt-5`, with the option `temperature` set. -/
def gpt5Provider : OpenAIProvider :=
  { apiKey := "", model := "gpt-5", extraHeaders := [],
    options := [("temperature", .float 1)] }

/-- A provider for the model `gpt-4o`, with the option `max_tokens` set to 7. -/
def gpt4oProvider : OpenAIProvider :=
  { apiKey := "", model := "gpt-4o", extraHeaders := [],
    options := [("max_tokens", .int 7)] }

/-- The request expected for the prompt `hi` and the model `model`, without options. -/
def plainRequest (model : String) : GoMap :=
  [("model", .str model),
   ("messages", .mapSlice [[("role", .str "user"), ("content", .str "hi")]])]

/-! ## Notions used to state the properties of the builders -/

/-- The tools that pass the filter on `web_search`, in input order. -/
def functionTools (tools : List (Tool Value)) : List (Tool Value) :=
  tools.filter (fun tool => !(tool.Type_ == "web_search"))

/-- The tool list of the options: the `tools` entry when it is a `[]utils.Tool`. -/
def toolList (options : GoMap) : List (Tool Value) :=
  match options.lookup "tools" with
  | some (.tools tools) => tools
  | _ => []

/-- The `strict_tools` entry of the options when it is a bool. -/
def strictTools (options : GoMap) : Option Bool :=
  match options.lookup "strict_tools" with
  | some (.bool b) => some b
  | _ => none

/-- The request with the `tool_choice` of the options, when that is a string and the
model accepts a tool choice. -/
def setToolChoice (p : OpenAIProvider) (options request : GoMap) : GoMap :=
  match options.lookup "tool_choice" with
  | some (.str toolChoice) =>
    if !needsNoToolChoice p then mapSet request "tool_choice" (.str toolChoice) else request
  | _ => request

/-- The messages a non-empty string `system_prompt` of the options contributes. -/
def systemMessages (role : String) (options : GoMap) : List GoMap :=
  match options.lookup "system_prompt" with
  | some (.str systemPrompt) =>
    if systemPrompt != "" then [[("role", .str role), ("content", .str systemPrompt)]] else []
  | _ => []

/-- The request that holds the model and the messages only. -/
def baseRequest (model : String) (messages : List GoMap) : GoMap :=
  [("model", .str model), ("messages", .mapSlice messages)]

/-- The user message of a prompt. -/
def userMessage (prompt : String) : GoMap :=
  [("role", .str "user"), ("content", .str prompt)]

/-- The merged options of `PrepareRequest`, before the model-family steps. -/
def mergedRequestOptions (p : OpenAIProvider) (options : GoMap) : GoMap :=
  mergeOptions ["tools", "tool_choice", "strict_tools", "system_prompt"] options
    (mergeOptions ["tools", "tool_choice", "system_prompt"] p.options [])

/-- The merged options of `PrepareRequestWithMessages`, before the model-family steps. -/
def mergedMessagesOptions (p : OpenAIProvider) (options : GoMap) : GoMap :=
  mergeOptions ["tools", "tool_choice", "strict_tools", "system_prompt", "structured_messages"]
    options
    (mergeOptions ["tools", "tool_choice", "system_prompt", "structured_messages"] p.options [])

/-- The last step of `PrepareRequest` and `PrepareRequestWithMessages`: `tool_choice` is
deleted for a model that rejects it, then the resolved options are copied in. -/
def finishRequest (p : OpenAIProvider) (mergedOptions request : GoMap) : GoMap :=
  addOptions (resolveQuirks p mergedOptions)
    (if needsNoToolChoice p then mapDelete request "tool_choice" else request)

/-- The key is one of those the model-family steps may set or delete. -/
def quirkKey (k : String) : Bool :=
  ["max_tokens", "max_completion_tokens", "reasoning_effort", "temperature"].contains k

/-- The `tool_choice` entry of the options when it is a string. -/
def toolChoiceEntry (options : GoMap) : Option Value :=
  match options.lookup "tool_choice" with
  | some (.str toolChoice) => some (.str toolChoice)
  | _ => none

/-- A function tool `get_weather` with the parameters `{"type":"object"}`. -/
def weatherTool : Tool Value :=
  { Type_ := "function", Name := "get_weather", Description := "Current weather",
    Parameters := [("type", .str "object")] }

/-- A tool of type `web_search`. -/
def searchTool : Tool Value :=
  { Type_ := "web_search", Name := "", Description := "", Parameters := [] }

/-- A provider for the model `gpt-4`, without options. -/
def gpt4Provider : OpenAIProvider :=
  { apiKey := "", model := "gpt-4", extraHeaders := [], options := [] }

/-- A provider for the model `gpt-4` whose options hold a `messages` entry. -/
def messagesProvider : OpenAIProvider :=
  { apiKey := "", model := "gpt-4", extraHeaders := [], options := [("messages", .str "x")] }

/-- A user message without metadata. -/
def helloMessage : MemoryMessage :=
  { Role := "user", Content := "hello", Tokens := 0, CacheControl := "", Metadata := [] }

/-- The map `functionTool` builds for `weatherTool` without the strict marker. -/
def weatherEntry : GoMap :=
  [("type", .str "function"),
   ("function", .map [("name", .str "get_weather"), ("description", .str "Current weather"),
     ("parameters", .map [("type", .str "object")])])]

/-- The merged options of `PrepareRequestWithSchema`, before the model-family steps. -/
def mergedSchemaOptions (p : OpenAIProvider) (options : GoMap) : GoMap :=
  mergeOptions ["system_prompt", "strict_tools"] options
    (mergeOptions ["system_prompt", "strict_tools"] p.options [])

/-- The merged options of `PrepareStreamRequest`, before the model-family steps. -/
def mergedStreamOptions (p : OpenAIProvider) (options : GoMap) : GoMap :=
  mergeOptions ["stream"] options (mergeOptions ["stream"] p.options [])

/-- The `response_format` that `PrepareRequestWithSchema` builds around a cleaned schema. -/
def responseFormat (cleanSchema : Value) : Value :=
  .map [("type", .str "json_schema"),
        ("json_schema", .map [("name", .str "structured_response"),
                              ("schema", cleanSchema),
                              ("strict", .bool true)])]

/-- The request of `PrepareRequestWithSchema` before the options are copied in. -/
def schemaRequest (model : String) (messages : List GoMap) (cleanSchema : Value) : GoMap :=
  [("model", .str model), ("messages", .mapSlice messages),
   ("response_format", responseFormat cleanSchema)]

/-- A user message whose metadata holds a `role` entry. -/
def metadataMessage : MemoryMessage :=
  { Role := "user", Content := "hello", Tokens := 0, CacheControl := "",
    Metadata := [("role", .str "system")] }

/-- A provider for the model `gpt-4` whose options hold a `response_format` entry. -/
def formatProvider : OpenAIProvider :=
  { apiKey := "", model := "gpt-4", extraHeaders := [],
    options := [("response_format", .map [("type", .str "json_object")])] }

/-! ## NewOpenAIProvider and SetOption (openai.go:37, 130) -/

/-- The function `NewOpenAIProvider`; nil extra headers (`none`) become an empty map, and
the options start as an empty map. -/
def NewOpenAIProvider (apiKey model : String) (extraHeaders : Option (List (String × String))) :
    OpenAIProvider :=
  let extraHeaders :=
    match extraHeaders with
    | none => []
    | some extraHeaders => extraHeaders
  { apiKey := apiKey, model := model, extraHeaders := extraHeaders, options := [] }

/-- The method `SetOption`: the provider after the call. The local `key` and the map
`p.options` are threaded through the three blocks, then `p.options[key] = value`. -/
def SetOption (p : OpenAIProvider) (key : String) (value : Value) : OpenAIProvider :=
  let state : String × GoMap :=
    if key == "max_tokens" then
      if needsMaxCompletionTokens p then
        ("max_completion_tokens", mapDelete p.options "max_tokens")
      else (key, mapDelete p.options "max_completion_tokens")
    else if key == "max_completion_tokens" then (key, mapDelete p.options "max_tokens")
    else (key, p.options)
  let key := state.1
  let options := state.2
  let options :=
    if key == "reasoning_effort" then
      if !needsReasoningEffort p then mapDelete options "reasoning_effort" else options
    else options
  let options :=
    if key == "temperature" then
      if needsNoTemperature p then mapDelete options "temperature" else options
    else options
  { p with options := mapSet options key value }

/-- A finite sequence of `SetOption` calls, in order. -/
def setOptions (p : OpenAIProvider) (calls : List (String × Value)) : OpenAIProvider :=
  calls.foldl (fun p call => SetOption p call.1 call.2) p

/-- The options hold at most one of `max_tokens` and `max_completion_tokens`. -/
def singleTokenLimit (options : GoMap) : Prop :=
  ¬ ("max_tokens" ∈ options.map Prod.fst ∧ "max_completion_tokens" ∈ options.map Prod.fst)

/-! ## Lemmas on maps -/

theorem keysUnique_iff (ks : List String) : keysUnique ks = true ↔ ks.Nodup := by
  induction ks with
  | nil => simp [keysUnique]
  | cons k ks ih => simp [keysUnique, ih]

theorem mapSet_fresh (m : GoMap) (k : String) (v : Value)
    (h : ∀ e ∈ m, e.1 ≠ k) : mapSet m k v = m ++ [(k, v)] := by
  induction m with
  | nil => rfl
  | cons e m ih =>
    obtain ⟨k', v'⟩ := e
    have hk : k' ≠ k := h (k', v') (List.mem_cons_self _ _)
    simp only [mapSet, beq_iff_eq, hk, if_false, List.cons_append]
    rw [ih (fun e he => h e (List.mem_cons_of_mem _ he))]

theorem lookup_mapSet_self (m : GoMap) (k : String) (v : Value) :
    (mapSet m k v).lookup k = some v := by
  induction m with
  | nil => simp [mapSet, List.lookup]
  | cons e m ih =>
    obtain ⟨k', v'⟩ := e
    by_cases hk : k' = k
    · simp [mapSet, hk]
    · have hk' : (k == k') = false := by simpa using fun h => hk h.symm
      simp [mapSet, hk, List.lookup_cons, hk', ih]

theorem lookup_mapSet_ne (m : GoMap) (k k' : String) (v : Value) (h : k' ≠ k) :
    (mapSet m k v).lookup k' = m.lookup k' := by
  induction m with
  | nil =>
    have : (k' == k) = false := by simpa using h
    simp [mapSet, List.lookup, this]
  | cons e m ih =>
    obtain ⟨k₀, v₀⟩ := e
    by_cases hk : k₀ = k
    · subst hk
      have : (k' == k₀) = false := by simpa using h
      simp [mapSet, List.lookup_cons, this]
    · simp only [mapSet, beq_iff_eq, hk, if_false, List.lookup_cons, ih]

theorem lookup_mapDelete_self (m : GoMap) (k : String) :
    (mapDelete m k).lookup k = none := by
  simp only [mapDelete, List.lookup_eq_none_iff, List.mem_filter]
  rintro p ⟨-, hp⟩
  have hne : p.1 ≠ k := by simpa using hp
  simpa using fun h => hne h.symm

theorem lookup_mapDelete_ne (m : GoMap) (k k' : String) (h : k' ≠ k) :
    (mapDelete m k).lookup k' = m.lookup k' := by
  induction m with
  | nil => rfl
  | cons e m ih =>
    obtain ⟨k₀, v₀⟩ := e
    unfold mapDelete at ih ⊢
    by_cases hk : k₀ = k
    · subst hk
      have : (k' == k₀) = false := by simpa using h
      simp [List.filter_cons, List.lookup_cons, this, ih]
    · have hk' : (k₀ == k) = false := by simpa using hk
      simp only [List.filter_cons, hk', Bool.not_false, if_true, List.lookup_cons, ih]

/-! ## Lemmas on the schema sanitizer -/

theorem cleanEntry_fst {e e' : String × Value} (h : cleanEntry e = some e') :
    e'.1 = e.1 ∧ keptKey e.1 = true := by
  unfold cleanEntry at h
  split at h
  · rename_i hk
    refine ⟨?_, hk⟩
    split at h
    · cases h; rfl
    · split at h <;> (cases h; rfl)
  · cases h

theorem cleanSchemaLoop_cons (k : String) (v : Value) (rest : List (String × Value))
    (acc : GoMap) :
    cleanSchemaLoop ((k, v) :: rest) acc =
      match cleanEntry (k, v) with
      | some e => cleanSchemaLoop rest (mapSet acc e.1 e.2)
      | none => cleanSchemaLoop rest acc := by
  simp only [cleanSchemaLoop, cleanEntry, keptKey]
  split_ifs <;> rfl

theorem cleanSchemaLoop_eq (kvs : List (String × Value)) :
    ∀ acc : GoMap, (kvs.map Prod.fst).Nodup →
      (∀ e ∈ kvs, ∀ a ∈ acc, a.1 ≠ e.1) →
      cleanSchemaLoop kvs acc = acc ++ kvs.filterMap cleanEntry := by
  induction kvs with
  | nil => intro acc _ _; simp [cleanSchemaLoop]
  | cons e rest ih =>
    intro acc hnd hdis
    obtain ⟨k, v⟩ := e
    have hk : ∀ e ∈ rest, e.1 ≠ k := by
      intro e he heq
      have := (List.nodup_cons.mp hnd).1
      exact this (List.mem_map.mpr ⟨e, he, heq⟩)
    have hnd' := (List.nodup_cons.mp hnd).2
    have hfresh : ∀ a ∈ acc, a.1 ≠ k := fun a ha => hdis (k, v) (List.mem_cons_self _ _) a ha
    rw [cleanSchemaLoop_cons, List.filterMap_cons]
    cases hce : cleanEntry (k, v) with
    | none =>
      exact ih acc hnd' (fun e he a ha => hdis e (List.mem_cons_of_mem _ he) a ha)
    | some e' =>
      have hfst : e'.1 = k := (cleanEntry_fst hce).1
      obtain ⟨k', w⟩ := e'
      simp only at hfst
      subst hfst
      simp only
      rw [mapSet_fresh acc k' w hfresh, ih _ hnd']
      · simp
      · intro e he a ha
        rcases List.mem_append.mp ha with ha | ha
        · exact hdis e (List.mem_cons_of_mem _ he) a ha
        · simp only [List.mem_singleton] at ha
          subst ha
          exact fun h => hk e he h.symm

theorem cleanSchemaPropsLoop_eq (pm : List (String × Value)) :
    ∀ acc : GoMap, (pm.map Prod.fst).Nodup →
      (∀ e ∈ pm, ∀ a ∈ acc, a.1 ≠ e.1) →
      cleanSchemaPropsLoop pm acc
        = acc ++ pm.map (fun e => (e.1, cleanSchemaForOpenAI e.2)) := by
  induction pm with
  | nil => intro acc _ _; simp [cleanSchemaPropsLoop]
  | cons e rest ih =>
    intro acc hnd hdis
    obtain ⟨k, v⟩ := e
    have hk : ∀ e ∈ rest, e.1 ≠ k := by
      intro e he heq
      have := (List.nodup_cons.mp hnd).1
      exact this (List.mem_map.mpr ⟨e, he, heq⟩)
    have hnd' := (List.nodup_cons.mp hnd).2
    have hfresh : ∀ a ∈ acc, a.1 ≠ k := fun a ha => hdis (k, v) (List.mem_cons_self _ _) a ha
    simp only [cleanSchemaPropsLoop, List.map_cons]
    rw [mapSet_fresh acc k _ hfresh, ih _ hnd']
    · simp
    · intro e he a ha
      rcases List.mem_append.mp ha with ha | ha
      · exact hdis e (List.mem_cons_of_mem _ he) a ha
      · simp only [List.mem_singleton] at ha
        subst ha
        exact fun h => hk e he h.symm

theorem cleanEntry_eq_none_iff (e : String × Value) :
    cleanEntry e = none ↔ keptKey e.1 = false := by
  unfold cleanEntry
  by_cases h : keptKey e.1 = true
  · rw [if_pos h]
    constructor
    · intro hce
      split_ifs at hce
    · intro hf
      rw [h] at hf
      cases hf
  · rw [if_neg h]
    simpa using h

theorem keys_filterMap_cleanEntry (kvs : List (String × Value)) :
    (kvs.filterMap cleanEntry).map Prod.fst = (kvs.map Prod.fst).filter keptKey := by
  induction kvs with
  | nil => rfl
  | cons e rest ih =>
    rw [List.filterMap_cons]
    cases hce : cleanEntry e with
    | none =>
      have hk : keptKey e.1 = false := (cleanEntry_eq_none_iff e).mp hce
      simp only [List.map_cons, List.filter_cons, hk, ih]
      rfl
    | some e' =>
      obtain ⟨h1, h2⟩ := cleanEntry_fst hce
      simp only [List.map_cons, List.filter_cons, h2, if_true, ih, h1]

theorem lookup_filterMap_cleanEntry (kvs : List (String × Value)) (k : String) :
    (kvs.filterMap cleanEntry).lookup k
      = (kvs.lookup k).bind (fun v => (cleanEntry (k, v)).map Prod.snd) := by
  induction kvs with
  | nil => rfl
  | cons e rest ih =>
    obtain ⟨k₀, v₀⟩ := e
    rw [List.filterMap_cons]
    by_cases hk : k = k₀
    · subst hk
      cases hce : cleanEntry (k, v₀) with
      | none =>
        simp only [List.lookup_cons_self, Option.some_bind, hce, Option.map_none', ih]
        cases hl : List.lookup k rest with
        | none => rfl
        | some v =>
          have : cleanEntry (k, v) = none :=
            (cleanEntry_eq_none_iff (k, v)).mpr ((cleanEntry_eq_none_iff (k, v₀)).mp hce)
          simp [this]
      | some e' =>
        obtain ⟨h1, -⟩ := cleanEntry_fst hce
        obtain ⟨k', w⟩ := e'
        simp only at h1
        subst h1
        simp [hce]
    · have hk' : (k == k₀) = false := by simpa using hk
      cases hce : cleanEntry (k₀, v₀) with
      | none => simp only [List.lookup_cons, hk', ih]
      | some e' =>
        obtain ⟨h1, -⟩ := cleanEntry_fst hce
        obtain ⟨k', w⟩ := e'
        simp only at h1
        subst h1
        simp only [List.lookup_cons, hk', ih]

theorem keptKey_additionalProperties : keptKey "additionalProperties" = false := by decide

theorem cleanSchemaForOpenAI_map (kvs : List (String × Value))
    (h : (kvs.map Prod.fst).Nodup) :
    cleanSchemaForOpenAI (.map kvs) = .map (kvs.filterMap cleanEntry ++ objectMark kvs) := by
  have hloop : cleanSchemaLoop kvs [] = kvs.filterMap cleanEntry := by
    rw [cleanSchemaLoop_eq kvs [] h (fun _ _ a ha => absurd ha (List.not_mem_nil a))]
    simp
  have hfresh : ∀ e ∈ kvs.filterMap cleanEntry, e.1 ≠ "additionalProperties" := by
    intro e he heq
    have hm : e.1 ∈ (kvs.filterMap cleanEntry).map Prod.fst := List.mem_map_of_mem _ he
    rw [keys_filterMap_cleanEntry, List.mem_filter, heq] at hm
    exact absurd hm.2 (by decide)
  unfold cleanSchemaForOpenAI objectMark
  simp only [hloop]
  split
  · split
    · rw [mapSet_fresh _ _ _ hfresh]
    · simp
  · simp

theorem cleanSchemaProps_map (pm : List (String × Value)) (h : (pm.map Prod.fst).Nodup) :
    cleanSchemaProps (.map pm) = pm.map (fun e => (e.1, cleanSchemaForOpenAI e.2)) := by
  unfold cleanSchemaProps
  rw [cleanSchemaPropsLoop_eq pm [] h (fun _ _ a ha => absurd ha (List.not_mem_nil a))]
  simp

theorem cleanSchemaForOpenAI_not_map (v : Value) (h : ∀ kvs, v ≠ .map kvs) :
    cleanSchemaForOpenAI v = v := by
  cases v <;> first | rfl | exact absurd rfl (h _)

theorem wf_map {kvs : List (String × Value)} (h : (Value.map kvs).wf = true) :
    (kvs.map Prod.fst).Nodup ∧ ∀ e ∈ kvs, e.2.wf = true := by
  simp only [Value.wf, Bool.and_eq_true, keysUnique_iff] at h
  refine ⟨h.1, ?_⟩
  have h2 := h.2
  clear h
  induction kvs with
  | nil => intro e he; cases he
  | cons e rest ih =>
    obtain ⟨k, v⟩ := e
    simp only [wfEntries, Bool.and_eq_true] at h2
    intro e he
    rcases List.mem_cons.mp he with rfl | he
    · exact h2.1
    · exact ih h2.2 e he

theorem sizeOf_lt_of_mem_map {kvs : List (String × Value)} {e : String × Value}
    (h : e ∈ kvs) : sizeOf e.2 < sizeOf (Value.map kvs) := by
  have h1 := List.sizeOf_lt_of_mem h
  obtain ⟨k, v⟩ := e
  simp only [Prod.mk.sizeOf_spec, Value.map.sizeOf_spec] at h1 ⊢
  omega

theorem cleanEntry_type (v : Value) : cleanEntry ("type", v) = some ("type", v) := by
  simp [cleanEntry, keptKey]

theorem cleanEntry_required (v : Value) : cleanEntry ("required", v) = some ("required", v) := by
  simp [cleanEntry, keptKey]

theorem cleanEntry_properties (v : Value) :
    cleanEntry ("properties", v) = some ("properties", .map (cleanSchemaProps v)) := by
  simp [cleanEntry, keptKey]

theorem cleanEntry_items (v : Value) :
    cleanEntry ("items", v) = some ("items", cleanSchemaForOpenAI v) := by
  simp [cleanEntry, keptKey]

theorem lookup_objectMark (kvs : List (String × Value)) (k : String)
    (h : k ≠ "additionalProperties") : (objectMark kvs).lookup k = none := by
  have hk : (k == "additionalProperties") = false := by simpa using h
  unfold objectMark
  split
  · split
    · simp [List.lookup_cons, hk]
    · rfl
  · rfl

theorem filterMap_cleanEntry_objectMark (kvs : List (String × Value)) :
    (objectMark kvs).filterMap cleanEntry = [] := by
  unfold objectMark
  split
  · split
    · rfl
    · rfl
  · rfl

theorem lookup_type_clean (kvs : List (String × Value)) :
    (kvs.filterMap cleanEntry ++ objectMark kvs).lookup "type" = kvs.lookup "type" := by
  rw [List.lookup_append, lookup_filterMap_cleanEntry, lookup_objectMark _ _ (by decide)]
  cases kvs.lookup "type" with
  | none => rfl
  | some v => simp [cleanEntry_type]

theorem objectMark_clean (kvs : List (String × Value)) :
    objectMark (kvs.filterMap cleanEntry ++ objectMark kvs) = objectMark kvs := by
  have h := lookup_type_clean kvs
  unfold objectMark at h ⊢
  rw [h]

theorem nodup_keys_clean (kvs : List (String × Value)) (h : (kvs.map Prod.fst).Nodup) :
    ((kvs.filterMap cleanEntry ++ objectMark kvs).map Prod.fst).Nodup := by
  rw [List.map_append, keys_filterMap_cleanEntry]
  refine List.Nodup.append (h.filter _) ?_ ?_
  · unfold objectMark
    split
    · split <;> simp
    · simp
  · intro k hk1 hk2
    have hkept : keptKey k = true := (List.mem_filter.mp hk1).2
    have : k = "additionalProperties" := by
      unfold objectMark at hk2
      split at hk2
      · split at hk2
        · simpa using hk2
        · cases hk2
      · cases hk2
    rw [this] at hkept
    exact absurd hkept (by decide)

theorem cleanSchemaProps_idem (v : Value)
    (h : ∀ pm, v = .map pm → (pm.map Prod.fst).Nodup ∧
      ∀ e ∈ pm, cleanSchemaForOpenAI (cleanSchemaForOpenAI e.2) = cleanSchemaForOpenAI e.2) :
    cleanSchemaProps (.map (cleanSchemaProps v)) = cleanSchemaProps v := by
  by_cases hv : ∃ pm, v = .map pm
  · obtain ⟨pm, rfl⟩ := hv
    obtain ⟨hnd, hih⟩ := h pm rfl
    rw [cleanSchemaProps_map pm hnd, cleanSchemaProps_map]
    · rw [List.map_map]
      apply List.map_congr_left
      intro e he
      simp only [Function.comp]
      rw [hih e he]
    · rw [List.map_map]
      exact hnd
  · have : cleanSchemaProps v = [] := by
      cases v <;> first | rfl | exact absurd ⟨_, rfl⟩ hv
    rw [this]
    rfl

theorem cleanEntry_idem (e : String × Value)
    (h1 : cleanSchemaForOpenAI (cleanSchemaForOpenAI e.2) = cleanSchemaForOpenAI e.2)
    (h2 : ∀ pm, e.2 = .map pm → (pm.map Prod.fst).Nodup ∧
      ∀ e' ∈ pm, cleanSchemaForOpenAI (cleanSchemaForOpenAI e'.2) = cleanSchemaForOpenAI e'.2) :
    (cleanEntry e).bind cleanEntry = cleanEntry e := by
  obtain ⟨k, v⟩ := e
  by_cases hkept : keptKey k = true
  · by_cases hp : k = "properties"
    · subst hp
      simp only [cleanEntry_properties, Option.some_bind, cleanSchemaProps_idem v h2]
    · by_cases hi : k = "items"
      · subst hi
        simp only [cleanEntry_items, Option.some_bind]
        simp only at h1
        rw [h1]
      · have : cleanEntry (k, v) = some (k, v) := by
          simp [cleanEntry, hkept, hp, hi]
        simp [this]
  · have : cleanEntry (k, v) = none :=
      (cleanEntry_eq_none_iff (k, v)).mpr (by simpa using hkept)
    simp [this]

theorem cleanSchemaForOpenAI_idem_aux (n : Nat) :
    ∀ v : Value, sizeOf v < n → v.wf = true →
      cleanSchemaForOpenAI (cleanSchemaForOpenAI v) = cleanSchemaForOpenAI v := by
  induction n with
  | zero => intro v h; omega
  | succ n ih =>
    intro v hsz hwf
    by_cases hv : ∃ kvs, v = .map kvs
    · obtain ⟨kvs, rfl⟩ := hv
      obtain ⟨hnd, hch⟩ := wf_map hwf
      rw [cleanSchemaForOpenAI_map kvs hnd,
        cleanSchemaForOpenAI_map _ (nodup_keys_clean kvs hnd), objectMark_clean,
        List.filterMap_append, filterMap_cleanEntry_objectMark, List.append_nil,
        List.filterMap_filterMap]
      congr 2
      apply List.filterMap_congr
      intro e he
      have hlt := sizeOf_lt_of_mem_map he
      apply cleanEntry_idem e (ih e.2 (by omega) (hch e he))
      intro pm hpm
      have hwf' : (Value.map pm).wf = true := hpm ▸ hch e he
      obtain ⟨hnd', hch'⟩ := wf_map hwf'
      refine ⟨hnd', fun e' he' => ih e'.2 ?_ (hch' e' he')⟩
      have hlt' := sizeOf_lt_of_mem_map he'
      rw [← hpm] at hlt'
      omega
    · have hnm : ∀ kvs, v ≠ .map kvs := fun kvs h => hv ⟨kvs, h⟩
      rw [cleanSchemaForOpenAI_not_map v hnm, cleanSchemaForOpenAI_not_map v hnm]

theorem cleanSchemaForOpenAI_idem (v : Value) (h : v.wf = true) :
    cleanSchemaForOpenAI (cleanSchemaForOpenAI v) = cleanSchemaForOpenAI v :=
  cleanSchemaForOpenAI_idem_aux (sizeOf v + 1) v (Nat.lt_succ_self _) h

theorem lookup_map_snd (f : Value → Value) (pm : List (String × Value)) (k : String) :
    (pm.map (fun e => (e.1, f e.2))).lookup k = (pm.lookup k).map f := by
  induction pm with
  | nil => rfl
  | cons e rest ih =>
    obtain ⟨k₀, v₀⟩ := e
    by_cases hk : (k == k₀) = true
    · simp [List.lookup_cons, hk]
    · simp only [List.map_cons, List.lookup_cons, hk, ih]

theorem wf_of_lookup {kvs : List (String × Value)} {k : String} {v : Value}
    (h : (Value.map kvs).wf = true) (hl : kvs.lookup k = some v) : v.wf = true := by
  obtain ⟨l₁, l₂, rfl, -⟩ := List.lookup_eq_some_iff.mp hl
  exact (wf_map h).2 (k, v) (by simp)

theorem lookup_clean (kvs : List (String × Value)) (k : String) :
    (kvs.filterMap cleanEntry ++ objectMark kvs).lookup k
      = if keptKey k then (kvs.lookup k).bind (fun v => (cleanEntry (k, v)).map Prod.snd)
        else (objectMark kvs).lookup k := by
  rw [List.lookup_append, lookup_filterMap_cleanEntry]
  by_cases hk : keptKey k = true
  · rw [if_pos hk, lookup_objectMark kvs k (by rintro rfl; exact absurd hk (by decide))]
    simp
  · rw [if_neg hk]
    have hn : ∀ v, cleanEntry (k, v) = none :=
      fun v => (cleanEntry_eq_none_iff (k, v)).mpr (by simpa using hk)
    cases List.lookup k kvs with
    | none => rfl
    | some v => simp [hn]

theorem child_clean (v : Value) (s : Step) (hwf : v.wf = true) (hs : s.single = true) :
    child (cleanSchemaForOpenAI v) s = (child v s).map cleanSchemaForOpenAI := by
  by_cases hv : ∃ kvs, v = .map kvs
  · obtain ⟨kvs, rfl⟩ := hv
    obtain ⟨hnd, -⟩ := wf_map hwf
    rw [cleanSchemaForOpenAI_map kvs hnd]
    cases s with
    | prop name =>
      simp only [child]
      rw [lookup_clean, if_pos (by decide)]
      cases hl : kvs.lookup "properties" with
      | none => rfl
      | some pv =>
        simp only [Option.some_bind, cleanEntry_properties, Option.map_some']
        have hpw := wf_of_lookup hwf hl
        by_cases hpv : ∃ pm, pv = .map pm
        · obtain ⟨pm, rfl⟩ := hpv
          rw [cleanSchemaProps_map pm (wf_map hpw).1, lookup_map_snd]
        · have : cleanSchemaProps pv = [] := by
            cases pv <;> first | rfl | exact absurd ⟨_, rfl⟩ hpv
          rw [this]
          cases pv <;> first | rfl | exact absurd ⟨_, rfl⟩ hpv
    | items =>
      simp only [child]
      rw [lookup_clean, if_pos (by decide)]
      cases hl : kvs.lookup "items" with
      | none => rfl
      | some c => simp only [Option.some_bind, cleanEntry_items, Option.map_some']
    | itemsElem i => cases hs
  · have hnm : ∀ kvs, v ≠ .map kvs := fun kvs h => hv ⟨kvs, h⟩
    rw [cleanSchemaForOpenAI_not_map v hnm]
    cases v <;> first | rfl | exact absurd rfl (hnm _)

theorem wf_of_mem_slice {xs : List Value} {c : Value}
    (h : (Value.slice xs).wf = true) (hc : c ∈ xs) : c.wf = true := by
  simp only [Value.wf] at h
  induction xs with
  | nil => cases hc
  | cons x xs ih =>
    simp only [wfList, Bool.and_eq_true] at h
    rcases List.mem_cons.mp hc with rfl | hm
    · exact h.1
    · exact ih h.2 hm

theorem wf_child {v c : Value} {s : Step} (hwf : v.wf = true) (h : child v s = some c) :
    c.wf = true := by
  cases v with
  | map kvs =>
    cases s with
    | prop name =>
      simp only [child] at h
      split at h
      · rename_i pm hl
        exact wf_of_lookup (wf_of_lookup hwf hl) h
      · cases h
    | items => exact wf_of_lookup hwf h
    | itemsElem i =>
      simp only [child] at h
      split at h
      · rename_i xs hl
        exact wf_of_mem_slice (wf_of_lookup hwf hl) (List.get?_mem h)
      · cases h
  | _ => simp [child] at h

theorem nodeAt_clean (path : List Step) :
    ∀ v : Value, v.wf = true → path.all Step.single = true →
      nodeAt (cleanSchemaForOpenAI v) path = (nodeAt v path).map cleanSchemaForOpenAI := by
  induction path with
  | nil => intro v _ _; rfl
  | cons s rest ih =>
    intro v hwf hp
    simp only [List.all_cons, Bool.and_eq_true] at hp
    obtain ⟨hs, hrest⟩ := hp
    simp only [nodeAt]
    rw [child_clean v s hwf hs]
    cases hc : child v s with
    | none => rfl
    | some c =>
      simp only [Option.map_some', Option.some_bind]
      exact ih c (wf_child hwf hc) hrest

theorem wf_nodeAt (path : List Step) :
    ∀ v node : Value, v.wf = true → nodeAt v path = some node → node.wf = true := by
  induction path with
  | nil =>
    intro v node hwf h
    simp only [nodeAt, Option.some.injEq] at h
    exact h ▸ hwf
  | cons s rest ih =>
    intro v node hwf h
    simp only [nodeAt] at h
    cases hc : child v s with
    | none => rw [hc] at h; cases h
    | some c =>
      rw [hc] at h
      exact ih c node (wf_child hwf hc) h

/-- A node of the sanitized schema is the sanitized node of the input at the
same path. -/
theorem node_of_clean {S : Value} {path : List Step} {kvs' : List (String × Value)}
    (hwf : S.wf = true) (hp : path.all Step.single = true)
    (hn : nodeAt (cleanSchemaForOpenAI S) path = some (.map kvs')) :
    ∃ kvs, nodeAt S path = some (.map kvs) ∧ (kvs.map Prod.fst).Nodup ∧
      kvs' = kvs.filterMap cleanEntry ++ objectMark kvs := by
  rw [nodeAt_clean path S hwf hp] at hn
  cases hnode : nodeAt S path with
  | none => rw [hnode] at hn; cases hn
  | some node =>
    rw [hnode] at hn
    simp only [Option.map_some', Option.some.injEq] at hn
    have hnw := wf_nodeAt path S node hwf hnode
    by_cases hv : ∃ kvs, node = .map kvs
    · obtain ⟨kvs, rfl⟩ := hv
      have hnd := (wf_map hnw).1
      rw [cleanSchemaForOpenAI_map kvs hnd] at hn
      exact ⟨kvs, rfl, hnd, (Value.map.inj hn).symm⟩
    · have hnm : ∀ kvs, node ≠ .map kvs := fun kvs h => hv ⟨kvs, h⟩
      rw [cleanSchemaForOpenAI_not_map node hnm] at hn
      exact absurd hn (hnm _)

/-! ## Lemmas on the request builders -/

theorem keys_mapSet_nodup (m : GoMap) (k : String) (v : Value)
    (h : (m.map Prod.fst).Nodup) : ((mapSet m k v).map Prod.fst).Nodup := by
  induction m with
  | nil => simp [mapSet]
  | cons e rest ih =>
    obtain ⟨k₀, v₀⟩ := e
    have h1 := (List.nodup_cons.mp h).1
    have h2 := (List.nodup_cons.mp h).2
    by_cases hk : k₀ = k
    · subst hk
      simpa [mapSet] using h
    · simp only [mapSet, beq_iff_eq, hk, if_false, List.map_cons, List.nodup_cons]
      refine ⟨?_, ih h2⟩
      intro hmem
      obtain ⟨e, he, hfst⟩ := List.mem_map.mp hmem
      have hl : (mapSet rest k v).lookup k₀ = rest.lookup k₀ := lookup_mapSet_ne rest k k₀ v hk
      have hnone : rest.lookup k₀ = none := by
        rw [List.lookup_eq_none_iff]
        intro p hp
        have : p.1 ≠ k₀ := fun hpk => h1 (List.mem_map.mpr ⟨p, hp, hpk⟩)
        simpa using fun hh => this hh.symm
      rw [hnone, List.lookup_eq_none_iff] at hl
      have := hl e he
      simp [hfst] at this

theorem keys_mapDelete_nodup (m : GoMap) (k : String)
    (h : (m.map Prod.fst).Nodup) : ((mapDelete m k).map Prod.fst).Nodup := by
  unfold mapDelete
  exact (List.Nodup.sublist (List.Sublist.map _ (List.filter_sublist _)) h)

theorem lookup_eq_none_of_not_mem_keys (m : GoMap) (k : String)
    (h : k ∉ m.map Prod.fst) : m.lookup k = none := by
  rw [List.lookup_eq_none_iff]
  intro p hp
  have : p.1 ≠ k := fun hpk => h (List.mem_map.mpr ⟨p, hp, hpk⟩)
  simpa using fun hh => this hh.symm

theorem not_mem_keys_of_lookup_eq_none (m : GoMap) (k : String)
    (h : m.lookup k = none) : k ∉ m.map Prod.fst := by
  rw [List.lookup_eq_none_iff] at h
  intro hmem
  obtain ⟨e, he, hfst⟩ := List.mem_map.mp hmem
  have := h e he
  simp [hfst] at this

theorem lookup_addOptions_of_not_mem (opts : GoMap) (k : String) :
    ∀ request : GoMap, k ∉ opts.map Prod.fst →
      (addOptions opts request).lookup k = request.lookup k := by
  induction opts with
  | nil => intro request _; rfl
  | cons e rest ih =>
    intro request hk
    obtain ⟨k₀, v₀⟩ := e
    simp only [List.map_cons, List.mem_cons, not_or] at hk
    simp only [addOptions]
    rw [ih _ hk.2, lookup_mapSet_ne _ _ _ _ hk.1]

theorem lookup_addOptions (opts : GoMap) (k : String) :
    ∀ request : GoMap, (opts.map Prod.fst).Nodup →
      (addOptions opts request).lookup k = (opts.lookup k).or (request.lookup k) := by
  induction opts with
  | nil => intro request _; rfl
  | cons e rest ih =>
    intro request hnd
    obtain ⟨k₀, v₀⟩ := e
    have h1 := (List.nodup_cons.mp hnd).1
    have h2 := (List.nodup_cons.mp hnd).2
    simp only [addOptions]
    by_cases hk : k = k₀
    · subst hk
      rw [lookup_addOptions_of_not_mem rest k _ h1, lookup_mapSet_self]
      simp
    · have hk' : (k == k₀) = false := by simpa using hk
      rw [ih _ h2, lookup_mapSet_ne _ _ _ _ hk, List.lookup_cons, hk']

theorem keys_mergeOptions_nodup (excluded : List String) (src : GoMap) :
    ∀ merged : GoMap, (merged.map Prod.fst).Nodup →
      ((mergeOptions excluded src merged).map Prod.fst).Nodup := by
  induction src with
  | nil => intro merged h; exact h
  | cons e rest ih =>
    intro merged h
    obtain ⟨k₀, v₀⟩ := e
    simp only [mergeOptions]
    split
    · exact ih merged h
    · exact ih _ (keys_mapSet_nodup merged k₀ v₀ h)

theorem lookup_mergeOptions_of_not_mem (excluded : List String) (src : GoMap) (k : String) :
    ∀ merged : GoMap, k ∉ src.map Prod.fst →
      (mergeOptions excluded src merged).lookup k = merged.lookup k := by
  induction src with
  | nil => intro merged _; rfl
  | cons e rest ih =>
    intro merged hk
    obtain ⟨k₀, v₀⟩ := e
    simp only [List.map_cons, List.mem_cons, not_or] at hk
    simp only [mergeOptions]
    split
    · exact ih merged hk.2
    · rw [ih _ hk.2, lookup_mapSet_ne _ _ _ _ hk.1]

theorem lookup_mergeOptions (excluded : List String) (src : GoMap) (k : String)
    (hex : excluded.contains k = false) :
    ∀ merged : GoMap, (src.map Prod.fst).Nodup →
      (mergeOptions excluded src merged).lookup k = (src.lookup k).or (merged.lookup k) := by
  induction src with
  | nil => intro merged _; rfl
  | cons e rest ih =>
    intro merged hnd
    obtain ⟨k₀, v₀⟩ := e
    have h1 := (List.nodup_cons.mp hnd).1
    have h2 := (List.nodup_cons.mp hnd).2
    simp only [mergeOptions]
    by_cases hk : k = k₀
    · subst hk
      rw [hex]
      simp only [Bool.false_eq_true, if_false]
      rw [lookup_mergeOptions_of_not_mem excluded rest k _ h1, lookup_mapSet_self]
      simp
    · have hk' : (k == k₀) = false := by simpa using hk
      rw [List.lookup_cons, hk']
      split
      · exact ih merged h2
      · rw [ih _ h2, lookup_mapSet_ne _ _ _ _ hk]

theorem lookup_mergeOptions_excluded (excluded : List String) (src : GoMap) (k : String)
    (hex : excluded.contains k = true) :
    ∀ merged : GoMap, (mergeOptions excluded src merged).lookup k = merged.lookup k := by
  induction src with
  | nil => intro merged; rfl
  | cons e rest ih =>
    intro merged
    obtain ⟨k₀, v₀⟩ := e
    simp only [mergeOptions]
    split
    · exact ih merged
    · rename_i hne
      have hk : k ≠ k₀ := by
        rintro rfl
        exact hne hex
      rw [ih _, lookup_mapSet_ne _ _ _ _ hk]

theorem keys_resolveTokenLimit_nodup (p : OpenAIProvider) (m : GoMap)
    (h : (m.map Prod.fst).Nodup) : ((resolveTokenLimit p m).map Prod.fst).Nodup := by
  unfold resolveTokenLimit
  split
  · split
    · exact keys_mapDelete_nodup _ _ (keys_mapSet_nodup _ _ _ h)
    · exact h
  · split
    · exact keys_mapDelete_nodup _ _ (keys_mapSet_nodup _ _ _ h)
    · exact h

theorem keys_resolveQuirks_nodup (p : OpenAIProvider) (m : GoMap)
    (h : (m.map Prod.fst).Nodup) : ((resolveQuirks p m).map Prod.fst).Nodup := by
  unfold resolveQuirks
  have h1 := keys_resolveTokenLimit_nodup p m h
  simp only
  split
  · split
    · exact keys_mapDelete_nodup _ _ (keys_mapDelete_nodup _ _ h1)
    · exact keys_mapDelete_nodup _ _ h1
  · split
    · exact keys_mapDelete_nodup _ _ h1
    · exact h1

theorem lookup_resolveQuirks_temperature (p : OpenAIProvider) (m : GoMap)
    (h : needsNoTemperature p = true) : (resolveQuirks p m).lookup "temperature" = none := by
  unfold resolveQuirks
  simp only [h, if_true]
  exact lookup_mapDelete_self _ _

theorem lookup_resolveTokenLimit_max (p : OpenAIProvider) (m : GoMap) (v : Value)
    (h : needsMaxCompletionTokens p = true) (hv : m.lookup "max_tokens" = some v) :
    (resolveTokenLimit p m).lookup "max_completion_tokens" = some v ∧
    (resolveTokenLimit p m).lookup "max_tokens" = none := by
  unfold resolveTokenLimit
  simp only [h, if_true, hv]
  constructor
  · rw [lookup_mapDelete_ne _ _ _ (by decide), lookup_mapSet_self]
  · exact lookup_mapDelete_self _ _

theorem lookup_resolveQuirks_max (p : OpenAIProvider) (m : GoMap) (v : Value)
    (h : needsMaxCompletionTokens p = true) (hv : m.lookup "max_tokens" = some v) :
    (resolveQuirks p m).lookup "max_completion_tokens" = some v ∧
    (resolveQuirks p m).lookup "max_tokens" = none := by
  obtain ⟨h1, h2⟩ := lookup_resolveTokenLimit_max p m v h hv
  unfold resolveQuirks
  simp only
  constructor
  · split
    · split
      · rw [lookup_mapDelete_ne _ _ _ (by decide), lookup_mapDelete_ne _ _ _ (by decide), h1]
      · rw [lookup_mapDelete_ne _ _ _ (by decide), h1]
    · split
      · rw [lookup_mapDelete_ne _ _ _ (by decide), h1]
      · exact h1
  · split
    · split
      · rw [lookup_mapDelete_ne _ _ _ (by decide), lookup_mapDelete_ne _ _ _ (by decide), h2]
      · rw [lookup_mapDelete_ne _ _ _ (by decide), h2]
    · split
      · rw [lookup_mapDelete_ne _ _ _ (by decide), h2]
      · exact h2

theorem lookup_appendMessage {request request' msg : GoMap} {k : String}
    (h : appendMessage request msg = some request') (hk : k ≠ "messages") :
    request'.lookup k = request.lookup k := by
  unfold appendMessage at h
  split at h
  · simp only [Option.some.injEq] at h
    rw [← h, lookup_mapSet_ne _ _ _ _ hk]
  · cases h

theorem lookup_addSystemPrompt {role : String} {options request request' : GoMap} {k : String}
    (h : addSystemPrompt role options request = some request') (hk : k ≠ "messages") :
    request'.lookup k = request.lookup k := by
  unfold addSystemPrompt at h
  split at h
  · split at h
    · exact lookup_appendMessage h hk
    · simp only [Option.some.injEq] at h
      rw [h]
  · simp only [Option.some.injEq] at h
    rw [h]

theorem lookup_appendMessages (messages : List MemoryMessage) {k : String}
    (hk : k ≠ "messages") :
    ∀ request request' : GoMap, appendMessages messages request = some request' →
      request'.lookup k = request.lookup k := by
  induction messages with
  | nil =>
    intro request request' h
    simp only [appendMessages, Option.some.injEq] at h
    rw [h]
  | cons msg rest ih =>
    intro request request' h
    simp only [appendMessages] at h
    split at h
    · rename_i r hr
      rw [ih r request' h, lookup_appendMessage hr hk]
    · cases h

theorem lookup_handleTools {p : OpenAIProvider} {options request request' : GoMap}
    {k : String} (h : handleTools p options request = some request')
    (hk1 : k ≠ "tools") (hk2 : k ≠ "tool_choice") :
    request'.lookup k = request.lookup k := by
  unfold handleTools at h
  split at h
  · split at h
    · split at h
      · cases h
      · split at h
        · simp only at h
          split at h
          · split at h
            · simp only [Option.some.injEq] at h
              rw [← h, lookup_mapSet_ne _ _ _ _ hk2, lookup_mapSet_ne _ _ _ _ hk1]
            · simp only [Option.some.injEq] at h
              rw [← h, lookup_mapSet_ne _ _ _ _ hk1]
          · simp only [Option.some.injEq] at h
            rw [← h, lookup_mapSet_ne _ _ _ _ hk1]
        · simp only [Option.some.injEq] at h
          rw [h]
    · simp only [Option.some.injEq] at h
      rw [h]
  · simp only [Option.some.injEq] at h
    rw [h]

/-- The final step of the four builders, on a request none of whose structural
entries has the key `k`: the entry of `k` is the one of the resolved options. -/
theorem lookup_finish (p : OpenAIProvider) (merged request : GoMap) (k : String)
    (hm : (merged.map Prod.fst).Nodup) (hr : request.lookup k = none) :
    (addOptions (resolveQuirks p merged) request).lookup k = (resolveQuirks p merged).lookup k := by
  rw [lookup_addOptions _ _ _ (keys_resolveQuirks_nodup p merged hm), hr]
  simp

theorem PrepareRequest_lookup {p : OpenAIProvider} {prompt : String} {options req : GoMap}
    {k : String} (h : PrepareRequest p prompt options = .ok req) (hk : optionKey k = true) :
    req.lookup k =
      (resolveQuirks p
        (mergeOptions ["tools", "tool_choice", "strict_tools", "system_prompt"] options
          (mergeOptions ["tools", "tool_choice", "system_prompt"] p.options []))).lookup k := by
  have hk' : k ≠ "model" ∧ k ≠ "messages" ∧ k ≠ "tools" ∧ k ≠ "tool_choice" := by
    simp only [optionKey, List.contains_cons, List.contains_nil, Bool.or_false, Bool.not_eq_true',
      Bool.or_eq_false_iff, beq_eq_false_iff_ne, ne_eq] at hk
    tauto
  obtain ⟨hmodel, hmsg, htools, hchoice⟩ := hk'
  unfold PrepareRequest at h
  simp only at h
  split at h
  · cases h
  · rename_i r1 h1
    split at h
    · cases h
    · rename_i r2 h2
      split at h
      · cases h
      · rename_i r3 h3
        simp only [Except.ok.injEq] at h
        have hr3 : r3.lookup k = none := by
          rw [lookup_handleTools h3 htools hchoice, lookup_appendMessage h2 hmsg,
            lookup_addSystemPrompt h1 hmsg]
          have e1 : (k == "model") = false := by simpa using hmodel
          have e2 : (k == "messages") = false := by simpa using hmsg
          simp [List.lookup_cons, e1, e2]
        have hnd := keys_mergeOptions_nodup
          ["tools", "tool_choice", "strict_tools", "system_prompt"] options _
          (keys_mergeOptions_nodup ["tools", "tool_choice", "system_prompt"] p.options []
            List.nodup_nil)
        rw [← h]
        apply lookup_finish p _ _ k hnd
        split
        · rw [lookup_mapDelete_ne _ _ _ hchoice, hr3]
        · exact hr3

theorem PrepareRequestWithMessages_lookup {p : OpenAIProvider} {messages : List MemoryMessage}
    {options req : GoMap} {k : String}
    (h : PrepareRequestWithMessages p messages options = .ok req) (hk : optionKey k = true) :
    req.lookup k =
      (resolveQuirks p
        (mergeOptions
          ["tools", "tool_choice", "strict_tools", "system_prompt", "structured_messages"] options
          (mergeOptions ["tools", "tool_choice", "system_prompt", "structured_messages"]
            p.options []))).lookup k := by
  have hk' : k ≠ "model" ∧ k ≠ "messages" ∧ k ≠ "tools" ∧ k ≠ "tool_choice" := by
    simp only [optionKey, List.contains_cons, List.contains_nil, Bool.or_false, Bool.not_eq_true',
      Bool.or_eq_false_iff, beq_eq_false_iff_ne, ne_eq] at hk
    tauto
  obtain ⟨hmodel, hmsg, htools, hchoice⟩ := hk'
  unfold PrepareRequestWithMessages at h
  simp only at h
  split at h
  · cases h
  · rename_i r1 h1
    split at h
    · cases h
    · rename_i r2 h2
      split at h
      · cases h
      · rename_i r3 h3
        simp only [Except.ok.injEq] at h
        have hr3 : r3.lookup k = none := by
          rw [lookup_handleTools h3 htools hchoice, lookup_appendMessages messages hmsg _ _ h2,
            lookup_addSystemPrompt h1 hmsg]
          have e1 : (k == "model") = false := by simpa using hmodel
          have e2 : (k == "messages") = false := by simpa using hmsg
          simp [List.lookup_cons, e1, e2]
        have hnd := keys_mergeOptions_nodup
          ["tools", "tool_choice", "strict_tools", "system_prompt", "structured_messages"]
          options _
          (keys_mergeOptions_nodup ["tools", "tool_choice", "system_prompt", "structured_messages"]
            p.options [] List.nodup_nil)
        rw [← h]
        apply lookup_finish p _ _ k hnd
        split
        · rw [lookup_mapDelete_ne _ _ _ hchoice, hr3]
        · exact hr3

theorem PrepareStreamRequest_lookup {p : OpenAIProvider} {prompt : String}
    {options req : GoMap} {k : String}
    (h : PrepareStreamRequest p prompt options = .ok req) (hk : optionKey k = true) :
    req.lookup k =
      (resolveQuirks p
        (mergeOptions ["stream"] options (mergeOptions ["stream"] p.options []))).lookup k := by
  have hk' : k ≠ "model" ∧ k ≠ "messages" ∧ k ≠ "stream" := by
    simp only [optionKey, List.contains_cons, List.contains_nil, Bool.or_false, Bool.not_eq_true',
      Bool.or_eq_false_iff, beq_eq_false_iff_ne, ne_eq] at hk
    tauto
  obtain ⟨hmodel, hmsg, hstream⟩ := hk'
  unfold PrepareStreamRequest at h
  simp only [Except.ok.injEq] at h
  have hnd := keys_mergeOptions_nodup ["stream"] options _
    (keys_mergeOptions_nodup ["stream"] p.options [] List.nodup_nil)
  rw [← h]
  apply lookup_finish p _ _ k hnd
  have e1 : (k == "model") = false := by simpa using hmodel
  have e2 : (k == "messages") = false := by simpa using hmsg
  have e3 : (k == "stream") = false := by simpa using hstream
  simp [List.lookup_cons, e1, e2, e3]

theorem PrepareRequestWithSchema_lookup {p : OpenAIProvider} {prompt : String}
    {options req : GoMap} {schema : SchemaArg} {k : String}
    (h : PrepareRequestWithSchema p prompt options schema = .ok req)
    (hk : optionKey k = true) :
    req.lookup k =
      (resolveQuirks p
        (mergeOptions ["system_prompt", "strict_tools"] options
          (mergeOptions ["system_prompt", "strict_tools"] p.options []))).lookup k := by
  have hk' : k ≠ "model" ∧ k ≠ "messages" ∧ k ≠ "response_format" := by
    simp only [optionKey, List.contains_cons, List.contains_nil, Bool.or_false, Bool.not_eq_true',
      Bool.or_eq_false_iff, beq_eq_false_iff_ne, ne_eq] at hk
    tauto
  obtain ⟨hmodel, hmsg, hfmt⟩ := hk'
  have e1 : (k == "model") = false := by simpa using hmodel
  have e2 : (k == "messages") = false := by simpa using hmsg
  have e3 : (k == "response_format") = false := by simpa using hfmt
  unfold PrepareRequestWithSchema at h
  split at h
  · cases h
  · rename_i schemaObj hs
    simp only at h
    split at h
    · cases h
    · rename_i r1 h1
      simp only [Except.ok.injEq] at h
      have hnd := keys_mergeOptions_nodup ["system_prompt", "strict_tools"] options _
        (keys_mergeOptions_nodup ["system_prompt", "strict_tools"] p.options [] List.nodup_nil)
      rw [← h]
      apply lookup_finish p _ _ k hnd
      split at h1
      · split at h1
        · split at h1
          · simp only [Option.some.injEq] at h1
            rw [← h1, lookup_mapSet_ne _ _ _ _ hmsg]
            simp [List.lookup_cons, e1, e2, e3]
          · cases h1
        · simp only [Option.some.injEq] at h1
          rw [← h1]
          simp [List.lookup_cons, e1, e2, e3]
      · simp only [Option.some.injEq] at h1
        rw [← h1]
        simp [List.lookup_cons, e1, e2, e3]

/-! ## Lemmas on the response parser -/

theorem lookup_mapSet (m : GoMap) (k k' : String) (v : Value) :
    (mapSet m k v).lookup k' = if k' = k then some v else m.lookup k' := by
  by_cases h : k' = k
  · rw [if_pos h, h, lookup_mapSet_self]
  · rw [if_neg h, lookup_mapSet_ne _ _ _ _ h]

theorem lookup_actionMap (a : ActionBody) :
    (actionMap a).lookup "type" = some (.str a.Type_) ∧
    (actionMap a).lookup "query" = (if a.Query != "" then some (.str a.Query) else none) ∧
    (actionMap a).lookup "domains"
      = (if a.Domains.length > 0 then some (.strSlice a.Domains) else none) ∧
    (actionMap a).lookup "sources"
      = (if a.Sources.length > 0 then some (.mapSlice (a.Sources.map sourceMap)) else none) := by
  unfold actionMap
  by_cases hq : (a.Query != "") = true <;> by_cases hd : a.Domains.length > 0 <;>
    by_cases hs : a.Sources.length > 0 <;>
    simp [hq, hd, hs, lookup_mapSet, List.lookup_cons]

theorem parseAction_actionMap (a : ActionBody) :
    parseAction (actionMap a) = some (recordedAction a) := by
  obtain ⟨h1, h2, h3, h4⟩ := lookup_actionMap a
  unfold parseAction
  rw [h1]
  simp only [h2, h3, h4]
  by_cases hq : (a.Query != "") = true
  · by_cases hd : a.Domains.length > 0 <;> by_cases hs : a.Sources.length > 0 <;>
      simp [hq, hd, hs, recordedAction]
  · have hq' : a.Query = "" := by simpa using hq
    by_cases hd : a.Domains.length > 0 <;> by_cases hs : a.Sources.length > 0 <;>
      simp [hq, hd, hs, recordedAction, hq']

theorem lookup_itemMap (item : OutputBody) :
    (itemMap item).lookup "type" = some (.str item.Type_) ∧
    (itemMap item).lookup "id" = some (.str item.ID) ∧
    (itemMap item).lookup "status" = some (.str item.Status) ∧
    (itemMap item).lookup "action" = item.Action.map (fun a => .map (actionMap a)) ∧
    (itemMap item).lookup "content"
      = (if item.Content.length > 0 then some (.mapSlice (item.Content.map contentMap))
         else none) := by
  unfold itemMap
  cases item.Action <;> by_cases hr : (item.Role != "") = true <;>
    by_cases hc : item.Content.length > 0 <;>
    simp [hr, hc, lookup_mapSet, List.lookup_cons]

theorem parseCall_itemMap (item : OutputBody) :
    parseCall item.Type_ (itemMap item) = some (recordedCall item) := by
  obtain ⟨-, h2, h3, h4, -⟩ := lookup_itemMap item
  unfold parseCall
  rw [h2, h3, h4]
  cases ha : item.Action with
  | none => simp [recordedCall, ha]
  | some a => simp [parseAction_actionMap, recordedCall, ha]

theorem parseOutput_itemMap (output : List OutputBody) :
    ∀ acc : WebSearchAcc,
      parseOutput (output.map (fun item => .map (itemMap item))) acc
        = some { acc with webSearchCalls := acc.webSearchCalls ++ recordedCalls output } := by
  induction output with
  | nil => intro acc; simp [parseOutput, recordedCalls]
  | cons item rest ih =>
    intro acc
    obtain ⟨h1, -, -, -, h5⟩ := lookup_itemMap item
    simp only [List.map_cons, parseOutput, h1]
    by_cases hw : (item.Type_ == "web_search_call") = true
    · simp only [hw, if_true, parseCall_itemMap, ih]
      simp [recordedCalls, List.filter_cons, hw]
    · simp only [hw, if_false]
      have hf : recordedCalls (item :: rest) = recordedCalls rest := by
        simp [recordedCalls, List.filter_cons, hw]
      rw [hf]
      by_cases hm : (item.Type_ == "message") = true
      · simp only [hm, if_true, h5]
        by_cases hc : item.Content.length > 0
        · simp only [hc, if_true]
          exact ih acc
        · simp only [hc, if_false]
          exact ih acc
      · simp only [hm, if_false]
        exact ih acc

/-- What `ParseResponseWithUsage` returns for every body with at least one output
item: the empty text, the recorded calls, no annotation and no citation. -/
theorem ParseResponseWithUsage_output (formatFunctionCall : String → Value → Option String)
    (response : ResponseBody) (h : response.Output.length > 0) :
    ParseResponseWithUsage formatFunctionCall (some response) =
      .ok ("", { baseDetails response with
        Metadata := [
          ("web_search_calls", .webSearchCalls (recordedCalls response.Output)),
          ("annotations", .annotations []),
          ("citations", .citations [])] }) := by
  unfold ParseResponseWithUsage
  simp only [h, if_true, parseWebSearchResponse, parseOutput_itemMap]
  rfl

/-! ## Lemmas on the tool block and on the shape of the built requests -/

theorem convertTools_eq (options : GoMap) (tools : List (Tool Value)) :
    ∀ acc : List GoMap,
      convertTools options tools acc =
        if (functionTools tools).isEmpty then some acc
        else
          match strictTools options with
          | none => none
          | some b => some (acc ++ (functionTools tools).map (fun t => functionTool t b)) := by
  induction tools with
  | nil => intro acc; rfl
  | cons tool rest ih =>
    intro acc
    by_cases hw : (tool.Type_ == "web_search") = true
    · have hf : functionTools (tool :: rest) = functionTools rest := by
        simp [functionTools, List.filter_cons, hw]
      simp only [convertTools, hw, if_true, hf]
      exact ih acc
    · have hf : functionTools (tool :: rest) = tool :: functionTools rest := by
        simp [functionTools, List.filter_cons, hw]
      simp only [convertTools, hw, hf, List.isEmpty_cons, Bool.false_eq_true, if_false]
      unfold strictTools
      cases hs : options.lookup "strict_tools" with
      | none => rfl
      | some v =>
        cases v <;> try rfl
        rename_i b
        simp only
        rw [ih]
        by_cases he : (functionTools rest).isEmpty = true
        · have : functionTools rest = [] := List.isEmpty_iff.mp he
          simp [he, this]
        · simp [he, strictTools, hs]

theorem handleTools_eq (p : OpenAIProvider) (options request : GoMap) :
    handleTools p options request =
      if (functionTools (toolList options)).isEmpty then some request
      else
        match strictTools options with
        | none => none
        | some b =>
          some (setToolChoice p options
            (mapSet request "tools"
              (.mapSlice ((functionTools (toolList options)).map (fun t => functionTool t b))))) := by
  unfold handleTools toolList
  cases ht : options.lookup "tools" with
  | none => rfl
  | some v =>
    cases v <;> try rfl
    rename_i ts
    simp only
    by_cases hl : ts.length > 0
    · simp only [hl, if_true, convertTools_eq, List.nil_append]
      by_cases he : (functionTools ts).isEmpty = true
      · simp [he]
      · simp only [he, Bool.false_eq_true, if_false]
        cases hs : strictTools options with
        | none => rfl
        | some b =>
          have hne : ((functionTools ts).map (fun t => functionTool t b)).length > 0 := by
            rw [List.length_map]
            cases hft : functionTools ts with
            | nil => simp [hft] at he
            | cons a l => simp
          simp only [hne, if_true, setToolChoice]
          cases options.lookup "tool_choice" with
          | none => rfl
          | some c =>
            cases c <;> try rfl
            simp only
            split <;> rfl
    · have : ts = [] := by
        cases ts with
        | nil => rfl
        | cons a l => simp at hl
      subst this
      rfl

theorem addSystemPrompt_baseRequest (role model : String) (options : GoMap) :
    addSystemPrompt role options (baseRequest model [])
      = some (baseRequest model (systemMessages role options)) := by
  unfold addSystemPrompt systemMessages
  cases options.lookup "system_prompt" with
  | none => rfl
  | some v =>
    cases v <;> try rfl
    rename_i s
    simp only
    split <;> rfl

theorem appendMessage_baseRequest (model : String) (ms : List GoMap) (msg : GoMap) :
    appendMessage (baseRequest model ms) msg = some (baseRequest model (ms ++ [msg])) := by
  rfl

theorem appendMessages_baseRequest (model : String) (messages : List MemoryMessage) :
    ∀ ms : List GoMap,
      appendMessages messages (baseRequest model ms)
        = some (baseRequest model (ms ++ messages.map wireMessage)) := by
  induction messages with
  | nil => intro ms; simp [appendMessages]
  | cons msg rest ih =>
    intro ms
    simp only [appendMessages, appendMessage_baseRequest, ih, List.map_cons, List.append_assoc,
      List.singleton_append]

theorem PrepareRequest_eq (p : OpenAIProvider) (prompt : String) (options : GoMap) :
    PrepareRequest p prompt options =
      match handleTools p options
          (baseRequest p.model (systemMessages "developer" options ++ [userMessage prompt])) with
      | none => .error .panic
      | some request => .ok (finishRequest p (mergedRequestOptions p options) request) := by
  unfold PrepareRequest
  simp only
  have h1 := addSystemPrompt_baseRequest "developer" p.model options
  unfold baseRequest at h1
  rw [h1]
  simp only
  have h2 := appendMessage_baseRequest p.model (systemMessages "developer" options)
    (userMessage prompt)
  unfold baseRequest userMessage at h2
  rw [h2]
  rfl

theorem PrepareRequestWithMessages_eq (p : OpenAIProvider) (messages : List MemoryMessage)
    (options : GoMap) :
    PrepareRequestWithMessages p messages options =
      match handleTools p options
          (baseRequest p.model (systemMessages "system" options ++ messages.map wireMessage)) with
      | none => .error .panic
      | some request => .ok (finishRequest p (mergedMessagesOptions p options) request) := by
  unfold PrepareRequestWithMessages
  simp only
  have h1 := addSystemPrompt_baseRequest "system" p.model options
  unfold baseRequest at h1
  rw [h1]
  simp only
  have h2 := appendMessages_baseRequest p.model messages (systemMessages "system" options)
  unfold baseRequest at h2
  rw [h2]
  rfl

theorem lookup_resolveTokenLimit_other (p : OpenAIProvider) (m : GoMap) (k : String)
    (h1 : k ≠ "max_tokens") (h2 : k ≠ "max_completion_tokens") :
    (resolveTokenLimit p m).lookup k = m.lookup k := by
  unfold resolveTokenLimit
  split
  · split
    · rw [lookup_mapDelete_ne _ _ _ h1, lookup_mapSet_ne _ _ _ _ h2]
    · rfl
  · split
    · rw [lookup_mapDelete_ne _ _ _ h2, lookup_mapSet_ne _ _ _ _ h1]
    · rfl

theorem quirkKey_false {k : String} (h : quirkKey k = false) :
    k ≠ "max_tokens" ∧ k ≠ "max_completion_tokens" ∧ k ≠ "reasoning_effort" ∧
      k ≠ "temperature" := by
  simp only [quirkKey, List.contains_cons, List.contains_nil, Bool.or_false,
    Bool.or_eq_false_iff, beq_eq_false_iff_ne, ne_eq] at h
  tauto

theorem lookup_resolveQuirks_other (p : OpenAIProvider) (m : GoMap) (k : String)
    (h : quirkKey k = false) : (resolveQuirks p m).lookup k = m.lookup k := by
  obtain ⟨h1, h2, h3, h4⟩ := quirkKey_false h
  unfold resolveQuirks
  simp only
  split <;> split <;>
    simp only [lookup_mapDelete_ne _ _ _ h4, lookup_mapDelete_ne _ _ _ h3,
      lookup_resolveTokenLimit_other p m k h1 h2]

theorem keys_mergedRequestOptions_nodup (p : OpenAIProvider) (options : GoMap) :
    ((mergedRequestOptions p options).map Prod.fst).Nodup :=
  keys_mergeOptions_nodup _ options _ (keys_mergeOptions_nodup _ p.options [] List.nodup_nil)

theorem keys_mergedMessagesOptions_nodup (p : OpenAIProvider) (options : GoMap) :
    ((mergedMessagesOptions p options).map Prod.fst).Nodup :=
  keys_mergeOptions_nodup _ options _ (keys_mergeOptions_nodup _ p.options [] List.nodup_nil)

theorem lookup_finishRequest (p : OpenAIProvider) (merged request : GoMap) (k : String)
    (hm : (merged.map Prod.fst).Nodup) :
    (finishRequest p merged request).lookup k =
      ((resolveQuirks p merged).lookup k).or
        ((if needsNoToolChoice p then mapDelete request "tool_choice" else request).lookup k) := by
  unfold finishRequest
  exact lookup_addOptions _ _ _ (keys_resolveQuirks_nodup p merged hm)

/-- A key excluded from both merges of `PrepareRequest` is not among its merged options. -/
theorem lookup_mergedRequestOptions_excluded (p : OpenAIProvider) (options : GoMap) (k : String)
    (h : ["tools", "tool_choice", "system_prompt"].contains k = true) :
    (mergedRequestOptions p options).lookup k = none := by
  have h' : ["tools", "tool_choice", "strict_tools", "system_prompt"].contains k = true := by
    simp only [List.contains_cons, List.contains_nil, Bool.or_false, Bool.or_eq_true,
      beq_iff_eq] at h ⊢
    tauto
  unfold mergedRequestOptions
  rw [lookup_mergeOptions_excluded _ _ _ h', lookup_mergeOptions_excluded _ _ _ h]
  rfl

/-- A key excluded from both merges of `PrepareRequestWithMessages` is not among its
merged options. -/
theorem lookup_mergedMessagesOptions_excluded (p : OpenAIProvider) (options : GoMap)
    (k : String)
    (h : ["tools", "tool_choice", "system_prompt", "structured_messages"].contains k = true) :
    (mergedMessagesOptions p options).lookup k = none := by
  have h' : ["tools", "tool_choice", "strict_tools", "system_prompt",
      "structured_messages"].contains k = true := by
    simp only [List.contains_cons, List.contains_nil, Bool.or_false, Bool.or_eq_true,
      beq_iff_eq] at h ⊢
    tauto
  unfold mergedMessagesOptions
  rw [lookup_mergeOptions_excluded _ _ _ h', lookup_mergeOptions_excluded _ _ _ h]
  rfl

/-! ## Lemmas on the token limit and on `tool_choice` in the built requests -/

theorem lookup_mapDelete_of_none (m : GoMap) (k k' : String) (h : m.lookup k = none) :
    (mapDelete m k').lookup k = none := by
  by_cases hk : k = k'
  · rw [hk]
    exact lookup_mapDelete_self _ _
  · rw [lookup_mapDelete_ne _ _ _ hk, h]

theorem lookup_resolveQuirks_of_none (p : OpenAIProvider) (m : GoMap) (k : String)
    (h : (resolveTokenLimit p m).lookup k = none) : (resolveQuirks p m).lookup k = none := by
  unfold resolveQuirks
  simp only
  split <;> split <;>
    first
    | exact h
    | exact lookup_mapDelete_of_none _ _ _ h
    | exact lookup_mapDelete_of_none _ _ _ (lookup_mapDelete_of_none _ _ _ h)

theorem lookup_resolveQuirks_max_tokens (p : OpenAIProvider) (m : GoMap)
    (h : needsMaxCompletionTokens p = true) : (resolveQuirks p m).lookup "max_tokens" = none := by
  apply lookup_resolveQuirks_of_none
  unfold resolveTokenLimit
  simp only [h, if_true]
  cases hv : m.lookup "max_tokens" with
  | none => exact hv
  | some v => exact lookup_mapDelete_self _ _

theorem lookup_resolveQuirks_max_completion_tokens (p : OpenAIProvider) (m : GoMap)
    (h : needsMaxCompletionTokens p = false) :
    (resolveQuirks p m).lookup "max_completion_tokens" = none := by
  apply lookup_resolveQuirks_of_none
  unfold resolveTokenLimit
  simp only [h, Bool.false_eq_true, if_false]
  cases hv : m.lookup "max_completion_tokens" with
  | none => exact hv
  | some v => exact lookup_mapDelete_self _ _

theorem lookup_baseRequest (model : String) (ms : List GoMap) (k : String)
    (h1 : k ≠ "model") (h2 : k ≠ "messages") : (baseRequest model ms).lookup k = none := by
  have e1 : (k == "model") = false := by simpa using h1
  have e2 : (k == "messages") = false := by simpa using h2
  simp [baseRequest, List.lookup_cons, e1, e2]

theorem lookup_setToolChoice (p : OpenAIProvider) (options request : GoMap) (k : String)
    (hk : k ≠ "tool_choice") : (setToolChoice p options request).lookup k = request.lookup k := by
  unfold setToolChoice
  split
  · split
    · exact lookup_mapSet_ne _ _ _ _ hk
    · rfl
  · rfl

theorem lookup_setToolChoice_self (p : OpenAIProvider) (options request : GoMap)
    (hr : request.lookup "tool_choice" = none) :
    (setToolChoice p options request).lookup "tool_choice"
      = if needsNoToolChoice p then none else toolChoiceEntry options := by
  unfold setToolChoice toolChoiceEntry
  cases options.lookup "tool_choice" with
  | none => simp [hr]
  | some v =>
    cases v <;> try simp [hr]
    rename_i s
    by_cases hn : needsNoToolChoice p = true
    · simp [hn, hr]
    · simp [hn, lookup_mapSet_self]

/-- The `tool_choice` and the `tools` entries of the request that the tool block
returns for a base request. -/
theorem lookup_handleTools_base {p : OpenAIProvider} {options request : GoMap}
    {model : String} {ms : List GoMap}
    (h : handleTools p options (baseRequest model ms) = some request) :
    request.lookup "tool_choice" =
      (if (functionTools (toolList options)).isEmpty || needsNoToolChoice p then none
       else toolChoiceEntry options) ∧
    ∀ k, k ≠ "tools" → k ≠ "tool_choice" → request.lookup k = (baseRequest model ms).lookup k := by
  refine ⟨?_, fun k h1 h2 => lookup_handleTools h h1 h2⟩
  rw [handleTools_eq] at h
  by_cases he : (functionTools (toolList options)).isEmpty = true
  · simp only [he, if_true, Option.some.injEq] at h
    simp only [he, Bool.true_or, if_true, ← h]
    exact lookup_baseRequest _ _ _ (by decide) (by decide)
  · simp only [he, Bool.false_eq_true, if_false] at h
    cases hs : strictTools options with
    | none => rw [hs] at h; cases h
    | some b =>
      rw [hs] at h
      simp only [Option.some.injEq] at h
      rw [← h, lookup_setToolChoice_self]
      · simp [he]
      · rw [lookup_mapSet_ne _ _ _ _ (by decide)]
        exact lookup_baseRequest _ _ _ (by decide) (by decide)

/-- The `tool_choice` entry of a request finished from the result of the tool block,
when the merged options hold no `tool_choice`. -/
theorem lookup_finishRequest_tool_choice (p : OpenAIProvider) (merged request : GoMap)
    (hm : (merged.map Prod.fst).Nodup) (hn : merged.lookup "tool_choice" = none) :
    (finishRequest p merged request).lookup "tool_choice"
      = if needsNoToolChoice p then none else request.lookup "tool_choice" := by
  rw [lookup_finishRequest p merged request _ hm,
    lookup_resolveQuirks_other p merged _ (by decide), hn]
  by_cases h : needsNoToolChoice p = true
  · simp [h, lookup_mapDelete_self]
  · simp [h]

/-- The `tool_choice` entry of a request built by `PrepareRequest`. -/
theorem PrepareRequest_tool_choice {p : OpenAIProvider} {prompt : String} {options req : GoMap}
    (h : PrepareRequest p prompt options = .ok req) :
    req.lookup "tool_choice" =
      if (functionTools (toolList options)).isEmpty || needsNoToolChoice p then none
      else toolChoiceEntry options := by
  rw [PrepareRequest_eq] at h
  split at h
  · cases h
  · rename_i r3 h3
    simp only [Except.ok.injEq] at h
    rw [← h, lookup_finishRequest_tool_choice p _ _ (keys_mergedRequestOptions_nodup p options)
      (lookup_mergedRequestOptions_excluded p options _ (by decide)),
      (lookup_handleTools_base h3).1]
    by_cases hn : needsNoToolChoice p = true
    · simp [hn]
    · simp [hn]

/-- The `tool_choice` entry of a request built by `PrepareRequestWithMessages`. -/
theorem PrepareRequestWithMessages_tool_choice {p : OpenAIProvider}
    {messages : List MemoryMessage} {options req : GoMap}
    (h : PrepareRequestWithMessages p messages options = .ok req) :
    req.lookup "tool_choice" =
      if (functionTools (toolList options)).isEmpty || needsNoToolChoice p then none
      else toolChoiceEntry options := by
  rw [PrepareRequestWithMessages_eq] at h
  split at h
  · cases h
  · rename_i r3 h3
    simp only [Except.ok.injEq] at h
    rw [← h, lookup_finishRequest_tool_choice p _ _ (keys_mergedMessagesOptions_nodup p options)
      (lookup_mergedMessagesOptions_excluded p options _ (by decide)),
      (lookup_handleTools_base h3).1]
    by_cases hn : needsNoToolChoice p = true
    · simp [hn]
    · simp [hn]

/-- The `tools` entry of a request finished from the result of the tool block, when the
merged options hold no `tools`. -/
theorem lookup_finishRequest_tools (p : OpenAIProvider) (merged request : GoMap)
    (hm : (merged.map Prod.fst).Nodup) (hn : merged.lookup "tools" = none) :
    (finishRequest p merged request).lookup "tools" = request.lookup "tools" := by
  rw [lookup_finishRequest p merged request _ hm,
    lookup_resolveQuirks_other p merged _ (by decide), hn]
  by_cases h : needsNoToolChoice p = true
  · simp [h, lookup_mapDelete_ne _ _ "tools" (by decide : "tools" ≠ "tool_choice")]
  · simp [h]

/-- The `tools` entry of the request the tool block returns for a base request. -/
theorem lookup_handleTools_tools {p : OpenAIProvider} {options request : GoMap}
    {model : String} {ms : List GoMap}
    (h : handleTools p options (baseRequest model ms) = some request) :
    request.lookup "tools" =
      if (functionTools (toolList options)).isEmpty then none
      else
        match strictTools options with
        | none => none
        | some b =>
          some (.mapSlice ((functionTools (toolList options)).map (fun t => functionTool t b))) := by
  rw [handleTools_eq] at h
  by_cases he : (functionTools (toolList options)).isEmpty = true
  · simp only [he, if_true, Option.some.injEq] at h
    simp only [he, if_true, ← h]
    exact lookup_baseRequest _ _ _ (by decide) (by decide)
  · simp only [he, Bool.false_eq_true, if_false] at h ⊢
    cases hs : strictTools options with
    | none => rw [hs] at h; cases h
    | some b =>
      rw [hs] at h
      simp only [Option.some.injEq] at h
      rw [← h, lookup_setToolChoice _ _ _ _ (by decide), lookup_mapSet_self]

theorem toolList_of_lookup {options : GoMap} {tools : List (Tool Value)}
    (h : options.lookup "tools" = some (.tools tools)) : toolList options = tools := by
  simp [toolList, h]

theorem strictTools_of_lookup {options : GoMap} {b : Bool}
    (h : options.lookup "strict_tools" = some (.bool b)) : strictTools options = some b := by
  simp [strictTools, h]

/-! ## Lemmas on ParseResponse, on the results of ParseResponseWithUsage and on the stream decoder -/

/-- The results of `ParseResponseWithUsage`, return by return, are those of the first
embedding: a result is the text with non-nil details and a nil error, an error comes
with the empty text and nil details. -/
theorem ParseResponseWithUsageReturn_eq (f : String → Value → Option String)
    (decoded : Option ResponseBody) :
    ParseResponseWithUsageReturn f decoded =
      match ParseResponseWithUsage f decoded with
      | .ok r => { text := r.1, details := some r.2, err := none }
      | .error e => { text := "", details := none, err := some e } := by
  unfold ParseResponseWithUsageReturn ParseResponseWithUsage
  cases decoded with
  | none => rfl
  | some response =>
    simp only
    split
    · split <;> rfl
    · split
      · rfl
      · split
        · rfl
        · split
          · split <;> rfl
          · rfl

theorem formatCalls_eq (f : String → Value → Option String) (calls : List ToolCallBody) :
    ∀ (strs acc : List String), calls.map (formattedCall f) = strs.map some →
      formatCalls f calls acc = .ok (acc ++ strs) := by
  induction calls with
  | nil =>
    intro strs acc h
    cases strs with
    | nil => simp [formatCalls]
    | cons s rest => simp at h
  | cons call rest ih =>
    intro strs acc h
    cases strs with
    | nil => simp at h
    | cons s srest =>
      simp only [List.map_cons, List.cons.injEq] at h
      obtain ⟨h1, h2⟩ := h
      unfold formattedCall at h1
      unfold formatCalls
      cases ha : call.Arguments with
      | none => rw [ha] at h1; cases h1
      | some args =>
        rw [ha] at h1
        simp only at h1 ⊢
        rw [h1]
        simp only
        rw [ih srest _ h2]
        simp

theorem trimSpace_of_all {s : List Char} (h : s.all isSpace = true) : trimSpace s = [] := by
  have hd : s.dropWhile isSpace = [] := by
    rw [List.dropWhile_eq_nil_iff]
    intro c hc
    exact (List.all_eq_true.mp h) c hc
  simp [trimSpace, hd]

theorem dropWhile_all_of_nil {p : Char → Bool} : ∀ {s : List Char},
    s.dropWhile p = [] → s.all p = true := by
  intro s h
  rw [List.dropWhile_eq_nil_iff] at h
  exact List.all_eq_true.mpr h

/-! ## Lemmas on the messages, the response format and `reasoning_effort` -/

theorem systemMessages_of_prompt (role : String) (options : GoMap) (s : String)
    (h : options.lookup "system_prompt" = some (.str s)) (hne : s ≠ "") :
    systemMessages role options = [[("role", .str role), ("content", .str s)]] := by
  simp [systemMessages, h, hne]

theorem systemMessages_of_no_prompt (role : String) (options : GoMap)
    (h : ∀ s, options.lookup "system_prompt" = some (.str s) → s = "") :
    systemMessages role options = [] := by
  unfold systemMessages
  cases hl : options.lookup "system_prompt" with
  | none => rfl
  | some v =>
    cases v <;> try rfl
    rename_i s
    simp [h s hl]

theorem PrepareRequestWithSchema_eq (p : OpenAIProvider) (prompt : String) (options : GoMap)
    (schema : SchemaArg) :
    PrepareRequestWithSchema p prompt options schema =
      match schema.schemaObj with
      | none => .error .schema
      | some schemaObj =>
        .ok (addOptions (resolveQuirks p (mergedSchemaOptions p options))
          (schemaRequest p.model (systemMessages "system" options ++ [userMessage prompt])
            (cleanSchemaForOpenAI schemaObj))) := by
  unfold PrepareRequestWithSchema
  cases schema.schemaObj with
  | none => rfl
  | some schemaObj =>
    simp only
    unfold systemMessages
    cases options.lookup "system_prompt" with
    | none => rfl
    | some v =>
      cases v <;> try rfl
      rename_i s
      by_cases hs : (s != "") = true
      · simp only [hs, if_true]
        rfl
      · simp only [hs, if_false]
        rfl

theorem PrepareStreamRequest_eq (p : OpenAIProvider) (prompt : String) (options : GoMap) :
    PrepareStreamRequest p prompt options =
      .ok (addOptions (resolveQuirks p (mergedStreamOptions p options))
        [("model", .str p.model),
         ("messages", .strMapSlice [[("role", "user"), ("content", prompt)]]),
         ("stream", .bool true)]) := by
  rfl

theorem keys_mergedSchemaOptions_nodup (p : OpenAIProvider) (options : GoMap) :
    ((mergedSchemaOptions p options).map Prod.fst).Nodup :=
  keys_mergeOptions_nodup _ options _ (keys_mergeOptions_nodup _ p.options [] List.nodup_nil)

theorem keys_mergedStreamOptions_nodup (p : OpenAIProvider) (options : GoMap) :
    ((mergedStreamOptions p options).map Prod.fst).Nodup :=
  keys_mergeOptions_nodup _ options _ (keys_mergeOptions_nodup _ p.options [] List.nodup_nil)

/-- A key that neither option map holds is not among the merged options, whatever the
exclusion lists. -/
theorem lookup_merge_of_absent (ex1 ex2 : List String) (options provider : GoMap) (k : String)
    (ho : options.lookup k = none) (hp : provider.lookup k = none) :
    (mergeOptions ex1 options (mergeOptions ex2 provider [])).lookup k = none := by
  rw [lookup_mergeOptions_of_not_mem _ _ _ _ (not_mem_keys_of_lookup_eq_none _ _ ho),
    lookup_mergeOptions_of_not_mem _ _ _ _ (not_mem_keys_of_lookup_eq_none _ _ hp)]
  rfl

/-- A value of the call options under a key that is not excluded is the value of the
merged options. -/
theorem lookup_merge_of_call (ex1 ex2 : List String) (options provider : GoMap) (k : String)
    (v : Value) (hex : ex1.contains k = false) (hu : keysUnique (options.map Prod.fst) = true)
    (hv : options.lookup k = some v) :
    (mergeOptions ex1 options (mergeOptions ex2 provider [])).lookup k = some v := by
  rw [lookup_mergeOptions _ _ _ hex _ ((keysUnique_iff _).mp hu), hv]
  rfl

theorem lookup_resolveQuirks_reasoning_none (p : OpenAIProvider) (m : GoMap)
    (h : needsReasoningEffort p = false) :
    (resolveQuirks p m).lookup "reasoning_effort" = none := by
  unfold resolveQuirks
  simp only [h, Bool.not_false, if_true]
  split
  · exact lookup_mapDelete_of_none _ _ _ (lookup_mapDelete_self _ _)
  · exact lookup_mapDelete_self _ _

theorem lookup_resolveQuirks_reasoning (p : OpenAIProvider) (m : GoMap)
    (h : needsReasoningEffort p = true) :
    (resolveQuirks p m).lookup "reasoning_effort" = m.lookup "reasoning_effort" := by
  unfold resolveQuirks
  simp only [h, Bool.not_true, Bool.false_eq_true, if_false]
  split
  · rw [lookup_mapDelete_ne _ _ _ (by decide),
      lookup_resolveTokenLimit_other p m _ (by decide) (by decide)]
  · exact lookup_resolveTokenLimit_other p m _ (by decide) (by decide)

theorem lookup_wireMessage (msg : MemoryMessage) (k : String)
    (h : k ∉ msg.Metadata.map Prod.fst) :
    (wireMessage msg).lookup k
      = List.lookup k [("role", Value.str msg.Role), ("content", Value.str msg.Content)] := by
  unfold wireMessage
  split
  · exact lookup_addOptions_of_not_mem _ _ _ h
  · rfl

/-- The `messages` entry of a request finished from a request that holds the message
array, when the merged options hold no `messages`. -/
theorem lookup_messages_finish (p : OpenAIProvider) (merged request : GoMap) (v : Value)
    (hm : (merged.map Prod.fst).Nodup) (hn : merged.lookup "messages" = none)
    (hr : request.lookup "messages" = some v) :
    (finishRequest p merged request).lookup "messages" = some v := by
  rw [lookup_finishRequest p merged request _ hm,
    lookup_resolveQuirks_other _ _ _ (by decide), hn]
  split
  · rw [lookup_mapDelete_ne _ _ _ (by decide), hr]
    rfl
  · rw [hr]
    rfl

/-! ## Lemmas on the stream decoder -/

/-- A chunk that is not blank and not the terminator is decided by the decoder outcome. -/
theorem ParseStreamResponse_decoded (chunk : String)
    (decoded : Except String (List StreamChoice))
    (hb : (trimSpace chunk.toList).length ≠ 0)
    (hd : trimSpace chunk.toList ≠ "[DONE]".toList) :
    ParseStreamResponse chunk decoded =
      match decoded with
      | .error e => ("", some (.message ("malformed response: " ++ e)))
      | .ok [] => ("", some (.message "no choices in response"))
      | .ok (choice :: _) =>
        if choice.FinishReason != "" then ("", some .eof)
        else if choice.Role != "" && choice.Content == "" then
          ("", some (.message "skip token"))
        else (choice.Content, none) := by
  have h1 : ((trimSpace chunk.toList).length == 0) = false := by
    rw [beq_eq_false_iff_ne]
    exact hb
  have h2 : (trimSpace chunk.toList == "[DONE]".toList) = false := by
    rw [beq_eq_false_iff_ne]
    exact hd
  unfold ParseStreamResponse
  simp only [h1, h2, Bool.false_eq_true, if_false]
  cases decoded with
  | error e => rfl
  | ok choices =>
    cases choices with
    | nil => rfl
    | cons choice rest => rfl

/-! ## Lemmas on `SetOption` -/

theorem SetOption_max_tokens_renamed (p : OpenAIProvider) (value : Value)
    (h : needsMaxCompletionTokens p = true) :
    (SetOption p "max_tokens" value).options
      = mapSet (mapDelete p.options "max_tokens") "max_completion_tokens" value := by
  simp [SetOption, h]

theorem SetOption_max_tokens_kept (p : OpenAIProvider) (value : Value)
    (h : needsMaxCompletionTokens p = false) :
    (SetOption p "max_tokens" value).options
      = mapSet (mapDelete p.options "max_completion_tokens") "max_tokens" value := by
  simp [SetOption, h]

theorem SetOption_max_completion_tokens (p : OpenAIProvider) (value : Value) :
    (SetOption p "max_completion_tokens" value).options
      = mapSet (mapDelete p.options "max_tokens") "max_completion_tokens" value := by
  simp [SetOption]

theorem SetOption_reasoning_effort (p : OpenAIProvider) (value : Value) :
    (SetOption p "reasoning_effort" value).options
      = mapSet (if !needsReasoningEffort p then mapDelete p.options "reasoning_effort"
          else p.options) "reasoning_effort" value := by
  simp [SetOption]

theorem SetOption_temperature (p : OpenAIProvider) (value : Value) :
    (SetOption p "temperature" value).options
      = mapSet (if needsNoTemperature p then mapDelete p.options "temperature"
          else p.options) "temperature" value := by
  simp [SetOption]

/-- A call of `SetOption` with a key other than the two token limits leaves every other
key of the options as it was. -/
theorem lookup_SetOption_other (p : OpenAIProvider) (key k : String) (value : Value)
    (h1 : key ≠ "max_tokens") (h2 : key ≠ "max_completion_tokens") (hk : k ≠ key) :
    (SetOption p key value).options.lookup k = p.options.lookup k := by
  have e1 : (key == "max_tokens") = false := by simpa using h1
  have e2 : (key == "max_completion_tokens") = false := by simpa using h2
  unfold SetOption
  simp only [e1, e2, Bool.false_eq_true, if_false]
  rw [lookup_mapSet_ne _ _ _ _ hk]
  by_cases hr : key = "reasoning_effort"
  · subst hr
    have e3 : (("reasoning_effort" : String) == "temperature") = false := by decide
    simp only [e3, Bool.false_eq_true, if_false, beq_self_eq_true, if_true]
    split
    · exact lookup_mapDelete_ne _ _ _ hk
    · rfl
  · have e3 : (key == "reasoning_effort") = false := by simpa using hr
    simp only [e3, Bool.false_eq_true, if_false]
    by_cases ht : key = "temperature"
    · subst ht
      simp only [beq_self_eq_true, if_true]
      split
      · exact lookup_mapDelete_ne _ _ _ hk
      · rfl
    · have e4 : (key == "temperature") = false := by simpa using ht
      simp only [e4, Bool.false_eq_true, if_false]

theorem singleTokenLimit_iff (options : GoMap) :
    singleTokenLimit options ↔
      (options.lookup "max_tokens" = none ∨ options.lookup "max_completion_tokens" = none) := by
  unfold singleTokenLimit
  constructor
  · intro h
    by_cases h1 : "max_tokens" ∈ options.map Prod.fst
    · by_cases h2 : "max_completion_tokens" ∈ options.map Prod.fst
      · exact absurd ⟨h1, h2⟩ h
      · exact Or.inr (lookup_eq_none_of_not_mem_keys _ _ h2)
    · exact Or.inl (lookup_eq_none_of_not_mem_keys _ _ h1)
  · rintro (h | h) ⟨h1, h2⟩
    · exact not_mem_keys_of_lookup_eq_none _ _ h h1
    · exact not_mem_keys_of_lookup_eq_none _ _ h h2

/-- One call of `SetOption` keeps the options free of the pair of token limits. -/
theorem singleTokenLimit_SetOption (p : OpenAIProvider) (key : String) (value : Value)
    (h : singleTokenLimit p.options) : singleTokenLimit (SetOption p key value).options := by
  rw [singleTokenLimit_iff] at h ⊢
  by_cases h1 : key = "max_tokens"
  · subst h1
    cases hn : needsMaxCompletionTokens p with
    | true =>
      left
      rw [SetOption_max_tokens_renamed p value hn, lookup_mapSet_ne _ _ _ _ (by decide)]
      exact lookup_mapDelete_self _ _
    | false =>
      right
      rw [SetOption_max_tokens_kept p value hn, lookup_mapSet_ne _ _ _ _ (by decide)]
      exact lookup_mapDelete_self _ _
  · by_cases h2 : key = "max_completion_tokens"
    · subst h2
      left
      rw [SetOption_max_completion_tokens, lookup_mapSet_ne _ _ _ _ (by decide)]
      exact lookup_mapDelete_self _ _
    · rw [lookup_SetOption_other p key _ value h1 h2 (fun e => h1 e.symm),
        lookup_SetOption_other p key _ value h1 h2 (fun e => h2 e.symm)]
      exact h

theorem singleTokenLimit_setOptions (calls : List (String × Value)) (p : OpenAIProvider)
    (h : singleTokenLimit p.options) : singleTokenLimit (setOptions p calls).options := by
  induction calls generalizing p with
  | nil => exact h
  | cons call rest ih =>
    exact ih (SetOption p call.1 call.2) (singleTokenLimit_SetOption p call.1 call.2 h)

/-! ## Lemmas on the metadata of the web-search path -/

theorem lookup_metaSet_self (m : List (String × MetaValue)) (k : String) (v : MetaValue) :
    (metaSet m k v).lookup k = some v := by
  induction m with
  | nil => simp [metaSet, List.lookup]
  | cons e m ih =>
    obtain ⟨k', v'⟩ := e
    by_cases hk : k' = k
    · simp [metaSet, hk, List.lookup]
    · have hb : (k' == k) = false := by simpa using hk
      have hb' : (k == k') = false := by simpa using fun e => hk e.symm
      simp [metaSet, hb, List.lookup, hb', ih]

theorem lookup_metaSet_ne (m : List (String × MetaValue)) (k k' : String) (v : MetaValue)
    (h : k' ≠ k) : (metaSet m k v).lookup k' = m.lookup k' := by
  have hb : (k' == k) = false := by simpa using h
  induction m with
  | nil => simp [metaSet, List.lookup, hb]
  | cons e m ih =>
    obtain ⟨k₀, v₀⟩ := e
    by_cases hk : k₀ = k
    · subst hk
      simp [metaSet, List.lookup, hb]
    · have hb₀ : (k₀ == k) = false := by simpa using hk
      simp only [metaSet, hb₀, Bool.false_eq_true, if_false, List.lookup]
      rw [ih]

theorem citationsOf_append (annotations : List Annotation) (ann : Annotation) :
    citationsOf (annotations ++ [ann])
      = citationsOf annotations ++
        (if ann.Type_ == "url_citation" then [ann.citation] else []) := by
  unfold citationsOf
  rw [List.filter_append, List.map_append]
  by_cases h : (ann.Type_ == "url_citation") = true
  · simp [List.filter_cons, h]
  · simp [List.filter_cons, h]

theorem parseAnnotations_citations (annArray : List Value) :
    ∀ acc result : WebSearchAcc, parseAnnotations annArray acc = some result →
      acc.citations = citationsOf acc.annotations →
      result.citations = citationsOf result.annotations := by
  induction annArray with
  | nil =>
    intro acc result h hinv
    simp only [parseAnnotations, Option.some.injEq] at h
    rw [← h]
    exact hinv
  | cons a rest ih =>
    intro acc result h hinv
    cases a
    case map annMap =>
      simp only [parseAnnotations] at h
      split at h
      · rename_i ann _
        apply ih _ _ h
        by_cases ht : (ann.Type_ == "url_citation") = true
        · rw [if_pos ht]
          simp only [citationsOf_append, hinv, ht, if_true]
          rfl
        · rw [if_neg ht]
          simp only [citationsOf_append, hinv, ht, if_false, List.append_nil,
            Bool.false_eq_true]
      · cases h
    all_goals
      simp only [parseAnnotations] at h
      exact ih _ _ h hinv

theorem parseContent_citations (contentArray : List Value) :
    ∀ acc result : WebSearchAcc, parseContent contentArray acc = some result →
      acc.citations = citationsOf acc.annotations →
      result.citations = citationsOf result.annotations := by
  induction contentArray with
  | nil =>
    intro acc result h hinv
    simp only [parseContent, Option.some.injEq] at h
    rw [← h]
    exact hinv
  | cons c rest ih =>
    intro acc result h hinv
    cases c
    case map contentItem =>
      simp only [parseContent] at h
      have hacc : ∀ acc₁ : WebSearchAcc,
          acc₁ = (match contentItem.lookup "text" with
            | some (.str text) => { acc with content := acc.content ++ text }
            | _ => acc) →
          acc₁.citations = citationsOf acc₁.annotations := by
        intro acc₁ e
        rw [e]
        split <;> exact hinv
      split at h
      · rename_i annArray _
        split at h
        · rename_i acc₂ h₂
          exact ih _ _ h (parseAnnotations_citations _ _ _ h₂ (hacc _ rfl))
        · cases h
      · exact ih _ _ h (hacc _ rfl)
    all_goals
      simp only [parseContent] at h
      exact ih _ _ h hinv

theorem parseOutput_citations (output : List Value) :
    ∀ acc result : WebSearchAcc, parseOutput output acc = some result →
      acc.citations = citationsOf acc.annotations →
      result.citations = citationsOf result.annotations := by
  induction output with
  | nil =>
    intro acc result h hinv
    simp only [parseOutput, Option.some.injEq] at h
    rw [← h]
    exact hinv
  | cons item rest ih =>
    intro acc result h hinv
    cases item
    case map itemMap =>
      simp only [parseOutput] at h
      split at h
      · split at h
        · exact ih _ _ h hinv
        · cases h
      · split at h
        · split at h
          · split at h
            · rename_i acc₂ h₂
              exact ih _ _ h (parseContent_citations _ _ _ h₂ hinv)
            · cases h
          · exact ih _ _ h hinv
        · exact ih _ _ h hinv
    all_goals
      simp only [parseOutput] at h
      exact ih _ _ h hinv

theorem forall₂_callOfItem (output : List OutputBody) :
    List.Forall₂ callOfItem (searchItems output) (recordedCalls output) := by
  unfold recordedCalls searchItems
  rw [List.forall₂_map_right_iff, List.forall₂_same]
  intro item hmem
  have ht : item.Type_ = "web_search_call" := by
    simpa using (List.mem_filter.mp hmem).2
  refine ⟨rfl, rfl, ht, ?_⟩
  unfold recordedCall
  cases item.Action <;> rfl

/-! ## Lemma on the keys the last step of the chat builders leaves alone -/

/-- A key of the request that the merged options do not hold, other than `tool_choice`
and the keys of the model-family steps, is in the finished request as it was. -/
theorem lookup_finish_of_absent (p : OpenAIProvider) (merged request : GoMap) (k : String)
    (v : Value) (hq : quirkKey k = false) (hk : k ≠ "tool_choice")
    (hm : (merged.map Prod.fst).Nodup) (hn : merged.lookup k = none)
    (hr : request.lookup k = some v) :
    (finishRequest p merged request).lookup k = some v := by
  rw [lookup_finishRequest p merged request _ hm, lookup_resolveQuirks_other _ _ _ hq, hn]
  split
  · rw [lookup_mapDelete_ne _ _ _ hk, hr]
    rfl
  · rw [hr]
    rfl

/-! ## Lemmas on the temperature of the models that keep it -/

/-- An identifier that begins with `o1` or with `o4` does not begin with `o3`. -/
theorem not_prefix_o3 (model : String)
    (h : stringsHasPrefix model "o1" = true ∨ stringsHasPrefix model "o4" = true) :
    stringsHasPrefix model "o3" = false := by
  have hl : ∀ l : List Char,
      (List.isPrefixOf ['o', '1'] l = true ∨ List.isPrefixOf ['o', '4'] l = true) →
      List.isPrefixOf ['o', '3'] l = false := by
    intro l hp
    rcases l with _ | ⟨a, _ | ⟨b, rest⟩⟩
    · rfl
    · simp [List.isPrefixOf]
    · simp only [List.isPrefixOf, Bool.and_true, Bool.and_eq_true, beq_iff_eq] at hp
      simp only [List.isPrefixOf, Bool.and_true, Bool.and_eq_false_iff, beq_eq_false_iff_ne,
        ne_eq]
      right
      rcases hp with ⟨-, hb⟩ | ⟨-, hb⟩
      · rw [← hb]
        decide
      · rw [← hb]
        decide
  exact hl model.toList h

theorem lookup_resolveQuirks_temperature_kept (p : OpenAIProvider) (m : GoMap)
    (h : needsNoTemperature p = false) :
    (resolveQuirks p m).lookup "temperature" = m.lookup "temperature" := by
  unfold resolveQuirks
  simp only [h, Bool.false_eq_true, if_false]
  split
  · rw [lookup_mapDelete_ne _ _ _ (by decide),
      lookup_resolveTokenLimit_other p m _ (by decide) (by decide)]
  · exact lookup_resolveTokenLimit_other p m _ (by decide) (by decide)

/-! ## Schema sanitizer: the claims -/

/-- C1: `cleanSchemaForOpenAI` is idempotent: on every value whose maps hold each key
once (as Go maps do), sanitizing the sanitized schema returns it unchanged. -/
theorem cleanSchemaForOpenAI_idempotent (S : Value) (hwf : S.wf = true) :
    cleanSchemaForOpenAI (cleanSchemaForOpenAI S) = cleanSchemaForOpenAI S :=
  cleanSchemaForOpenAI_idem S hwf

/-- Witness of C1 on `nestedSchema`. -/
theorem cleanSchemaForOpenAI_idempotent_witness :
    nestedSchema.wf = true ∧
    cleanSchemaForOpenAI (cleanSchemaForOpenAI nestedSchema) = cleanSchemaForOpenAI nestedSchema :=
  ⟨by decide, cleanSchemaForOpenAI_idempotent nestedSchema (by decide)⟩

/-- C2, as stated, fails: an element of an array-valued `items` is returned as it came,
so `{"type":"array","items":[{"type":"object"}]}` keeps an object-typed node that has
no `additionalProperties`. -/
theorem cleanSchemaForOpenAI_array_items_not_closed :
    tupleItemsSchema.wf = true ∧
    nodeAt (cleanSchemaForOpenAI tupleItemsSchema) [.itemsElem 0]
      = some (.map [("type", .str "object")]) ∧
    closedObject (.map [("type", .str "object")]) = false :=
  ⟨by decide, by rfl, by decide⟩

/-- C2, amended: every node of the sanitized schema reached from the root through
values of `properties` maps and through `items` (not through the elements of an
array-valued `items`) that is an object with `type` equal to `"object"` carries
`additionalProperties` equal to `false`. -/
theorem cleanSchemaForOpenAI_object_nodes_closed (S : Value) (path : List Step) (node : Value)
    (hwf : S.wf = true) (hp : path.all Step.single = true)
    (hn : nodeAt (cleanSchemaForOpenAI S) path = some node) :
    closedObject node = true := by
  by_cases hv : ∃ kvs', node = .map kvs'
  · obtain ⟨kvs', rfl⟩ := hv
    obtain ⟨kvs, -, -, rfl⟩ := node_of_clean hwf hp hn
    simp only [closedObject]
    rw [lookup_type_clean, lookup_clean, if_neg (by decide)]
    unfold objectMark
    cases kvs.lookup "type" with
    | none => rfl
    | some t =>
      cases t <;> try rfl
      rename_i s
      by_cases hs : (s == "object") = true
      · simp [hs]
      · simp [hs]
  · cases node <;> first | rfl | exact absurd ⟨_, rfl⟩ hv

/-- Witness of C2, amended: the schema under `items` of the property `b` of
`nestedSchema`. -/
theorem cleanSchemaForOpenAI_object_nodes_closed_witness :
    nestedSchema.wf = true ∧
    nodeAt (cleanSchemaForOpenAI nestedSchema) [.prop "b", .items]
      = some (.map [("type", .str "object"), ("additionalProperties", .bool false)]) ∧
    closedObject (.map [("type", .str "object"), ("additionalProperties", .bool false)]) = true :=
  ⟨by decide, by rfl,
    cleanSchemaForOpenAI_object_nodes_closed nestedSchema [.prop "b", .items] _
      (by decide) (by decide) (by rfl)⟩

/-- C3: every object node of the sanitized schema (the root, the values of `properties`
maps, the object under `items`, recursively) has its keys among `type`, `properties`,
`required`, `items`, `additionalProperties`, and the input has an object node at the
same path with the same `type` and the same `required`. -/
theorem cleanSchemaForOpenAI_whitelist (S : Value) (path : List Step)
    (kvs' : List (String × Value))
    (hwf : S.wf = true) (hp : path.all Step.single = true)
    (hn : nodeAt (cleanSchemaForOpenAI S) path = some (.map kvs')) :
    (∀ e ∈ kvs', e.1 ∈ schemaKeys) ∧
    ∃ kvs, nodeAt S path = some (.map kvs) ∧
      kvs'.lookup "type" = kvs.lookup "type" ∧
      kvs'.lookup "required" = kvs.lookup "required" := by
  obtain ⟨kvs, hnode, -, rfl⟩ := node_of_clean hwf hp hn
  refine ⟨?_, kvs, hnode, lookup_type_clean kvs, ?_⟩
  · intro e he
    rcases List.mem_append.mp he with he | he
    · have hm : e.1 ∈ (kvs.filterMap cleanEntry).map Prod.fst := List.mem_map_of_mem _ he
      rw [keys_filterMap_cleanEntry] at hm
      have hk := (List.mem_filter.mp hm).2
      simp only [keptKey, Bool.or_eq_true, beq_iff_eq] at hk
      simp only [schemaKeys, List.mem_cons, List.mem_singleton]
      tauto
    · unfold objectMark at he
      split at he
      · split at he
        · simp only [List.mem_singleton] at he
          subst he
          decide
        · cases he
      · cases he
  · rw [lookup_clean, if_pos (by decide)]
    cases kvs.lookup "required" with
    | none => rfl
    | some v => simp [cleanEntry_required]

/-- Witness of C3: the property `a` of `nestedSchema` loses `minProperties` and keeps
its `type`. -/
theorem cleanSchemaForOpenAI_whitelist_witness :
    (∀ e ∈ [("type", Value.str "object"), ("additionalProperties", Value.bool false)],
      e.1 ∈ schemaKeys) ∧
    ∃ kvs, nodeAt nestedSchema [.prop "a"] = some (.map kvs) ∧
      List.lookup "type" [("type", Value.str "object"), ("additionalProperties", Value.bool false)]
        = kvs.lookup "type" ∧
      List.lookup "required"
          [("type", Value.str "object"), ("additionalProperties", Value.bool false)]
        = kvs.lookup "required" :=
  cleanSchemaForOpenAI_whitelist nestedSchema [.prop "a"] _ (by decide) (by decide) (by rfl)

/-- C4: `cleanSchemaForOpenAI` is a total function without error result; it returns a
map exactly when given a map, and every input that is not a map (string, number,
boolean, null, array) is returned unchanged. -/
theorem cleanSchemaForOpenAI_total (S : Value) :
    (∃ out, cleanSchemaForOpenAI S = out) ∧
    (cleanSchemaForOpenAI S).isMap = S.isMap ∧
    (S.isMap = true ∨ cleanSchemaForOpenAI S = S) := by
  refine ⟨⟨_, rfl⟩, ?_, ?_⟩
  · cases S <;> try rfl
    unfold cleanSchemaForOpenAI
    simp only
    split
    · split <;> rfl
    · rfl
  · cases S <;> first | exact Or.inr rfl | exact Or.inl rfl

/-! ## Response parser: the claims -/

/-- On output items as the generic JSON decoder yields them (`[]interface{}` arrays,
`float64` numbers) `parseWebSearchResponse` concatenates the fragments `"A"` and `"B"`
and keeps the citation with its offsets 0 and 1. -/
theorem parseWebSearchResponse_generic_message :
    parseWebSearchResponse citedOutputGeneric emptyDetails =
      some ("AB", { emptyDetails with
        Metadata := [
          ("web_search_calls", .webSearchCalls []),
          ("annotations", .annotations [
            { Type_ := "url_citation", StartIndex := 0, EndIndex := 1,
              URL := "https://example.com", Title := "Example" }]),
          ("citations", .citations [
            { Type_ := "url_citation", StartIndex := 0, EndIndex := 1,
              URL := "https://example.com", Title := "Example" }])] }) := by
  rfl

/-- On output items as the generic JSON decoder yields them `parseWebSearchResponse`
keeps the domains and the sources of the action. -/
theorem parseWebSearchResponse_generic_call :
    parseWebSearchResponse searchOutputGeneric emptyDetails =
      some ("", { emptyDetails with
        Metadata := [
          ("web_search_calls", .webSearchCalls [
            { ID := "ws_1", Type_ := "web_search_call", Status := "completed",
              Action := some
                { Type_ := "search", Query := "go", Domains := ["go.dev"],
                  Sources := [{ URL := "https://go.dev", Title := "Go", Type_ := "web" }] } }]),
          ("annotations", .annotations []),
          ("citations", .citations [])] }) := by
  rfl

/-- C5, on the code: for the body whose `message` item has the two fragments `"A"` and
`"B"`, `ParseResponseWithUsage` succeeds with the empty text, not `"AB"`: it stores the
content as a `[]map[string]interface{}`, which `parseWebSearchResponse` does not read. -/
theorem ParseResponseWithUsage_message_text_lost
    (formatFunctionCall : String → Value → Option String) :
    (ParseResponseWithUsage formatFunctionCall (some citedBody)).toOption.map Prod.fst
      = some "" := by
  rfl

/-- C6, on the code: for the body whose fragment `"A"` carries a `url_citation` with
offsets 0 and 1, `ParseResponseWithUsage` succeeds with an empty list under `citations`
and an empty list under `annotations`. -/
theorem ParseResponseWithUsage_citations_lost
    (formatFunctionCall : String → Value → Option String) :
    (ParseResponseWithUsage formatFunctionCall (some citedBody)).toOption.map
        (fun r => (r.2.Metadata.lookup "citations", r.2.Metadata.lookup "annotations"))
      = some (some (.citations []), some (.annotations [])) := by
  rfl

/-- C7, on the code: for the body whose `web_search_call` item has an action with the
domain `go.dev` and one source, `ParseResponseWithUsage` yields a call whose action has
the type and the query of the item but no domain and no source. -/
theorem ParseResponseWithUsage_action_lists_lost
    (formatFunctionCall : String → Value → Option String) :
    (ParseResponseWithUsage formatFunctionCall (some searchBody)).toOption.map
        (fun r => r.2.Metadata.lookup "web_search_calls")
      = some (some (.webSearchCalls [
          { ID := "ws_1", Type_ := "web_search_call", Status := "completed",
            Action := some
              { Type_ := "search", Query := "go", Domains := [], Sources := [] } }])) := by
  rfl

/-! ## Request builders: the claims -/

/-- C8, as stated, fails: `o1-mini` begins with the prefix `o1`, and `PrepareRequest`
forwards the `temperature` of the options. -/
theorem PrepareRequest_o1_keeps_temperature :
    stringsHasPrefix o1Provider.model "o1" = true ∧
    PrepareRequest o1Provider "hi" [("temperature", .float 1)]
      = .ok (plainRequest "o1-mini" ++ [("temperature", .float 1)]) ∧
    "temperature" ∈ (plainRequest "o1-mini" ++ [("temperature", Value.float 1)]).map Prod.fst :=
  ⟨by decide, by rfl, by decide⟩

/-- C8, amended: for every model identifier that begins with `o3`, every prompt and
every call-level and provider-level option map, the request built by `PrepareRequest`
has no `temperature` key. For an identifier that begins with `o1` or `o4` the request has
no `temperature` key either when the identifier contains `-5`, and when it does not, a
temperature given in the call options is forwarded. -/
theorem PrepareRequest_temperature_by_model (p : OpenAIProvider) (prompt : String)
    (options req : GoMap) (h : PrepareRequest p prompt options = .ok req) :
    (stringsHasPrefix p.model "o3" = true → "temperature" ∉ req.map Prod.fst) ∧
    (stringsHasPrefix p.model "o1" = true ∨ stringsHasPrefix p.model "o4" = true →
      (stringsContains p.model "-5" = true → "temperature" ∉ req.map Prod.fst) ∧
      (stringsContains p.model "-5" = false → keysUnique (options.map Prod.fst) = true →
        ∀ v, options.lookup "temperature" = some v → req.lookup "temperature" = some v)) := by
  refine ⟨?_, fun hp => ⟨?_, ?_⟩⟩
  · intro hm
    apply not_mem_keys_of_lookup_eq_none
    rw [PrepareRequest_lookup h (by decide)]
    apply lookup_resolveQuirks_temperature
    simp [needsNoTemperature, modelNeedsNoTemperature, hm]
  · intro hc
    apply not_mem_keys_of_lookup_eq_none
    rw [PrepareRequest_lookup h (by decide)]
    apply lookup_resolveQuirks_temperature
    simp [needsNoTemperature, modelNeedsNoTemperature, hc]
  · intro hc hu v hv
    have hn : needsNoTemperature p = false := by
      simp [needsNoTemperature, modelNeedsNoTemperature, hc, not_prefix_o3 p.model hp]
    rw [PrepareRequest_lookup h (by decide), lookup_resolveQuirks_temperature_kept p _ hn]
    exact lookup_merge_of_call _ _ _ _ _ v (by decide) hu hv

/-- Witness of C8, amended: `o3-mini` and `o1-5` drop the temperature, `o1-mini` forwards
the temperature of the call options. -/
theorem PrepareRequest_temperature_by_model_witness :
    (stringsHasPrefix o3Provider.model "o3" = true ∧
      PrepareRequest o3Provider "hi" [("temperature", .float 2)]
        = .ok (plainRequest "o3-mini") ∧
      "temperature" ∉ (plainRequest "o3-mini").map Prod.fst) ∧
    (PrepareRequest { o1Provider with model := "o1-5" } "hi" [("temperature", .float 2)]
        = .ok (plainRequest "o1-5") ∧
      "temperature" ∉ (plainRequest "o1-5").map Prod.fst) ∧
    (PrepareRequest o1Provider "hi" [("temperature", .float 2)]
        = .ok (plainRequest "o1-mini" ++ [("temperature", .float 2)]) ∧
      List.lookup "temperature" (plainRequest "o1-mini" ++ [("temperature", Value.float 2)])
        = some (.float 2)) :=
  ⟨⟨by decide, by rfl,
    (PrepareRequest_temperature_by_model o3Provider "hi" [("temperature", .float 2)] _
      (by rfl)).1 (by decide)⟩,
   ⟨by rfl,
    ((PrepareRequest_temperature_by_model { o1Provider with model := "o1-5" } "hi"
      [("temperature", .float 2)] _ (by rfl)).2 (Or.inl (by decide))).1 (by decide)⟩,
   ⟨by rfl,
    ((PrepareRequest_temperature_by_model o1Provider "hi" [("temperature", .float 2)] _
      (by rfl)).2 (Or.inl (by decide))).2 (by decide) (by decide) _ (by rfl)⟩⟩

/-- C9: for every model for which `modelNeedsNoTemperature` holds, whatever the prompt,
messages, schema, call-level and provider-level options, a request built by
`PrepareRequest`, `PrepareRequestWithSchema`, `PrepareStreamRequest` or
`PrepareRequestWithMessages` has no top-level `temperature` key. -/
theorem builders_no_temperature (p : OpenAIProvider) (prompt : String)
    (messages : List MemoryMessage) (schema : SchemaArg) (options : GoMap)
    (hm : modelNeedsNoTemperature p.model = true) :
    (∀ req, PrepareRequest p prompt options = .ok req → "temperature" ∉ req.map Prod.fst) ∧
    (∀ req, PrepareRequestWithSchema p prompt options schema = .ok req →
      "temperature" ∉ req.map Prod.fst) ∧
    (∀ req, PrepareStreamRequest p prompt options = .ok req →
      "temperature" ∉ req.map Prod.fst) ∧
    (∀ req, PrepareRequestWithMessages p messages options = .ok req →
      "temperature" ∉ req.map Prod.fst) := by
  have hq : ∀ m, (resolveQuirks p m).lookup "temperature" = none :=
    fun m => lookup_resolveQuirks_temperature p m hm
  refine ⟨?_, ?_, ?_, ?_⟩
  · intro req h
    apply not_mem_keys_of_lookup_eq_none
    rw [PrepareRequest_lookup h (by decide)]
    exact hq _
  · intro req h
    apply not_mem_keys_of_lookup_eq_none
    rw [PrepareRequestWithSchema_lookup h (by decide)]
    exact hq _
  · intro req h
    apply not_mem_keys_of_lookup_eq_none
    rw [PrepareStreamRequest_lookup h (by decide)]
    exact hq _
  · intro req h
    apply not_mem_keys_of_lookup_eq_none
    rw [PrepareRequestWithMessages_lookup h (by decide)]
    exact hq _

/-- Witness of C9: `gpt-5` with a temperature in both option maps. -/
theorem builders_no_temperature_witness :
    modelNeedsNoTemperature gpt5Provider.model = true ∧
    PrepareRequest gpt5Provider "hi" [("temperature", .float 2)] = .ok (plainRequest "gpt-5") ∧
    "temperature" ∉ (plainRequest "gpt-5").map Prod.fst ∧
    PrepareStreamRequest gpt5Provider "hi" [("temperature", .float 2)]
      = .ok [("model", .str "gpt-5"),
             ("messages", .strMapSlice [[("role", "user"), ("content", "hi")]]),
             ("stream", .bool true)] :=
  ⟨by decide, by rfl,
    (builders_no_temperature gpt5Provider "hi" [] (.object []) [("temperature", .float 2)]
      (by decide)).1 _ (by rfl),
    by rfl⟩

/-- C10: for every model for which `needsMaxCompletionTokens` holds and every option map
that holds `max_tokens` with the value `v`, the request built by `PrepareRequest` has
`max_completion_tokens` equal to `v` and no `max_tokens` key, also when the options hold
a `max_completion_tokens` of their own and whatever the provider-level options hold. -/
theorem PrepareRequest_max_tokens_renamed (p : OpenAIProvider) (prompt : String)
    (options req : GoMap) (v : Value)
    (hm : needsMaxCompletionTokens p = true)
    (hu : keysUnique (options.map Prod.fst) = true)
    (hv : options.lookup "max_tokens" = some v)
    (h : PrepareRequest p prompt options = .ok req) :
    req.lookup "max_completion_tokens" = some v ∧ "max_tokens" ∉ req.map Prod.fst := by
  have hmerged : (mergeOptions ["tools", "tool_choice", "strict_tools", "system_prompt"] options
      (mergeOptions ["tools", "tool_choice", "system_prompt"] p.options [])).lookup "max_tokens"
        = some v := by
    rw [lookup_mergeOptions _ _ _ (by decide) _ ((keysUnique_iff _).mp hu), hv]
    rfl
  obtain ⟨h1, h2⟩ := lookup_resolveQuirks_max p _ v hm hmerged
  constructor
  · rw [PrepareRequest_lookup h (by decide)]
    exact h1
  · apply not_mem_keys_of_lookup_eq_none
    rw [PrepareRequest_lookup h (by decide)]
    exact h2

/-- Witness of C10: `gpt-4o`, the provider default `max_tokens` 7, and call options
that hold both `max_completion_tokens` 5 and `max_tokens` 100. -/
theorem PrepareRequest_max_tokens_renamed_witness :
    needsMaxCompletionTokens gpt4oProvider = true ∧
    PrepareRequest gpt4oProvider "hi"
        [("max_completion_tokens", .int 5), ("max_tokens", .int 100)]
      = .ok (plainRequest "gpt-4o" ++ [("max_completion_tokens", .int 100)]) ∧
    List.lookup "max_completion_tokens"
        (plainRequest "gpt-4o" ++ [("max_completion_tokens", Value.int 100)])
      = some (.int 100) ∧
    "max_tokens" ∉
      (plainRequest "gpt-4o" ++ [("max_completion_tokens", Value.int 100)]).map Prod.fst :=
  ⟨by decide, by rfl,
    PrepareRequest_max_tokens_renamed gpt4oProvider "hi"
      [("max_completion_tokens", .int 5), ("max_tokens", .int 100)] _ (.int 100)
      (by decide) (by decide) (by rfl) (by rfl)⟩

/-! ## Request builders: token limit, tools and excluded keys -/

/-- C11: a request built by any of the four builders holds no `max_tokens` key when the
model needs `max_completion_tokens`, and no `max_completion_tokens` key otherwise; so it
never holds both, whatever the call-level and provider-level options. -/
theorem builders_single_token_limit (p : OpenAIProvider) (prompt : String)
    (messages : List MemoryMessage) (schema : SchemaArg) (options req : GoMap)
    (h : PrepareRequest p prompt options = .ok req ∨
      PrepareRequestWithSchema p prompt options schema = .ok req ∨
      PrepareStreamRequest p prompt options = .ok req ∨
      PrepareRequestWithMessages p messages options = .ok req) :
    (needsMaxCompletionTokens p = true → "max_tokens" ∉ req.map Prod.fst) ∧
    (needsMaxCompletionTokens p = false → "max_completion_tokens" ∉ req.map Prod.fst) ∧
    ¬ ("max_tokens" ∈ req.map Prod.fst ∧ "max_completion_tokens" ∈ req.map Prod.fst) := by
  have hq : ∀ k, optionKey k = true → ∃ m, req.lookup k = (resolveQuirks p m).lookup k := by
    intro k hk
    rcases h with h | h | h | h
    · exact ⟨_, PrepareRequest_lookup h hk⟩
    · exact ⟨_, PrepareRequestWithSchema_lookup h hk⟩
    · exact ⟨_, PrepareStreamRequest_lookup h hk⟩
    · exact ⟨_, PrepareRequestWithMessages_lookup h hk⟩
  have h1 : needsMaxCompletionTokens p = true → "max_tokens" ∉ req.map Prod.fst := by
    intro hm
    obtain ⟨m, e⟩ := hq "max_tokens" (by decide)
    apply not_mem_keys_of_lookup_eq_none
    rw [e]
    exact lookup_resolveQuirks_max_tokens p m hm
  have h2 : needsMaxCompletionTokens p = false → "max_completion_tokens" ∉ req.map Prod.fst := by
    intro hm
    obtain ⟨m, e⟩ := hq "max_completion_tokens" (by decide)
    apply not_mem_keys_of_lookup_eq_none
    rw [e]
    exact lookup_resolveQuirks_max_completion_tokens p m hm
  refine ⟨h1, h2, ?_⟩
  rintro ⟨ha, hb⟩
  cases hm : needsMaxCompletionTokens p with
  | true => exact h1 hm ha
  | false => exact h2 hm hb

/-- Witness of C11: `gpt-4o` with `max_tokens` at both levels and `max_completion_tokens`
in the call options. -/
theorem builders_single_token_limit_witness :
    PrepareRequest gpt4oProvider "hi"
        [("max_completion_tokens", .int 5), ("max_tokens", .int 100)]
      = .ok (plainRequest "gpt-4o" ++ [("max_completion_tokens", .int 100)]) ∧
    needsMaxCompletionTokens gpt4oProvider = true ∧
    "max_tokens" ∉
      (plainRequest "gpt-4o" ++ [("max_completion_tokens", Value.int 100)]).map Prod.fst :=
  ⟨by rfl, by decide,
    (builders_single_token_limit gpt4oProvider "hi" [] (.object [])
      [("max_completion_tokens", .int 5), ("max_tokens", .int 100)] _ (Or.inl (by rfl))).1
      (by decide)⟩

/-- C12: when every tool of the tool list has the type `web_search`, `PrepareRequest` and
`PrepareRequestWithMessages` return a request, and it holds no `tools` key and no
`tool_choice` key, whatever the model and the other options. -/
theorem web_search_only_no_tools (p : OpenAIProvider) (prompt : String)
    (messages : List MemoryMessage) (options : GoMap) (tools : List (Tool Value))
    (ht : options.lookup "tools" = some (.tools tools))
    (hw : ∀ tool ∈ tools, tool.Type_ = "web_search") :
    (∃ req, PrepareRequest p prompt options = .ok req ∧
      "tools" ∉ req.map Prod.fst ∧ "tool_choice" ∉ req.map Prod.fst) ∧
    (∃ req, PrepareRequestWithMessages p messages options = .ok req ∧
      "tools" ∉ req.map Prod.fst ∧ "tool_choice" ∉ req.map Prod.fst) := by
  have hf : (functionTools (toolList options)).isEmpty = true := by
    rw [toolList_of_lookup ht, List.isEmpty_iff]
    unfold functionTools
    rw [List.filter_eq_nil_iff]
    intro t htm
    simp [hw t htm]
  have hh : ∀ request, handleTools p options request = some request := by
    intro request
    rw [handleTools_eq, hf]
    rfl
  constructor
  · refine ⟨_, by rw [PrepareRequest_eq, hh], ?_, ?_⟩
    · apply not_mem_keys_of_lookup_eq_none
      rw [lookup_finishRequest_tools p _ _ (keys_mergedRequestOptions_nodup p options)
        (lookup_mergedRequestOptions_excluded p options _ (by decide))]
      exact lookup_baseRequest _ _ _ (by decide) (by decide)
    · apply not_mem_keys_of_lookup_eq_none
      rw [lookup_finishRequest_tool_choice p _ _ (keys_mergedRequestOptions_nodup p options)
        (lookup_mergedRequestOptions_excluded p options _ (by decide)),
        lookup_baseRequest _ _ _ (by decide) (by decide)]
      simp
  · refine ⟨_, by rw [PrepareRequestWithMessages_eq, hh], ?_, ?_⟩
    · apply not_mem_keys_of_lookup_eq_none
      rw [lookup_finishRequest_tools p _ _ (keys_mergedMessagesOptions_nodup p options)
        (lookup_mergedMessagesOptions_excluded p options _ (by decide))]
      exact lookup_baseRequest _ _ _ (by decide) (by decide)
    · apply not_mem_keys_of_lookup_eq_none
      rw [lookup_finishRequest_tool_choice p _ _ (keys_mergedMessagesOptions_nodup p options)
        (lookup_mergedMessagesOptions_excluded p options _ (by decide)),
        lookup_baseRequest _ _ _ (by decide) (by decide)]
      simp

/-- Witness of C12: one `web_search` tool and a `tool_choice`, for `gpt-4`. -/
theorem web_search_only_no_tools_witness :
    PrepareRequest gpt4Provider "hi" [("tools", .tools [searchTool]), ("tool_choice", .str "auto")]
      = .ok (plainRequest "gpt-4") ∧
    (∃ req, PrepareRequest gpt4Provider "hi"
        [("tools", .tools [searchTool]), ("tool_choice", .str "auto")] = .ok req ∧
      "tools" ∉ req.map Prod.fst ∧ "tool_choice" ∉ req.map Prod.fst) :=
  ⟨by rfl,
    (web_search_only_no_tools gpt4Provider "hi" []
      [("tools", .tools [searchTool]), ("tool_choice", .str "auto")] [searchTool] (by rfl)
      (by intro tool ht; simp only [List.mem_singleton] at ht; subst ht; rfl)).1⟩

/-- C13: with a tool list and a boolean `strict_tools`, `PrepareRequest` returns a
request whose `tools` array is the input tools whose type is not `web_search`, in input
order, each as `{type: "function", function: {name, description, parameters}}` with the
tool's own name, description and parameters, followed by `strict: true` exactly when
`strict_tools` is true; when no tool passes the filter there is no `tools` entry. -/
theorem PrepareRequest_tools_array (p : OpenAIProvider) (prompt : String) (options : GoMap)
    (tools : List (Tool Value)) (b : Bool)
    (ht : options.lookup "tools" = some (.tools tools))
    (hs : options.lookup "strict_tools" = some (.bool b)) :
    ∃ req, PrepareRequest p prompt options = .ok req ∧
      req.lookup "tools" =
        if (tools.filter (fun tool => tool.Type_ != "web_search")).isEmpty then none
        else
          some (.mapSlice ((tools.filter (fun tool => tool.Type_ != "web_search")).map
            (fun tool =>
              [("type", .str "function"),
               ("function", .map [("name", .str tool.Name),
                 ("description", .str tool.Description),
                 ("parameters", .map tool.Parameters)])]
              ++ (if b then [("strict", .bool true)] else [])))) := by
  have hft : ∀ tool : Tool Value, functionTool tool b =
      [("type", .str "function"),
       ("function", .map [("name", .str tool.Name), ("description", .str tool.Description),
         ("parameters", .map tool.Parameters)])]
      ++ (if b then [("strict", .bool true)] else []) := by
    intro tool
    cases b <;> rfl
  have hfilter : tools.filter (fun tool => tool.Type_ != "web_search") = functionTools tools := rfl
  have hsome : ∃ request, handleTools p options
      (baseRequest p.model (systemMessages "developer" options ++ [userMessage prompt]))
        = some request := by
    rw [handleTools_eq, strictTools_of_lookup hs]
    split
    · exact ⟨_, rfl⟩
    · exact ⟨_, rfl⟩
  obtain ⟨request, hreq⟩ := hsome
  refine ⟨finishRequest p (mergedRequestOptions p options) request, ?_, ?_⟩
  · rw [PrepareRequest_eq, hreq]
  · rw [lookup_finishRequest_tools p _ _ (keys_mergedRequestOptions_nodup p options)
      (lookup_mergedRequestOptions_excluded p options _ (by decide)),
      lookup_handleTools_tools hreq, toolList_of_lookup ht, strictTools_of_lookup hs, hfilter]
    simp only [hft]

/-- Witness of C13: a `web_search` tool and a function tool, strict mode on. -/
theorem PrepareRequest_tools_array_witness :
    PrepareRequest gpt4Provider "hi"
        [("tools", .tools [searchTool, weatherTool]), ("strict_tools", .bool true)]
      = .ok (plainRequest "gpt-4"
          ++ [("tools", .mapSlice [weatherEntry ++ [("strict", .bool true)]])]) ∧
    (∃ req, PrepareRequest gpt4Provider "hi"
        [("tools", .tools [searchTool, weatherTool]), ("strict_tools", .bool true)] = .ok req ∧
      req.lookup "tools" = some (.mapSlice [weatherEntry ++ [("strict", .bool true)]])) :=
  ⟨by rfl,
    PrepareRequest_tools_array gpt4Provider "hi"
      [("tools", .tools [searchTool, weatherTool]), ("strict_tools", .bool true)]
      [searchTool, weatherTool] true (by rfl) (by rfl)⟩

/-- Both chat builders panic exactly when a tool passes the `web_search` filter and the
options hold no boolean `strict_tools`. -/
theorem chat_builders_panic_iff (p : OpenAIProvider) (prompt : String)
    (messages : List MemoryMessage) (options : GoMap) :
    (PrepareRequest p prompt options = .error .panic ↔
      ((functionTools (toolList options)).isEmpty = false ∧ strictTools options = none)) ∧
    (PrepareRequestWithMessages p messages options = .error .panic ↔
      ((functionTools (toolList options)).isEmpty = false ∧ strictTools options = none)) := by
  constructor
  · rw [PrepareRequest_eq, handleTools_eq]
    cases he : (functionTools (toolList options)).isEmpty <;>
      cases hs : strictTools options <;> simp
  · rw [PrepareRequestWithMessages_eq, handleTools_eq]
    cases he : (functionTools (toolList options)).isEmpty <;>
      cases hs : strictTools options <;> simp

/-- C14, on the code: with one function tool and no `strict_tools` entry in the options,
`PrepareRequest` and `PrepareRequestWithMessages` panic on the assertion
`options["strict_tools"].(bool)` and return no request. -/
theorem chat_builders_panic_without_strict_tools :
    PrepareRequest gpt4Provider "hi" [("tools", .tools [weatherTool])] = .error .panic ∧
    PrepareRequestWithMessages gpt4Provider [helloMessage] [("tools", .tools [weatherTool])]
      = .error .panic :=
  ⟨by rfl, by rfl⟩

/-- C15: a request built by `PrepareRequest` or `PrepareRequestWithMessages` holds a
`tool_choice` key only if a tool of the options has a type other than `web_search` and
`modelNeedsNoToolChoice` is false for the model; and when both hold and the `tool_choice`
of the options is the string `s`, the request holds `tool_choice` equal to `s`. -/
theorem tool_choice_condition (p : OpenAIProvider) (prompt : String)
    (messages : List MemoryMessage) (options req : GoMap)
    (h : PrepareRequest p prompt options = .ok req ∨
      PrepareRequestWithMessages p messages options = .ok req) :
    ("tool_choice" ∈ req.map Prod.fst →
      (∃ tools tool, options.lookup "tools" = some (.tools tools) ∧ tool ∈ tools ∧
        tool.Type_ ≠ "web_search") ∧
      modelNeedsNoToolChoice p.model = false) ∧
    (∀ tools tool s, options.lookup "tools" = some (.tools tools) → tool ∈ tools →
      tool.Type_ ≠ "web_search" → modelNeedsNoToolChoice p.model = false →
      options.lookup "tool_choice" = some (.str s) →
      req.lookup "tool_choice" = some (.str s)) := by
  have hq : req.lookup "tool_choice" =
      if (functionTools (toolList options)).isEmpty || needsNoToolChoice p then none
      else toolChoiceEntry options := by
    rcases h with h | h
    · exact PrepareRequest_tool_choice h
    · exact PrepareRequestWithMessages_tool_choice h
  constructor
  · intro hmem
    have hne : req.lookup "tool_choice" ≠ none :=
      fun hn => not_mem_keys_of_lookup_eq_none req _ hn hmem
    rw [hq] at hne
    by_cases hc : ((functionTools (toolList options)).isEmpty || needsNoToolChoice p) = true
    · rw [if_pos hc] at hne
      exact absurd rfl hne
    · simp only [Bool.or_eq_true, not_or, Bool.not_eq_true] at hc
      obtain ⟨he, hn⟩ := hc
      refine ⟨?_, hn⟩
      cases hl : options.lookup "tools" with
      | none => simp [toolList, hl, functionTools] at he
      | some v =>
        cases v with
        | tools ts =>
          rw [toolList_of_lookup hl] at he
          cases hf : functionTools ts with
          | nil => simp [hf] at he
          | cons t rest =>
            have hm : t ∈ functionTools ts := by rw [hf]; exact List.mem_cons_self _ _
            unfold functionTools at hm
            rw [List.mem_filter] at hm
            exact ⟨ts, t, rfl, hm.1, by simpa using hm.2⟩
        | _ => simp [toolList, hl, functionTools] at he
  · intro tools tool s ht hm hw hn hs
    have he : (functionTools (toolList options)).isEmpty = false := by
      rw [toolList_of_lookup ht]
      have : tool ∈ functionTools tools := by
        unfold functionTools
        rw [List.mem_filter]
        exact ⟨hm, by simpa using hw⟩
      cases hf : functionTools tools with
      | nil => rw [hf] at this; cases this
      | cons a l => rfl
    have hn' : needsNoToolChoice p = false := hn
    rw [hq, he, hn']
    simp [toolChoiceEntry, hs]

/-- Witness of C15: a function tool, strict mode off, `tool_choice` "auto", for `gpt-4`. -/
theorem tool_choice_condition_witness :
    PrepareRequest gpt4Provider "hi"
        [("tools", .tools [searchTool, weatherTool]), ("strict_tools", .bool false),
         ("tool_choice", .str "auto")]
      = .ok (plainRequest "gpt-4"
          ++ [("tools", .mapSlice [weatherEntry]), ("tool_choice", .str "auto")]) ∧
    List.lookup "tool_choice" (plainRequest "gpt-4"
          ++ [("tools", .mapSlice [weatherEntry]), ("tool_choice", Value.str "auto")])
      = some (.str "auto") :=
  ⟨by rfl,
    (tool_choice_condition gpt4Provider "hi" []
      [("tools", .tools [searchTool, weatherTool]), ("strict_tools", .bool false),
       ("tool_choice", .str "auto")] _ (Or.inl (by rfl))).2
      [searchTool, weatherTool] weatherTool "auto" (by rfl) (by simp) (by decide) (by decide)
      (by rfl)⟩

/-! ## Request builders: keys that are suppressed, excluded or passed through -/

/-- For a model that rejects `tool_choice`, a request built by `PrepareRequest` or
`PrepareRequestWithMessages` holds no `tool_choice` key. -/
theorem chat_builders_no_tool_choice (p : OpenAIProvider) (prompt : String)
    (messages : List MemoryMessage) (options req : GoMap)
    (hm : modelNeedsNoToolChoice p.model = true)
    (h : PrepareRequest p prompt options = .ok req ∨
      PrepareRequestWithMessages p messages options = .ok req) :
    "tool_choice" ∉ req.map Prod.fst := by
  have hn : needsNoToolChoice p = true := hm
  apply not_mem_keys_of_lookup_eq_none
  rcases h with h | h
  · rw [PrepareRequest_tool_choice h, hn]
    simp
  · rw [PrepareRequestWithMessages_tool_choice h, hn]
    simp

/-- C16, on the code: `o1-mini` rejects `tool_choice`, and `PrepareRequestWithSchema` and
`PrepareStreamRequest` copy the `tool_choice` of the options into the request. -/
theorem schema_and_stream_builders_keep_tool_choice :
    modelNeedsNoToolChoice o1Provider.model = true ∧
    PrepareRequestWithSchema o1Provider "hi" [("tool_choice", .str "auto")] (.object [])
      = .ok [("model", .str "o1-mini"),
             ("messages", .mapSlice [[("role", .str "user"), ("content", .str "hi")]]),
             ("response_format", .map [
                ("type", .str "json_schema"),
                ("json_schema", .map [
                  ("name", .str "structured_response"),
                  ("schema", .map []),
                  ("strict", .bool true)])]),
             ("tool_choice", .str "auto")] ∧
    PrepareStreamRequest o1Provider "hi" [("tool_choice", .str "auto")]
      = .ok [("model", .str "o1-mini"),
             ("messages", .strMapSlice [[("role", "user"), ("content", "hi")]]),
             ("stream", .bool true),
             ("tool_choice", .str "auto")] :=
  ⟨by decide, by rfl, by rfl⟩

/-- C17, on the code: `PrepareStreamRequest` copies the `system_prompt`, the `tools` and
the `tool_choice` of the options into the request as top-level entries, and builds no
message from the system prompt. -/
theorem PrepareStreamRequest_copies_excluded_keys :
    PrepareStreamRequest gpt4Provider "hi"
        [("system_prompt", .str "be brief"), ("tools", .tools [searchTool]),
         ("tool_choice", .str "auto")]
      = .ok [("model", .str "gpt-4"),
             ("messages", .strMapSlice [[("role", "user"), ("content", "hi")]]),
             ("stream", .bool true),
             ("system_prompt", .str "be brief"),
             ("tools", .tools [searchTool]),
             ("tool_choice", .str "auto")] := by
  rfl

/-- C18, on the code: `PrepareRequest` copies a `structured_messages` entry of the options
into the request as a top-level entry, while `PrepareRequestWithMessages`, given the same
options, does not. -/
theorem PrepareRequest_keeps_structured_messages :
    PrepareRequest gpt4Provider "hi" [("structured_messages", .bool true)]
      = .ok (plainRequest "gpt-4" ++ [("structured_messages", .bool true)]) ∧
    "structured_messages" ∈
      (plainRequest "gpt-4" ++ [("structured_messages", Value.bool true)]).map Prod.fst ∧
    PrepareRequestWithMessages gpt4Provider [helloMessage] [("structured_messages", .bool true)]
      = .ok (baseRequest "gpt-4" [[("role", .str "user"), ("content", .str "hello")]]) :=
  ⟨by rfl, by decide, by rfl⟩

/-- The excluded keys that the chat builders do keep out: whatever the call-level and
provider-level options, a request built by `PrepareRequest` or by
`PrepareRequestWithMessages` holds no `system_prompt` key, and a request built by
`PrepareRequestWithMessages` holds no `structured_messages` key. -/
theorem chat_builders_excluded_keys (p : OpenAIProvider) (prompt : String)
    (messages : List MemoryMessage) (options : GoMap) :
    (∀ req, PrepareRequest p prompt options = .ok req → "system_prompt" ∉ req.map Prod.fst) ∧
    (∀ req, PrepareRequestWithMessages p messages options = .ok req →
      "system_prompt" ∉ req.map Prod.fst ∧ "structured_messages" ∉ req.map Prod.fst) := by
  constructor
  · intro req h
    apply not_mem_keys_of_lookup_eq_none
    rw [PrepareRequest_lookup h (by decide), lookup_resolveQuirks_other _ _ _ (by decide)]
    exact lookup_mergedRequestOptions_excluded p options _ (by decide)
  · intro req h
    constructor
    · apply not_mem_keys_of_lookup_eq_none
      rw [PrepareRequestWithMessages_lookup h (by decide),
        lookup_resolveQuirks_other _ _ _ (by decide)]
      exact lookup_mergedMessagesOptions_excluded p options _ (by decide)
    · apply not_mem_keys_of_lookup_eq_none
      rw [PrepareRequestWithMessages_lookup h (by decide),
        lookup_resolveQuirks_other _ _ _ (by decide)]
      exact lookup_mergedMessagesOptions_excluded p options _ (by decide)

/-- An instance of the excluded keys kept out: a system prompt handed to `PrepareRequest`
becomes the leading developer message and no top-level entry. -/
theorem chat_builders_excluded_keys_witness :
    PrepareRequest gpt4Provider "hi" [("system_prompt", .str "be brief")]
      = .ok (baseRequest "gpt-4"
          [[("role", .str "developer"), ("content", .str "be brief")], userMessage "hi"]) ∧
    "system_prompt" ∉
      (baseRequest "gpt-4"
        [[("role", Value.str "developer"), ("content", Value.str "be brief")],
         userMessage "hi"]).map Prod.fst :=
  ⟨by rfl,
    (chat_builders_excluded_keys gpt4Provider "hi" [] [("system_prompt", .str "be brief")]).1
      _ (by rfl)⟩

/-- C19: in `PrepareRequest`, for every key other than `tools`, `tool_choice`,
`strict_tools`, `system_prompt`, `max_tokens`, `max_completion_tokens`, `temperature` and
`reasoning_effort`: a value of the call options is the value of the request, whatever the
provider-level options hold; and when the call options lack the key, a value of the
provider-level options is the value of the request. -/
theorem PrepareRequest_option_passthrough (p : OpenAIProvider) (prompt : String)
    (options req : GoMap) (k : String) (v : Value)
    (hk : k ∉ ["tools", "tool_choice", "strict_tools", "system_prompt", "max_tokens",
      "max_completion_tokens", "temperature", "reasoning_effort"])
    (h : PrepareRequest p prompt options = .ok req) :
    (keysUnique (options.map Prod.fst) = true → options.lookup k = some v →
      req.lookup k = some v) ∧
    (keysUnique (p.options.map Prod.fst) = true → options.lookup k = none →
      p.options.lookup k = some v → req.lookup k = some v) := by
  simp only [List.mem_cons, List.mem_singleton, List.not_mem_nil, or_false, not_or] at hk
  obtain ⟨k1, k2, k3, k4, k5, k6, k7, k8⟩ := hk
  have hq : quirkKey k = false := by
    simp [quirkKey, k5, k6, k7, k8]
  have hex1 : ["tools", "tool_choice", "strict_tools", "system_prompt"].contains k = false := by
    simp only [List.contains_cons, List.contains_nil, Bool.or_false, Bool.or_eq_false_iff,
      beq_eq_false_iff_ne, ne_eq]
    exact ⟨k1, k2, k3, k4⟩
  have hex2 : ["tools", "tool_choice", "system_prompt"].contains k = false := by
    simp only [List.contains_cons, List.contains_nil, Bool.or_false, Bool.or_eq_false_iff,
      beq_eq_false_iff_ne, ne_eq]
    exact ⟨k1, k2, k4⟩
  rw [PrepareRequest_eq] at h
  split at h
  · cases h
  · rename_i r3 h3
    simp only [Except.ok.injEq] at h
    have hreq : ∀ w, (mergedRequestOptions p options).lookup k = some w →
        req.lookup k = some w := by
      intro w hw
      rw [← h, lookup_finishRequest p _ _ _ (keys_mergedRequestOptions_nodup p options),
        lookup_resolveQuirks_other _ _ _ hq, hw]
      rfl
    constructor
    · intro hu hv
      apply hreq
      unfold mergedRequestOptions
      rw [lookup_mergeOptions _ _ _ hex1 _ ((keysUnique_iff _).mp hu), hv]
      rfl
    · intro hu hnone hv
      apply hreq
      unfold mergedRequestOptions
      rw [lookup_mergeOptions_of_not_mem _ _ _ _ (not_mem_keys_of_lookup_eq_none _ _ hnone),
        lookup_mergeOptions _ _ _ hex2 _ ((keysUnique_iff _).mp hu), hv]
      rfl

/-- Witness of C19: the provider holds `top_p` and `seed`, the call options hold `top_p`. -/
theorem PrepareRequest_option_passthrough_witness :
    PrepareRequest
        { apiKey := "", model := "gpt-4", extraHeaders := [],
          options := [("top_p", .float 1), ("seed", .int 7)] }
        "hi" [("top_p", .float 2)]
      = .ok (plainRequest "gpt-4" ++ [("top_p", .float 2), ("seed", .int 7)]) ∧
    List.lookup "top_p" (plainRequest "gpt-4" ++ [("top_p", Value.float 2), ("seed", .int 7)])
      = some (.float 2) :=
  ⟨by rfl,
    (PrepareRequest_option_passthrough
      { apiKey := "", model := "gpt-4", extraHeaders := [],
        options := [("top_p", .float 1), ("seed", .int 7)] }
      "hi" [("top_p", .float 2)] _ "top_p" (.float 2) (by decide) (by rfl)).1
      (by decide) (by rfl)⟩

/-- C20, as stated, fails: the call options hold no `messages` key, but the provider-level
options do, and their value replaces the message array of the request. -/
theorem PrepareRequestWithMessages_messages_replaced :
    List.lookup "messages" ([] : GoMap) = none ∧
    PrepareRequestWithMessages messagesProvider [helloMessage] []
      = .ok [("model", .str "gpt-4"), ("messages", .str "x")] :=
  ⟨by rfl, by rfl⟩

/-- C20, amended: when neither the call options nor the provider-level options hold a
`messages` key, the `messages` array of a request built by `PrepareRequestWithMessages`
is the wire messages of the `N` inputs, in input order, after one leading system
message when `system_prompt` is a non-empty string and after nothing otherwise: `N + 1`
entries in the first case, `N` in the second. -/
theorem PrepareRequestWithMessages_messages (p : OpenAIProvider)
    (messages : List MemoryMessage) (options req : GoMap)
    (ho : options.lookup "messages" = none) (hp : p.options.lookup "messages" = none)
    (h : PrepareRequestWithMessages p messages options = .ok req) :
    req.lookup "messages"
      = some (.mapSlice (systemMessages "system" options ++ messages.map wireMessage)) ∧
    (∀ s, options.lookup "system_prompt" = some (.str s) → s ≠ "" →
      systemMessages "system" options = [[("role", .str "system"), ("content", .str s)]] ∧
      (systemMessages "system" options ++ messages.map wireMessage).length
        = messages.length + 1) ∧
    ((∀ s, options.lookup "system_prompt" = some (.str s) → s = "") →
      systemMessages "system" options = [] ∧
      (systemMessages "system" options ++ messages.map wireMessage).length
        = messages.length) := by
  refine ⟨?_, ?_, ?_⟩
  · rw [PrepareRequestWithMessages_eq] at h
    split at h
    · cases h
    · rename_i r3 h3
      simp only [Except.ok.injEq] at h
      have hmerged : (mergedMessagesOptions p options).lookup "messages" = none := by
        unfold mergedMessagesOptions
        rw [lookup_mergeOptions_of_not_mem _ _ _ _ (not_mem_keys_of_lookup_eq_none _ _ ho),
          lookup_mergeOptions_of_not_mem _ _ _ _ (not_mem_keys_of_lookup_eq_none _ _ hp)]
        rfl
      have hr3 : r3.lookup "messages"
          = some (.mapSlice (systemMessages "system" options ++ messages.map wireMessage)) := by
        rw [lookup_handleTools h3 (by decide) (by decide)]
        rfl
      rw [← h, lookup_finishRequest p _ _ _ (keys_mergedMessagesOptions_nodup p options),
        lookup_resolveQuirks_other _ _ _ (by decide), hmerged]
      split
      · rw [lookup_mapDelete_ne _ _ _ (by decide), hr3]
        rfl
      · rw [hr3]
        rfl
  · intro s hs hne
    have hsys : systemMessages "system" options
        = [[("role", .str "system"), ("content", .str s)]] := by
      simp [systemMessages, hs, hne]
    refine ⟨hsys, ?_⟩
    rw [hsys]
    simp
  · intro hall
    have hsys : systemMessages "system" options = [] := by
      unfold systemMessages
      cases hl : options.lookup "system_prompt" with
      | none => rfl
      | some v =>
        cases v <;> try rfl
        rename_i s
        simp [hall s hl]
    refine ⟨hsys, ?_⟩
    rw [hsys]
    simp

/-- Witness of C20, amended: one message after a system prompt, for `gpt-4`. -/
theorem PrepareRequestWithMessages_messages_witness :
    PrepareRequestWithMessages gpt4Provider [helloMessage] [("system_prompt", .str "be brief")]
      = .ok (baseRequest "gpt-4"
          [[("role", .str "system"), ("content", .str "be brief")],
           [("role", .str "user"), ("content", .str "hello")]]) ∧
    List.lookup "messages" (baseRequest "gpt-4"
          [[("role", Value.str "system"), ("content", Value.str "be brief")],
           [("role", .str "user"), ("content", .str "hello")]])
      = some (.mapSlice (systemMessages "system" [("system_prompt", .str "be brief")]
          ++ [helloMessage].map wireMessage)) :=
  ⟨by rfl,
    (PrepareRequestWithMessages_messages gpt4Provider [helloMessage]
      [("system_prompt", .str "be brief")] _ (by rfl) (by rfl) (by rfl)).1⟩

/-! ## Response parser, standard path: the claims -/

/-- C25: for every decoded body with no choice, `ParseResponse` returns the empty text and
the empty-response error, and `ParseResponseWithUsage` returns the empty text, nil details
and the same error when the body has no output item either. -/
theorem empty_response_error (f : String → Value → Option String) (response : ResponseBody)
    (hc : response.Choices = []) :
    ParseResponse f (some response.Choices) = ("", some .emptyResponse) ∧
    (response.Output = [] →
      ParseResponseWithUsageReturn f (some response)
        = { text := "", details := none, err := some .emptyResponse }) := by
  constructor
  · rw [hc]
    rfl
  · intro ho
    unfold ParseResponseWithUsageReturn
    simp [ho, hc]

/-- Witness of C25: the body `{"id":"chatcmpl-1","model":"gpt-4","choices":[],"usage":{...}}`. -/
theorem empty_response_error_witness :
    ParseResponse sampleFormat (some (standardBody []).Choices) = ("", some .emptyResponse) ∧
    ParseResponseWithUsageReturn sampleFormat (some (standardBody []))
      = { text := "", details := none, err := some .emptyResponse } :=
  ⟨(empty_response_error sampleFormat (standardBody []) rfl).1,
   (empty_response_error sampleFormat (standardBody []) rfl).2 rfl⟩

/-- C26: when the message of the first choice has a non-empty content, `ParseResponse`
returns that content with a nil error, and so does `ParseResponseWithUsage` (with the
details) on a body without output items, whatever the tool calls of the message and the
later choices. -/
theorem content_returned (f : String → Value → Option String) (response : ResponseBody)
    (message : MessageBody) (rest : List MessageBody)
    (hc : response.Choices = message :: rest) (hne : message.Content ≠ "") :
    ParseResponse f (some response.Choices) = (message.Content, none) ∧
    (response.Output = [] →
      ParseResponseWithUsageReturn f (some response)
        = { text := message.Content, details := some (baseDetails response), err := none }) := by
  have hb : (message.Content != "") = true := by simpa using hne
  constructor
  · rw [hc]
    simp [ParseResponse, hb]
  · intro ho
    unfold ParseResponseWithUsageReturn
    simp [ho, hc, hb, baseDetails]

/-- Witness of C26: a first message with content and a tool call, followed by a second
choice. -/
theorem content_returned_witness :
    ParseResponse sampleFormat (some (standardBody
        [{ Content := "hi", ToolCalls := [sampleCall "f"] },
         { Content := "other", ToolCalls := [] }]).Choices) = ("hi", none) :=
  (content_returned sampleFormat (standardBody
      [{ Content := "hi", ToolCalls := [sampleCall "f"] },
       { Content := "other", ToolCalls := [] }])
    { Content := "hi", ToolCalls := [sampleCall "f"] }
    [{ Content := "other", ToolCalls := [] }] rfl (by decide)).1

/-- C27: when the message of the first choice has an empty content and at least one tool
call, and every call has arguments that decode and a formatted form `strs[i]`, then
`ParseResponse` and `ParseResponseWithUsage` (on a body without output items) return the
formatted forms joined by `"\n"`, in the order of the calls. -/
theorem tool_calls_joined (f : String → Value → Option String) (response : ResponseBody)
    (message : MessageBody) (rest : List MessageBody) (strs : List String)
    (hc : response.Choices = message :: rest) (he : message.Content = "")
    (hk : message.ToolCalls ≠ [])
    (hf : message.ToolCalls.map (formattedCall f) = strs.map some) :
    ParseResponse f (some response.Choices) = ("\n".intercalate strs, none) ∧
    (response.Output = [] →
      ParseResponseWithUsageReturn f (some response)
        = { text := "\n".intercalate strs, details := some (baseDetails response),
            err := none }) := by
  have hb : (message.Content != "") = false := by simp [he]
  have hl : message.ToolCalls.length > 0 := by
    cases ht : message.ToolCalls with
    | nil => exact absurd ht hk
    | cons a l => simp
  have hfc := formatCalls_eq f message.ToolCalls strs [] hf
  simp only [List.nil_append] at hfc
  constructor
  · rw [hc]
    simp [ParseResponse, hb, hl, hfc]
  · intro ho
    unfold ParseResponseWithUsageReturn
    simp [ho, hc, hb, hl, hfc, baseDetails]

/-- Witness of C27: two calls `f` and `g` give the text `f()`, a newline, `g()`. -/
theorem tool_calls_joined_witness :
    ParseResponse sampleFormat (some (standardBody
        [{ Content := "", ToolCalls := [sampleCall "f", sampleCall "g"] }]).Choices)
      = ("\n".intercalate ["f()", "g()"], none) ∧
    "\n".intercalate ["f()", "g()"] = "f()\ng()" :=
  ⟨(tool_calls_joined sampleFormat (standardBody
      [{ Content := "", ToolCalls := [sampleCall "f", sampleCall "g"] }])
      { Content := "", ToolCalls := [sampleCall "f", sampleCall "g"] } [] ["f()", "g()"]
      rfl rfl (by simp) (by rfl)).1, by decide⟩

/-- C28: when the message of the first choice has an empty content and no tool call,
`ParseResponse` and `ParseResponseWithUsage` (on a body without output items) return the
no-content error; and whenever `ParseResponseWithUsage` returns an error, its text is
empty and its details are nil. -/
theorem no_content_error (f : String → Value → Option String) (response : ResponseBody)
    (message : MessageBody) (rest : List MessageBody)
    (hc : response.Choices = message :: rest) (he : message.Content = "")
    (ht : message.ToolCalls = []) :
    ParseResponse f (some response.Choices) = ("", some .noContent) ∧
    (response.Output = [] →
      ParseResponseWithUsageReturn f (some response)
        = { text := "", details := none, err := some .noContent }) ∧
    (∀ decoded, (ParseResponseWithUsageReturn f decoded).err ≠ none →
      (ParseResponseWithUsageReturn f decoded).text = "" ∧
      (ParseResponseWithUsageReturn f decoded).details = none) := by
  have hb : (message.Content != "") = false := by simp [he]
  refine ⟨?_, ?_, ?_⟩
  · rw [hc]
    simp [ParseResponse, hb, ht]
  · intro ho
    unfold ParseResponseWithUsageReturn
    simp [ho, hc, hb, ht]
  · intro decoded
    rw [ParseResponseWithUsageReturn_eq]
    cases ParseResponseWithUsage f decoded with
    | ok r => intro h; exact absurd rfl h
    | error e => intro _; exact ⟨rfl, rfl⟩

/-- Witness of C28: one choice whose message is empty. -/
theorem no_content_error_witness :
    ParseResponse sampleFormat (some (standardBody [{ Content := "", ToolCalls := [] }]).Choices)
      = ("", some .noContent) ∧
    ParseResponseWithUsageReturn sampleFormat
        (some (standardBody [{ Content := "", ToolCalls := [] }]))
      = { text := "", details := none, err := some .noContent } :=
  ⟨(no_content_error sampleFormat (standardBody [{ Content := "", ToolCalls := [] }])
      { Content := "", ToolCalls := [] } [] rfl rfl rfl).1,
   (no_content_error sampleFormat (standardBody [{ Content := "", ToolCalls := [] }])
      { Content := "", ToolCalls := [] } [] rfl rfl rfl).2.1 rfl⟩

/-- C29: whenever `ParseResponseWithUsage` returns a nil error, on either path, its details
are non-nil and hold the id, the model and the three usage counts of the decoded body,
with both cache counts 0; and the error and the text it returns do not depend on the
usage of the body. -/
theorem details_from_body (f : String → Value → Option String) (response : ResponseBody)
    (h : (ParseResponseWithUsageReturn f (some response)).err = none) :
    (∃ details, (ParseResponseWithUsageReturn f (some response)).details = some details ∧
      details.ID = response.ID ∧ details.Model = response.Model ∧
      details.TokenUsage.PromptTokens = response.Usage.PromptTokens ∧
      details.TokenUsage.CompletionTokens = response.Usage.CompletionTokens ∧
      details.TokenUsage.TotalTokens = response.Usage.TotalTokens ∧
      details.TokenUsage.CacheCreationInputTokens = 0 ∧
      details.TokenUsage.CacheReadInputTokens = 0) ∧
    (∀ usage : UsageBody,
      (ParseResponseWithUsageReturn f (some { response with Usage := usage })).err = none ∧
      (ParseResponseWithUsageReturn f (some { response with Usage := usage })).text
        = (ParseResponseWithUsageReturn f (some response)).text) := by
  have key : ∀ r : ResponseBody,
      (ParseResponseWithUsageReturn f (some r)).details = none ∨
      (ParseResponseWithUsageReturn f (some r)).details = some (baseDetails r) ∨
      (ParseResponseWithUsageReturn f (some r)).details = some { baseDetails r with
        Metadata := [
          ("web_search_calls", .webSearchCalls (recordedCalls r.Output)),
          ("annotations", .annotations []),
          ("citations", .citations [])] } := by
    intro r
    by_cases ho : r.Output.length > 0
    · rw [ParseResponseWithUsageReturn_eq, ParseResponseWithUsage_output f r ho]
      exact Or.inr (Or.inr rfl)
    · unfold ParseResponseWithUsageReturn
      simp only [ho, if_false]
      split
      · exact Or.inl rfl
      · split
        · exact Or.inr (Or.inl rfl)
        · split
          · split
            · exact Or.inr (Or.inl rfl)
            · exact Or.inl rfl
          · exact Or.inl rfl
  have hsome : (ParseResponseWithUsageReturn f (some response)).details ≠ none := by
    intro hn
    rw [ParseResponseWithUsageReturn_eq] at h hn
    cases hr : ParseResponseWithUsage f (some response) with
    | ok r => rw [hr] at hn; cases hn
    | error e => rw [hr] at h; cases h
  have hindep : ∀ usage : UsageBody,
      (ParseResponseWithUsageReturn f (some { response with Usage := usage })).err
        = (ParseResponseWithUsageReturn f (some response)).err ∧
      (ParseResponseWithUsageReturn f (some { response with Usage := usage })).text
        = (ParseResponseWithUsageReturn f (some response)).text := by
    intro usage
    by_cases ho : response.Output.length > 0
    · have ho' : ({ response with Usage := usage } : ResponseBody).Output.length > 0 := ho
      rw [ParseResponseWithUsageReturn_eq, ParseResponseWithUsageReturn_eq,
        ParseResponseWithUsage_output f response ho, ParseResponseWithUsage_output f _ ho']
      exact ⟨rfl, rfl⟩
    · unfold ParseResponseWithUsageReturn
      simp only [ho, if_false]
      split
      · exact ⟨rfl, rfl⟩
      · split
        · exact ⟨rfl, rfl⟩
        · split
          · split <;> exact ⟨rfl, rfl⟩
          · exact ⟨rfl, rfl⟩
  constructor
  · rcases key response with hk | hk | hk
    · exact absurd hk hsome
    · exact ⟨_, hk, rfl, rfl, rfl, rfl, rfl, rfl, rfl⟩
    · exact ⟨_, hk, rfl, rfl, rfl, rfl, rfl, rfl, rfl⟩
  · intro usage
    obtain ⟨h1, h2⟩ := hindep usage
    exact ⟨h1.trans h, h2⟩

/-- Witness of C29: a standard body with usage 3, 4, 7 and one with output items. -/
theorem details_from_body_witness :
    ParseResponseWithUsageReturn sampleFormat
        (some (standardBody [{ Content := "hi", ToolCalls := [] }]))
      = { text := "hi",
          details := some (baseDetails (standardBody [{ Content := "hi", ToolCalls := [] }])),
          err := none } ∧
    (baseDetails (standardBody [{ Content := "hi", ToolCalls := [] }])).TokenUsage.TotalTokens
      = 7 ∧
    (∃ details, (ParseResponseWithUsageReturn sampleFormat (some searchBody)).details
        = some details ∧
      details.ID = searchBody.ID ∧ details.Model = searchBody.Model ∧
      details.TokenUsage.PromptTokens = searchBody.Usage.PromptTokens ∧
      details.TokenUsage.CompletionTokens = searchBody.Usage.CompletionTokens ∧
      details.TokenUsage.TotalTokens = searchBody.Usage.TotalTokens ∧
      details.TokenUsage.CacheCreationInputTokens = 0 ∧
      details.TokenUsage.CacheReadInputTokens = 0) :=
  ⟨by rfl, by rfl, (details_from_body sampleFormat searchBody (by rfl)).1⟩

/-! ## Stream decoder: the claims -/

/-- C30: for every chunk all of whose characters are white space (the empty chunk
included), whatever the decoder would yield, `ParseStreamResponse` returns the empty delta
and the error "empty chunk"; that error is not `io.EOF`, not the error "skip token", not
an error "malformed response: ..." and not the error "no choices in response". -/
theorem whitespace_chunk_error (chunk : String) (decoded : Except String (List StreamChoice))
    (h : chunk.toList.all isSpace = true) :
    ParseStreamResponse chunk decoded = ("", some (.message "empty chunk")) ∧
    StreamError.message "empty chunk" ≠ .eof ∧
    StreamError.message "empty chunk" ≠ .message "skip token" ∧
    (∀ e : String, StreamError.message "empty chunk" ≠ .message ("malformed response: " ++ e)) ∧
    StreamError.message "empty chunk" ≠ .message "no choices in response" := by
  refine ⟨?_, ?_, ?_, ?_, ?_⟩
  · have ht : trimSpace chunk.toList = [] := trimSpace_of_all h
    unfold ParseStreamResponse
    rw [ht]
    rfl
  · intro hne
    cases hne
  · intro hne
    injection hne with hs
    revert hs
    decide
  · intro e hne
    injection hne with hs
    have h' := congrArg String.data hs
    rw [String.data_append] at h'
    have h0 := congrArg List.head? h'
    simp at h0
  · intro hne
    injection hne with hs
    revert hs
    decide

/-- Witness of C30: a chunk made of a blank, a tab and a line feed. -/
theorem whitespace_chunk_error_witness :
    (" \t\n" : String).toList.all isSpace = true ∧
    ParseStreamResponse " \t\n" (.ok []) = ("", some (.message "empty chunk")) :=
  ⟨by decide, (whitespace_chunk_error " \t\n" (.ok []) (by decide)).1⟩

/-! ## Request builders: messages, response format and reasoning effort -/

/-- C21, as stated, fails: the metadata of a message is copied into its wire message after
`role` and `content` are set, so a metadata entry `role` replaces the role of the input
message. -/
theorem wire_role_replaced :
    metadataMessage.Role = "user" ∧
    PrepareRequestWithMessages gpt4Provider [metadataMessage] []
      = .ok (baseRequest "gpt-4"
          [[("role", .str "system"), ("content", .str "hello")]]) :=
  ⟨by rfl, by rfl⟩

/-- C21, amended: when neither the call options nor the provider-level options hold a
`messages` key, the `messages` array of a request built by `PrepareRequestWithMessages`
holds, after the optional system message, one wire message for each input message, in
input order; the wire message of an input message has `role` equal to its `Role` when its
metadata holds no `role` key and `content` equal to its `Content` when its metadata holds
no `content` key. -/
theorem wire_role_content (p : OpenAIProvider) (messages : List MemoryMessage)
    (options req : GoMap)
    (ho : options.lookup "messages" = none) (hp : p.options.lookup "messages" = none)
    (h : PrepareRequestWithMessages p messages options = .ok req) :
    req.lookup "messages"
      = some (.mapSlice (systemMessages "system" options ++ messages.map wireMessage)) ∧
    (∀ msg ∈ messages, "role" ∉ msg.Metadata.map Prod.fst →
      (wireMessage msg).lookup "role" = some (.str msg.Role)) ∧
    (∀ msg ∈ messages, "content" ∉ msg.Metadata.map Prod.fst →
      (wireMessage msg).lookup "content" = some (.str msg.Content)) := by
  refine ⟨?_, ?_, ?_⟩
  · rw [PrepareRequestWithMessages_eq] at h
    split at h
    · cases h
    · rename_i r3 h3
      simp only [Except.ok.injEq] at h
      rw [← h]
      apply lookup_messages_finish p _ _ _ (keys_mergedMessagesOptions_nodup p options)
        (lookup_merge_of_absent _ _ _ _ _ ho hp)
      rw [lookup_handleTools h3 (by decide) (by decide)]
      rfl
  · intro msg _ hk
    rw [lookup_wireMessage msg _ hk]
    rfl
  · intro msg _ hk
    rw [lookup_wireMessage msg _ hk]
    rfl

/-- Witness of C21, amended: a message whose metadata holds the key `name`. -/
theorem wire_role_content_witness :
    PrepareRequestWithMessages gpt4Provider
        [{ helloMessage with Metadata := [("name", .str "ann")] }] []
      = .ok (baseRequest "gpt-4"
          [[("role", .str "user"), ("content", .str "hello"), ("name", .str "ann")]]) ∧
    List.lookup "role" (wireMessage { helloMessage with Metadata := [("name", .str "ann")] })
      = some (.str "user") :=
  ⟨by rfl,
    (wire_role_content gpt4Provider
      [{ helloMessage with Metadata := [("name", .str "ann")] }] [] _ (by rfl) (by rfl)
      (by rfl)).2.1 _ (List.mem_singleton.mpr rfl) (by decide)⟩

/-- C22, as stated, fails: the call options hold no `messages` key, but the provider-level
options do, and their value replaces the message array `PrepareRequest` built. -/
theorem PrepareRequest_messages_replaced :
    List.lookup "messages" ([("system_prompt", .str "be brief")] : GoMap) = none ∧
    PrepareRequest messagesProvider "hi" [("system_prompt", .str "be brief")]
      = .ok [("model", .str "gpt-4"), ("messages", .str "x")] :=
  ⟨by rfl, by rfl⟩

/-- C22, amended: when neither the call options nor the provider-level options hold a
`messages` key, the `messages` array of a request built by `PrepareRequest` is the
developer message of `system_prompt` followed by the user message of the prompt when
`system_prompt` is a non-empty string, and the user message alone otherwise;
`PrepareRequestWithSchema` builds the same with the leading role `system`. -/
theorem prompt_messages (p : OpenAIProvider) (prompt : String) (options : GoMap)
    (ho : options.lookup "messages" = none) (hp : p.options.lookup "messages" = none) :
    (∀ req, PrepareRequest p prompt options = .ok req →
      (∀ s, options.lookup "system_prompt" = some (.str s) → s ≠ "" →
        req.lookup "messages"
          = some (.mapSlice [[("role", .str "developer"), ("content", .str s)],
              [("role", .str "user"), ("content", .str prompt)]])) ∧
      ((∀ s, options.lookup "system_prompt" = some (.str s) → s = "") →
        req.lookup "messages"
          = some (.mapSlice [[("role", .str "user"), ("content", .str prompt)]]))) ∧
    (∀ schema req, PrepareRequestWithSchema p prompt options schema = .ok req →
      (∀ s, options.lookup "system_prompt" = some (.str s) → s ≠ "" →
        req.lookup "messages"
          = some (.mapSlice [[("role", .str "system"), ("content", .str s)],
              [("role", .str "user"), ("content", .str prompt)]])) ∧
      ((∀ s, options.lookup "system_prompt" = some (.str s) → s = "") →
        req.lookup "messages"
          = some (.mapSlice [[("role", .str "user"), ("content", .str prompt)]]))) := by
  constructor
  · intro req h
    have hm : req.lookup "messages"
        = some (.mapSlice (systemMessages "developer" options ++ [userMessage prompt])) := by
      rw [PrepareRequest_eq] at h
      split at h
      · cases h
      · rename_i r3 h3
        simp only [Except.ok.injEq] at h
        rw [← h]
        apply lookup_messages_finish p _ _ _ (keys_mergedRequestOptions_nodup p options)
          (lookup_merge_of_absent _ _ _ _ _ ho hp)
        rw [lookup_handleTools h3 (by decide) (by decide)]
        rfl
    constructor
    · intro s hs hne
      rw [hm, systemMessages_of_prompt _ _ s hs hne]
      rfl
    · intro hall
      rw [hm, systemMessages_of_no_prompt _ _ hall]
      rfl
  · intro schema req h
    have hm : req.lookup "messages"
        = some (.mapSlice (systemMessages "system" options ++ [userMessage prompt])) := by
      rw [PrepareRequestWithSchema_eq] at h
      split at h
      · cases h
      · simp only [Except.ok.injEq] at h
        have hn : (resolveQuirks p (mergedSchemaOptions p options)).lookup "messages" = none := by
          rw [lookup_resolveQuirks_other _ _ _ (by decide)]
          exact lookup_merge_of_absent _ _ _ _ _ ho hp
        rw [← h, lookup_addOptions _ _ _
          (keys_resolveQuirks_nodup p _ (keys_mergedSchemaOptions_nodup p options)), hn]
        rfl
    constructor
    · intro s hs hne
      rw [hm, systemMessages_of_prompt _ _ s hs hne]
      rfl
    · intro hall
      rw [hm, systemMessages_of_no_prompt _ _ hall]
      rfl

/-- Witness of C22, amended: `gpt-4` with a system prompt. -/
theorem prompt_messages_witness :
    PrepareRequest gpt4Provider "hi" [("system_prompt", .str "be brief")]
      = .ok (baseRequest "gpt-4"
          [[("role", .str "developer"), ("content", .str "be brief")],
           [("role", .str "user"), ("content", .str "hi")]]) ∧
    List.lookup "messages" (baseRequest "gpt-4"
          [[("role", Value.str "developer"), ("content", Value.str "be brief")],
           [("role", .str "user"), ("content", .str "hi")]])
      = some (.mapSlice [[("role", .str "developer"), ("content", .str "be brief")],
          [("role", .str "user"), ("content", .str "hi")]]) :=
  ⟨by rfl,
    ((prompt_messages gpt4Provider "hi" [("system_prompt", .str "be brief")]
      (by rfl) (by rfl)).1 _ (by rfl)).1 "be brief" (by rfl) (by decide)⟩

/-- C23, as stated, fails: the call options hold no `response_format` key, but the
provider-level options do, and their value replaces the schema directive
`PrepareRequestWithSchema` built. -/
theorem response_format_replaced :
    List.lookup "response_format" ([] : GoMap) = none ∧
    PrepareRequestWithSchema formatProvider "hi" [] (.object [("type", .str "object")])
      = .ok [("model", .str "gpt-4"),
             ("messages", .mapSlice [[("role", .str "user"), ("content", .str "hi")]]),
             ("response_format", .map [("type", .str "json_object")])] :=
  ⟨by rfl, by rfl⟩

/-- C23, amended: when neither the call options nor the provider-level options hold a
`response_format` key and the schema argument yields a JSON value,
`PrepareRequestWithSchema` returns a request whose `response_format` is
`{type: "json_schema", json_schema: {name: "structured_response", schema: S, strict: true}}`
with `S` the value `cleanSchemaForOpenAI` gives for the schema; a schema given as a map
always yields itself. -/
theorem response_format_built (p : OpenAIProvider) (prompt : String) (options : GoMap)
    (schema : SchemaArg) (schemaObj : Value)
    (ho : options.lookup "response_format" = none)
    (hp : p.options.lookup "response_format" = none)
    (hs : schema.schemaObj = some schemaObj) :
    (∃ req, PrepareRequestWithSchema p prompt options schema = .ok req ∧
      req.lookup "response_format"
        = some (.map [("type", .str "json_schema"),
            ("json_schema", .map [("name", .str "structured_response"),
              ("schema", cleanSchemaForOpenAI schemaObj),
              ("strict", .bool true)])])) ∧
    (∀ m, SchemaArg.schemaObj (.object m) = some (.map m)) := by
  refine ⟨⟨_, by rw [PrepareRequestWithSchema_eq, hs], ?_⟩, fun _ => rfl⟩
  have hn : (resolveQuirks p (mergedSchemaOptions p options)).lookup "response_format"
      = none := by
    rw [lookup_resolveQuirks_other _ _ _ (by decide)]
    exact lookup_merge_of_absent _ _ _ _ _ ho hp
  rw [lookup_addOptions _ _ _
    (keys_resolveQuirks_nodup p _ (keys_mergedSchemaOptions_nodup p options)), hn]
  rfl

/-- Witness of C23, amended: an object schema with a `minLength` rule, for `gpt-4`. -/
theorem response_format_built_witness :
    ∃ req, PrepareRequestWithSchema gpt4Provider "hi" [("temperature", .float 1)]
        (.object [("type", .str "string"), ("minLength", .int 1)]) = .ok req ∧
      req.lookup "response_format"
        = some (.map [("type", .str "json_schema"),
            ("json_schema", .map [("name", .str "structured_response"),
              ("schema", cleanSchemaForOpenAI
                (.map [("type", .str "string"), ("minLength", .int 1)])),
              ("strict", .bool true)])]) :=
  (response_format_built gpt4Provider "hi" [("temperature", .float 1)]
    (.object [("type", .str "string"), ("minLength", .int 1)]) _ (by rfl) (by rfl)
    (by rfl)).1

/-- C24: `needsReasoningEffort` holds exactly for a model whose identifier starts with
`o` or contains `-5`; a request built by any of the four builders for a model without it
holds no `reasoning_effort` key, whatever the call-level and provider-level options; for
a model with it and call options that hold `reasoning_effort = v`, the request holds
`reasoning_effort = v`. -/
theorem reasoning_effort_forwarded (p : OpenAIProvider) (prompt : String)
    (messages : List MemoryMessage) (schema : SchemaArg) (options req : GoMap)
    (h : PrepareRequest p prompt options = .ok req ∨
      PrepareRequestWithSchema p prompt options schema = .ok req ∨
      PrepareStreamRequest p prompt options = .ok req ∨
      PrepareRequestWithMessages p messages options = .ok req) :
    needsReasoningEffort p
      = (stringsHasPrefix p.model "o" || stringsContains p.model "-5") ∧
    (needsReasoningEffort p = false → "reasoning_effort" ∉ req.map Prod.fst) ∧
    (needsReasoningEffort p = true → keysUnique (options.map Prod.fst) = true →
      ∀ v, options.lookup "reasoning_effort" = some v →
        req.lookup "reasoning_effort" = some v) := by
  refine ⟨?_, ?_, ?_⟩
  · unfold needsReasoningEffort
    cases stringsHasPrefix p.model "o" <;> cases stringsContains p.model "-5" <;> rfl
  · intro hn
    apply not_mem_keys_of_lookup_eq_none
    rcases h with h | h | h | h
    · rw [PrepareRequest_lookup h (by decide)]
      exact lookup_resolveQuirks_reasoning_none p _ hn
    · rw [PrepareRequestWithSchema_lookup h (by decide)]
      exact lookup_resolveQuirks_reasoning_none p _ hn
    · rw [PrepareStreamRequest_lookup h (by decide)]
      exact lookup_resolveQuirks_reasoning_none p _ hn
    · rw [PrepareRequestWithMessages_lookup h (by decide)]
      exact lookup_resolveQuirks_reasoning_none p _ hn
  · intro hn hu v hv
    rcases h with h | h | h | h
    · rw [PrepareRequest_lookup h (by decide), lookup_resolveQuirks_reasoning p _ hn]
      exact lookup_merge_of_call _ _ _ _ _ v (by decide) hu hv
    · rw [PrepareRequestWithSchema_lookup h (by decide), lookup_resolveQuirks_reasoning p _ hn]
      exact lookup_merge_of_call _ _ _ _ _ v (by decide) hu hv
    · rw [PrepareStreamRequest_lookup h (by decide), lookup_resolveQuirks_reasoning p _ hn]
      exact lookup_merge_of_call _ _ _ _ _ v (by decide) hu hv
    · rw [PrepareRequestWithMessages_lookup h (by decide),
        lookup_resolveQuirks_reasoning p _ hn]
      exact lookup_merge_of_call _ _ _ _ _ v (by decide) hu hv

/-- Witness of C24: `gpt-4` drops the `reasoning_effort` of the call options and `o1-mini`
forwards it. -/
theorem reasoning_effort_forwarded_witness :
    (PrepareRequest gpt4Provider "hi" [("reasoning_effort", .str "high")]
      = .ok (plainRequest "gpt-4") ∧
    needsReasoningEffort gpt4Provider = false ∧
    "reasoning_effort" ∉ (plainRequest "gpt-4").map Prod.fst) ∧
    (PrepareStreamRequest o1Provider "hi" [("reasoning_effort", .str "high")]
      = .ok [("model", .str "o1-mini"),
             ("messages", .strMapSlice [[("role", "user"), ("content", "hi")]]),
             ("stream", .bool true), ("reasoning_effort", .str "high")] ∧
    needsReasoningEffort o1Provider = true ∧
    List.lookup "reasoning_effort"
        [("model", Value.str "o1-mini"),
         ("messages", .strMapSlice [[("role", "user"), ("content", "hi")]]),
         ("stream", .bool true), ("reasoning_effort", .str "high")]
      = some (.str "high")) :=
  ⟨⟨by rfl, by decide,
    (reasoning_effort_forwarded gpt4Provider "hi" [] (.object [])
      [("reasoning_effort", .str "high")] _ (Or.inl (by rfl))).2.1 (by decide)⟩,
   ⟨by rfl, by decide,
    (reasoning_effort_forwarded o1Provider "hi" [] (.object [])
      [("reasoning_effort", .str "high")] _ (Or.inr (Or.inr (Or.inl (by rfl))))).2.2
      (by decide) (by decide) _ (by rfl)⟩⟩

/-! ## Stream decoder: terminator, first choice, malformed chunks -/

/-- C31: for every chunk that equals `[DONE]` once its leading and trailing white space is
trimmed, whatever the decoder would yield, `ParseStreamResponse` returns the empty delta
and `io.EOF`. -/
theorem done_chunk_eof (chunk : String) (decoded : Except String (List StreamChoice))
    (h : trimSpace chunk.toList = "[DONE]".toList) :
    ParseStreamResponse chunk decoded = ("", some .eof) := by
  unfold ParseStreamResponse
  rw [h]
  rfl

/-- Witness of C31: the terminator between a blank and a line feed. -/
theorem done_chunk_eof_witness :
    trimSpace (" [DONE]\n" : String).toList = "[DONE]".toList ∧
    ParseStreamResponse " [DONE]\n" (.error "invalid character") = ("", some .eof) :=
  ⟨by decide, done_chunk_eof " [DONE]\n" (.error "invalid character") (by decide)⟩

/-- C32: for every chunk that is not blank and not the terminator and decodes to at least
one choice, the result is decided by the first choice alone: a non-empty finish reason
gives `io.EOF` with the empty delta; otherwise a non-empty role with an empty content
gives the error "skip token"; otherwise the content is returned as it is, with a nil
error. -/
theorem first_choice_decides (chunk : String) (choice : StreamChoice) (rest : List StreamChoice)
    (hb : (trimSpace chunk.toList).length ≠ 0)
    (hd : trimSpace chunk.toList ≠ "[DONE]".toList) :
    (choice.FinishReason ≠ "" →
      ParseStreamResponse chunk (.ok (choice :: rest)) = ("", some .eof)) ∧
    (choice.FinishReason = "" → choice.Role ≠ "" → choice.Content = "" →
      ParseStreamResponse chunk (.ok (choice :: rest)) = ("", some (.message "skip token"))) ∧
    (choice.FinishReason = "" → (choice.Role = "" ∨ choice.Content ≠ "") →
      ParseStreamResponse chunk (.ok (choice :: rest)) = (choice.Content, none)) ∧
    (∀ other : List StreamChoice,
      ParseStreamResponse chunk (.ok (choice :: other))
        = ParseStreamResponse chunk (.ok (choice :: rest))) := by
  refine ⟨?_, ?_, ?_, ?_⟩
  · intro hf
    rw [ParseStreamResponse_decoded chunk _ hb hd]
    simp [hf]
  · intro hf hr hc
    rw [ParseStreamResponse_decoded chunk _ hb hd]
    simp [hf, hr, hc]
  · intro hf hrc
    rw [ParseStreamResponse_decoded chunk _ hb hd]
    rcases hrc with hr | hc
    · simp [hf, hr]
    · simp [hf, hc]
  · intro other
    rw [ParseStreamResponse_decoded chunk _ hb hd, ParseStreamResponse_decoded chunk _ hb hd]

/-- Witness of C32: the chunk `{"choices":[{"delta":{"role":"assistant"}}]}` gives the
skip error and the chunk `{"choices":[{"delta":{"content":"hi"}}]}` gives `hi`. -/
theorem first_choice_decides_witness :
    ParseStreamResponse roleChunk
        (.ok [{ Role := "assistant", Content := "", FinishReason := "" }])
      = ("", some (.message "skip token")) ∧
    ParseStreamResponse contentChunk
        (.ok [{ Role := "", Content := "hi", FinishReason := "" }])
      = ("hi", none) :=
  ⟨(first_choice_decides roleChunk { Role := "assistant", Content := "", FinishReason := "" } []
      (by decide) (by decide)).2.1 rfl (by decide) rfl,
   (first_choice_decides contentChunk { Role := "", Content := "hi", FinishReason := "" } []
      (by decide) (by decide)).2.2.1 rfl (Or.inl rfl)⟩

/-- C33: for every chunk that is not blank and not the terminator, a decoding failure
gives the error "malformed response: ..." and a decoded chunk without choices gives the
error "no choices in response"; both come with the empty delta, and neither error is
`io.EOF`. -/
theorem malformed_or_no_choices (chunk : String)
    (hb : (trimSpace chunk.toList).length ≠ 0)
    (hd : trimSpace chunk.toList ≠ "[DONE]".toList) :
    (∀ e : String, ParseStreamResponse chunk (.error e)
      = ("", some (.message ("malformed response: " ++ e)))) ∧
    ParseStreamResponse chunk (.ok []) = ("", some (.message "no choices in response")) ∧
    (∀ e : String, StreamError.message ("malformed response: " ++ e) ≠ .eof) ∧
    StreamError.message "no choices in response" ≠ .eof := by
  refine ⟨?_, ?_, ?_, ?_⟩
  · intro e
    rw [ParseStreamResponse_decoded chunk _ hb hd]
  · rw [ParseStreamResponse_decoded chunk _ hb hd]
  · intro e hne
    cases hne
  · intro hne
    cases hne

/-- Witness of C33: the chunk `not json` with a decoding failure and the chunk
`{"choices":[]}`. -/
theorem malformed_or_no_choices_witness :
    ParseStreamResponse "not json" (.error "invalid character")
      = ("", some (.message ("malformed response: " ++ "invalid character"))) ∧
    ParseStreamResponse noChoicesChunk (.ok [])
      = ("", some (.message "no choices in response")) :=
  ⟨(malformed_or_no_choices "not json" (by decide) (by decide)).1 "invalid character",
   (malformed_or_no_choices noChoicesChunk (by decide) (by decide)).2.1⟩

/-! ## SetOption: the claims -/

/-- C34: `SetOption("max_tokens", v)` on a provider whose model needs
`max_completion_tokens` stores `v` under `max_completion_tokens` and leaves no `max_tokens`
entry in the options; on any other model it stores `v` under `max_tokens` and leaves no
`max_completion_tokens` entry. -/
theorem SetOption_max_tokens (p : OpenAIProvider) (v : Value) :
    (needsMaxCompletionTokens p = true →
      (SetOption p "max_tokens" v).options.lookup "max_completion_tokens" = some v ∧
      "max_tokens" ∉ (SetOption p "max_tokens" v).options.map Prod.fst) ∧
    (needsMaxCompletionTokens p = false →
      (SetOption p "max_tokens" v).options.lookup "max_tokens" = some v ∧
      "max_completion_tokens" ∉ (SetOption p "max_tokens" v).options.map Prod.fst) := by
  constructor
  · intro h
    rw [SetOption_max_tokens_renamed p v h]
    refine ⟨lookup_mapSet_self _ _ _, not_mem_keys_of_lookup_eq_none _ _ ?_⟩
    rw [lookup_mapSet_ne _ _ _ _ (by decide)]
    exact lookup_mapDelete_self _ _
  · intro h
    rw [SetOption_max_tokens_kept p v h]
    refine ⟨lookup_mapSet_self _ _ _, not_mem_keys_of_lookup_eq_none _ _ ?_⟩
    rw [lookup_mapSet_ne _ _ _ _ (by decide)]
    exact lookup_mapDelete_self _ _

/-- Witness of C34: `gpt-4o`, whose options hold `max_tokens = 7`, and `gpt-4` after
`SetOption("max_completion_tokens", 5)`. -/
theorem SetOption_max_tokens_witness :
    ((SetOption gpt4oProvider "max_tokens" (.int 9)).options
        = [("max_completion_tokens", .int 9)] ∧
      needsMaxCompletionTokens gpt4oProvider = true ∧
      "max_tokens" ∉ (SetOption gpt4oProvider "max_tokens" (.int 9)).options.map Prod.fst) ∧
    ((SetOption (SetOption gpt4Provider "max_completion_tokens" (.int 5))
        "max_tokens" (.int 9)).options = [("max_tokens", .int 9)] ∧
      needsMaxCompletionTokens gpt4Provider = false ∧
      "max_completion_tokens" ∉
        (SetOption (SetOption gpt4Provider "max_completion_tokens" (.int 5))
          "max_tokens" (.int 9)).options.map Prod.fst) :=
  ⟨⟨by rfl, by decide, ((SetOption_max_tokens gpt4oProvider (.int 9)).1 (by decide)).2⟩,
   ⟨by rfl, by decide,
    ((SetOption_max_tokens (SetOption gpt4Provider "max_completion_tokens" (.int 5))
      (.int 9)).2 (by decide)).2⟩⟩

/-- C35, on the code: `SetOption` ends with `p.options[key] = value` whatever the model, so
after `SetOption("reasoning_effort", v)` the options hold `reasoning_effort = v` and after
`SetOption("temperature", v)` they hold `temperature = v`, for every provider; so for
`gpt-4`, which has no reasoning effort, and for `o3-mini`, which takes no temperature. -/
theorem SetOption_stores_unsupported :
    (∀ (p : OpenAIProvider) (v : Value),
      (SetOption p "reasoning_effort" v).options.lookup "reasoning_effort" = some v ∧
      (SetOption p "temperature" v).options.lookup "temperature" = some v) ∧
    (needsReasoningEffort gpt4Provider = false ∧
      (SetOption gpt4Provider "reasoning_effort" (.str "high")).options
        = [("reasoning_effort", .str "high")]) ∧
    (needsNoTemperature o3Provider = true ∧
      (SetOption o3Provider "temperature" (.float 2)).options
        = [("temperature", .float 2)]) := by
  refine ⟨fun p v => ⟨?_, ?_⟩, ⟨by decide, by rfl⟩, ⟨by decide, by rfl⟩⟩
  · rw [SetOption_reasoning_effort]
    exact lookup_mapSet_self _ _ _
  · rw [SetOption_temperature]
    exact lookup_mapSet_self _ _ _

/-- C39: starting from a provider made by `NewOpenAIProvider`, after any finite sequence
of `SetOption` calls with arbitrary keys and values, the options do not hold both a
`max_tokens` entry and a `max_completion_tokens` entry. -/
theorem setOptions_single_token_limit (apiKey model : String)
    (extraHeaders : Option (List (String × String))) (calls : List (String × Value)) :
    ¬ ("max_tokens" ∈
        (setOptions (NewOpenAIProvider apiKey model extraHeaders) calls).options.map Prod.fst ∧
      "max_completion_tokens" ∈
        (setOptions (NewOpenAIProvider apiKey model extraHeaders) calls).options.map Prod.fst) := by
  have h0 : singleTokenLimit (NewOpenAIProvider apiKey model extraHeaders).options := by
    intro h
    cases h.1
  exact singleTokenLimit_setOptions calls _ h0

/-- Witness of C39: `max_completion_tokens`, then `temperature`, then `max_tokens` on
`gpt-4`. -/
theorem setOptions_single_token_limit_witness :
    (setOptions (NewOpenAIProvider "" "gpt-4" none)
        [("max_completion_tokens", .int 5), ("temperature", .float 1),
         ("max_tokens", .int 7)]).options
      = [("temperature", .float 1), ("max_tokens", .int 7)] ∧
    ¬ ("max_tokens" ∈
        (setOptions (NewOpenAIProvider "" "gpt-4" none)
          [("max_completion_tokens", .int 5), ("temperature", .float 1),
           ("max_tokens", .int 7)]).options.map Prod.fst ∧
      "max_completion_tokens" ∈
        (setOptions (NewOpenAIProvider "" "gpt-4" none)
          [("max_completion_tokens", .int 5), ("temperature", .float 1),
           ("max_tokens", .int 7)]).options.map Prod.fst) :=
  ⟨by rfl, setOptions_single_token_limit "" "gpt-4" none _⟩

/-! ## Web-search path: recorded calls, citations, dispatch -/

/-- C36: for every decoded body with at least one output item, `ParseResponseWithUsage`
returns details whose metadata holds, under `web_search_calls`, one record for each output
item of type `web_search_call`, in output order, with the id and the status of the item,
the type `web_search_call`, and an action exactly when the item has one, with its type
and its query; the other items give no record, and the keys `annotations` and
`citations` are set too. -/
theorem web_search_calls_recorded (f : String → Value → Option String)
    (response : ResponseBody) (h : response.Output.length > 0) :
    ∃ text details calls,
      ParseResponseWithUsage f (some response) = .ok (text, details) ∧
      details.Metadata.lookup "web_search_calls" = some (.webSearchCalls calls) ∧
      List.Forall₂ callOfItem (searchItems response.Output) calls ∧
      (∃ annotations, details.Metadata.lookup "annotations" = some (.annotations annotations)) ∧
      (∃ citations, details.Metadata.lookup "citations" = some (.citations citations)) :=
  ⟨_, _, _, ParseResponseWithUsage_output f response h, rfl,
    forall₂_callOfItem response.Output, ⟨_, rfl⟩, ⟨_, rfl⟩⟩

/-- Witness of C36: the body with the one call `ws_1`, whose action is a search for
`go`. -/
theorem web_search_calls_recorded_witness :
    ∃ text details calls,
      ParseResponseWithUsage sampleFormat (some searchBody) = .ok (text, details) ∧
      details.Metadata.lookup "web_search_calls" = some (.webSearchCalls calls) ∧
      List.Forall₂ callOfItem (searchItems searchBody.Output) calls ∧
      (∃ annotations, details.Metadata.lookup "annotations" = some (.annotations annotations)) ∧
      (∃ citations, details.Metadata.lookup "citations" = some (.citations citations)) :=
  web_search_calls_recorded sampleFormat searchBody (by decide)

/-- C37: whenever `parseWebSearchResponse` returns, the list it stores under `citations`
is the list of the annotations it stores under `annotations` whose type is
`url_citation`, in the same order, each with the type, the start index, the end index,
the url and the title of the annotation; so every citation has the type `url_citation`. -/
theorem citations_of_annotations (output : List Value) (details : ResponseDetails)
    (text : String) (result : ResponseDetails)
    (h : parseWebSearchResponse output details = some (text, result)) :
    ∃ annotations,
      result.Metadata.lookup "annotations" = some (.annotations annotations) ∧
      result.Metadata.lookup "citations" = some (.citations (citationsOf annotations)) ∧
      citationsOf annotations
        = (annotations.filter (fun ann => ann.Type_ == "url_citation")).map
            (fun ann => { Type_ := ann.Type_, StartIndex := ann.StartIndex,
                          EndIndex := ann.EndIndex, URL := ann.URL, Title := ann.Title }) ∧
      (∀ citation ∈ citationsOf annotations, citation.Type_ = "url_citation") := by
  unfold parseWebSearchResponse at h
  split at h
  · rename_i acc hacc
    simp only [Option.some.injEq, Prod.mk.injEq] at h
    obtain ⟨-, hres⟩ := h
    have hinv := parseOutput_citations output _ acc hacc rfl
    refine ⟨acc.annotations, ?_, ?_, rfl, ?_⟩
    · rw [← hres]
      simp only
      rw [lookup_metaSet_ne _ _ _ _ (by decide), lookup_metaSet_self]
    · rw [← hres]
      simp only
      rw [lookup_metaSet_self, hinv]
    · intro citation hc
      unfold citationsOf at hc
      obtain ⟨ann, hann, rfl⟩ := List.mem_map.mp hc
      simpa using (List.mem_filter.mp hann).2
  · cases h

/-- Witness of C37: a fragment with a `file_citation` and a `url_citation`; both are
annotations, the second alone is a citation. -/
theorem citations_of_annotations_witness :
    parseWebSearchResponse mixedOutputGeneric emptyDetails = some ("A", mixedDetails) ∧
    (∃ annotations,
      mixedDetails.Metadata.lookup "annotations" = some (.annotations annotations) ∧
      mixedDetails.Metadata.lookup "citations"
        = some (.citations (citationsOf annotations))) :=
  ⟨by rfl,
    (citations_of_annotations mixedOutputGeneric emptyDetails "A" mixedDetails (by rfl)).imp
      (fun _ h => ⟨h.1, h.2.1⟩)⟩

/-- C38: for every decoded body with at least one output item, whatever its choices,
`ParseResponseWithUsage` returns a nil error with non-nil details, and the text and the
details are those `parseWebSearchResponse` gives for the output items; the three results
do not change when the choices change, and the error is neither the empty-response error
nor the no-content error. -/
theorem output_takes_search_path (f : String → Value → Option String)
    (response : ResponseBody) (h : response.Output.length > 0) :
    (∃ text details,
      ParseResponseWithUsageReturn f (some response)
        = { text := text, details := some details, err := none } ∧
      parseWebSearchResponse (response.Output.map (fun item => .map (itemMap item)))
        (baseDetails response) = some (text, details)) ∧
    (∀ choices : List MessageBody,
      ParseResponseWithUsageReturn f (some { response with Choices := choices })
        = ParseResponseWithUsageReturn f (some response)) ∧
    (ParseResponseWithUsageReturn f (some response)).err ≠ some .emptyResponse ∧
    (ParseResponseWithUsageReturn f (some response)).err ≠ some .noContent := by
  have hr := ParseResponseWithUsage_output f response h
  have hret : ParseResponseWithUsageReturn f (some response)
      = { text := "",
          details := some { baseDetails response with
            Metadata := [
              ("web_search_calls", .webSearchCalls (recordedCalls response.Output)),
              ("annotations", .annotations []),
              ("citations", .citations [])] },
          err := none } := by
    rw [ParseResponseWithUsageReturn_eq, hr]
  refine ⟨⟨_, _, hret, ?_⟩, ?_, ?_, ?_⟩
  · simp only [parseWebSearchResponse, parseOutput_itemMap]
    rfl
  · intro choices
    have h' : ({ response with Choices := choices } : ResponseBody).Output.length > 0 := h
    rw [ParseResponseWithUsageReturn_eq, ParseResponseWithUsageReturn_eq, hr,
      ParseResponseWithUsage_output f _ h']
    rfl
  · rw [hret]
    intro hne
    cases hne
  · rw [hret]
    intro hne
    cases hne

/-- Witness of C38: the body with the call `ws_1` and, added to it, a choice with the
content `from choices`. -/
theorem output_takes_search_path_witness :
    ParseResponseWithUsageReturn sampleFormat
        (some { searchBody with Choices := [{ Content := "from choices", ToolCalls := [] }] })
      = ParseResponseWithUsageReturn sampleFormat (some searchBody) ∧
    (ParseResponseWithUsageReturn sampleFormat (some searchBody)).text = "" :=
  ⟨(output_takes_search_path sampleFormat searchBody (by decide)).2.1
      [{ Content := "from choices", ToolCalls := [] }], by rfl⟩

/-! ## Request builders: the model field -/

/-- C40, as stated, fails: a `model` entry of the call options replaces the model field of
the request; the request for the provider of `gpt-4` names `o3-mini` and keeps the
temperature, which `o3-mini` does not take. -/
theorem PrepareRequest_model_replaced :
    PrepareRequest gpt4Provider "hi" [("model", .str "o3-mini"), ("temperature", .float 1)]
      = .ok [("model", .str "o3-mini"),
             ("messages", .mapSlice [[("role", .str "user"), ("content", .str "hi")]]),
             ("temperature", .float 1)] ∧
    gpt4Provider.model = "gpt-4" ∧ modelNeedsNoTemperature "o3-mini" = true :=
  ⟨by rfl, by rfl, by decide⟩

/-- C40, amended: when neither the call options nor the provider-level options hold a
`model` key, the `model` field of a request built by `PrepareRequest` is the model of the
provider. -/
theorem model_sent (p : OpenAIProvider) (prompt : String) (options req : GoMap)
    (ho : options.lookup "model" = none) (hp : p.options.lookup "model" = none)
    (h : PrepareRequest p prompt options = .ok req) :
    req.lookup "model" = some (.str p.model) := by
  rw [PrepareRequest_eq] at h
  split at h
  · cases h
  · rename_i r3 h3
    simp only [Except.ok.injEq] at h
    rw [← h]
    apply lookup_finish_of_absent p _ _ _ _ (by decide) (by decide)
      (keys_mergedRequestOptions_nodup p options) (lookup_merge_of_absent _ _ _ _ _ ho hp)
    rw [lookup_handleTools h3 (by decide) (by decide)]
    rfl

/-- Witness of C40, amended: `gpt-4o` with a temperature in the call options. -/
theorem model_sent_witness :
    PrepareRequest gpt4oProvider "hi" [("temperature", .float 1)]
      = .ok (plainRequest "gpt-4o"
          ++ [("temperature", .float 1), ("max_completion_tokens", .int 7)]) ∧
    List.lookup "model" (plainRequest "gpt-4o"
          ++ [("temperature", Value.float 1), ("max_completion_tokens", Value.int 7)])
      = some (.str gpt4oProvider.model) :=
  ⟨by rfl, model_sent gpt4oProvider "hi" [("temperature", .float 1)] _ (by rfl) (by rfl)
    (by rfl)⟩

end Gollm
